import Mathlib

/-!
# EPS predictive FDIR: protection state machine

A shallow embedding of `deploy/stm32_package/eps_protection_final.{h,c}`.

Modelling conventions

* `float` values are exact rationals (`ℚ`); rounding of IEEE arithmetic is not
  modelled, so `0.3f`, `1.2f`, ... are the decimal fractions written in the header.
  The one place where rounding decides an outcome at ordinary inputs, the
  thresholds of the four anomaly conditions, is modelled a second time with
  binary32 rounding (definitions `F32.*`); the statements about where those
  thresholds lie are made of that second model.
* `uint8_t` / `uint32_t` values are natural numbers; every increment and every
  subtraction is reduced modulo `2^8` / `2^32` explicitly.
* The global arrays `panels[]` and `ground_commands[]` are fields of `System`.
* Calls into the hardware layer and the telemetry emitters are recorded, in
  call order, in `System.calls`.  `log_event` lines written directly by the state
  machine are console output only and are not recorded.
* `HAL_GetTick()` and `check_mosfet_status()` read the environment.  Their values
  during one call of `eps_protection_update` are the parameters `tick` and
  `mosfet_open`; as with the `sim_tick` placeholder of the source, the tick does
  not advance inside one call.
-/

namespace EPS

/-! ## Configuration (eps_protection_final.h) -/

abbrev NUM_PANELS : Nat := 13

def SIGMA_POWER : ℚ := 1 / 2
def ENABLE_TIMEOUT_MS : Nat := 300000
def STABLE_REQUIRED : Nat := 6
def RECOVERY_STABLE_REQ : Nat := 24
def POWER_SPIKE_MULT : ℚ := 12 / 10
def VOLTAGE_DROP_THRESH : ℚ := 1 / 2
def DP_DT_THRESH : ℚ := 1 / 2
def DV_DT_THRESH : ℚ := 3 / 10
def RESIDUAL_MULT : ℚ := 3

/-! ## Machine integers -/

/-- Value of a `uint8_t` after storing the natural number `n`. -/
def u8 (n : Nat) : Nat := n % 256

/-- Value of a `uint32_t` after storing the natural number `n`. -/
def u32 (n : Nat) : Nat := n % 4294967296

/-- Subtraction `a - b` on `uint32_t`, wrapping modulo `2^32`. -/
def u32_sub (a b : Nat) : Nat := (((a : Int) - (b : Int)) % 4294967296).toNat

/-! ## Data model -/

inductive ComparatorState_t where
  | COMP_DISABLED
  | COMP_ENABLED
  | COMP_TRIPPED
  | COMP_RECOVERY
  deriving DecidableEq, Repr

inductive GroundCommand_t where
  | CMD_NONE
  | CMD_REENABLE
  | CMD_PERMANENT_DISABLE
  | CMD_RESET_STATS
  deriving DecidableEq, Repr

open ComparatorState_t GroundCommand_t

structure PanelProtection_t where
  state : ComparatorState_t
  last_enable_time : Nat
  trip_time : Nat
  last_log_time : Nat
  stable_count : Nat
  P_prev : ℚ
  V_prev : ℚ
  hardware_tripped : Bool
  ground_approved : Bool
  P_nominal : ℚ
  V_nominal : ℚ
  enable_count : Nat
  trip_count : Nat
  false_alarm_count : Nat
  deriving DecidableEq

/-- Calls made by the protection logic into the hardware layer and the
telemetry sink, with their arguments. -/
inductive HwCall where
  | enable_layer2_comparator (panel_id : Nat)
  | disable_layer2_comparator (panel_id : Nat)
  | check_mosfet_status (panel_id : Nat)
  | attempt_reenable_mosfet (panel_id : Nat)
  | disable_mosfet (panel_id : Nat)
  | send_telemetry (panel_id : Nat) (V I P : ℚ)
  | send_telemetry_alert (panel_id : Nat) (P V : ℚ)
  | send_telemetry_success (panel_id : Nat)
  deriving DecidableEq

/-- The globals of `eps_protection_final.c` together with the record of calls. -/
structure System where
  panels : Fin NUM_PANELS → PanelProtection_t
  ground_commands : Fin NUM_PANELS → GroundCommand_t
  calls : List HwCall

/-- What one pass through the body of `eps_protection_update` leaves behind
for the addressed panel: its struct, its command slot, and the calls made. -/
structure Outcome where
  panel : PanelProtection_t
  command : GroundCommand_t
  calls : List HwCall

/-! ## Initialisation -/

/-- Value written to every `panels[i]` by `eps_protection_init`. -/
def init_panel_value : PanelProtection_t :=
  { state := COMP_DISABLED
    last_enable_time := 0
    trip_time := 0
    last_log_time := 0
    stable_count := 0
    P_prev := 0
    V_prev := 0
    hardware_tripped := false
    ground_approved := false
    P_nominal := 84 / 10
    V_nominal := 175 / 10
    enable_count := 0
    trip_count := 0
    false_alarm_count := 0 }

/-- The function `eps_protection_init`: every panel is reset and Layer 2 is disabled for
panels `0 .. 12` in order; the command slots are not touched. -/
def eps_protection_init (s : System) : System :=
  { panels := fun _ => init_panel_value
    ground_commands := s.ground_commands
    calls := s.calls ++ (List.range NUM_PANELS).map HwCall.disable_layer2_comparator }

/-- Memory image at start-up: zero-initialised `panels[]`, and
`ground_commands[] = {CMD_NONE}`. -/
def power_on : System :=
  { panels := fun _ =>
      { state := COMP_DISABLED
        last_enable_time := 0
        trip_time := 0
        last_log_time := 0
        stable_count := 0
        P_prev := 0
        V_prev := 0
        hardware_tripped := false
        ground_approved := false
        P_nominal := 0
        V_nominal := 0
        enable_count := 0
        trip_count := 0
        false_alarm_count := 0 }
    ground_commands := fun _ => CMD_NONE
    calls := [] }

/-- The function `eps_protection_init_panel`. -/
def eps_protection_init_panel (s : System) (panel_id : Nat) (P_nom V_nom : ℚ) : System :=
  if h : panel_id ≥ NUM_PANELS then s
  else
    let i : Fin NUM_PANELS := ⟨panel_id, Nat.lt_of_not_le h⟩
    { s with panels := Function.update s.panels i
              { s.panels i with P_nominal := P_nom, V_nominal := V_nom } }

/-! ## Ground commands -/

/-- The function `check_ground_command`. -/
def check_ground_command (s : System) (panel_id : Nat) (cmd : GroundCommand_t) : Bool :=
  if h : panel_id ≥ NUM_PANELS then false
  else decide (s.ground_commands ⟨panel_id, Nat.lt_of_not_le h⟩ = cmd)

/-- The function `process_ground_command`. -/
def process_ground_command (s : System) (panel_id : Nat) (cmd : GroundCommand_t) : System :=
  if h : panel_id ≥ NUM_PANELS then s
  else
    { s with
      ground_commands := Function.update s.ground_commands ⟨panel_id, Nat.lt_of_not_le h⟩ cmd }

/-! ## Anomaly conditions (locals of `eps_protection_update`) -/

def fabsf (x : ℚ) : ℚ := |x|

/-- Local `dP_dt`, computed from `P_prev` before it is overwritten. -/
def dP_dt (panel : PanelProtection_t) (P_measured : ℚ) : ℚ :=
  (P_measured - panel.P_prev) / 5

/-- Local `dV_dt`, computed from `V_prev` before it is overwritten. -/
def dV_dt (panel : PanelProtection_t) (V_measured : ℚ) : ℚ :=
  (V_measured - panel.V_prev) / 5

def residual_power (P_measured P_predicted : ℚ) : ℚ := P_measured - P_predicted

def power_spike (panel : PanelProtection_t) (P_predicted : ℚ) : Bool :=
  decide (P_predicted > panel.P_nominal * POWER_SPIKE_MULT)

def voltage_drop (V_measured V_predicted : ℚ) : Bool :=
  decide (V_measured < V_predicted - VOLTAGE_DROP_THRESH)

def high_dynamics (panel : PanelProtection_t) (P_measured V_measured : ℚ) : Bool :=
  decide (fabsf (dP_dt panel P_measured) > DP_DT_THRESH) &&
    decide (fabsf (dV_dt panel V_measured) > DV_DT_THRESH)

def large_residual (P_measured P_predicted : ℚ) : Bool :=
  decide (fabsf (residual_power P_measured P_predicted) > RESIDUAL_MULT * SIGMA_POWER)

/-- Local `condition_count`: the four booleans added as integers. -/
def condition_count (panel : PanelProtection_t)
    (P_measured V_measured P_predicted V_predicted : ℚ) : Nat :=
  u8 ((power_spike panel P_predicted).toNat + (voltage_drop V_measured V_predicted).toNat +
    (high_dynamics panel P_measured V_measured).toNat +
    (large_residual P_measured P_predicted).toNat)

/-- Local `anomaly_detected`. -/
def anomaly_detected (panel : PanelProtection_t)
    (P_measured V_measured P_predicted V_predicted : ℚ) : Bool :=
  decide (condition_count panel P_measured V_measured P_predicted V_predicted ≥ 2)

/-! ## The state machine -/

/-- Case `COMP_DISABLED`. -/
def case_disabled (panel_id : Nat) (panel : PanelProtection_t) (cmd : GroundCommand_t)
    (anomaly : Bool) (tick : Nat) : Outcome :=
  if anomaly then
    { panel := { panel with
        state := COMP_ENABLED
        last_enable_time := tick
        stable_count := 0
        enable_count := u32 (panel.enable_count + 1) }
      command := cmd
      calls := [HwCall.enable_layer2_comparator panel_id] }
  else
    { panel := panel, command := cmd, calls := [] }

/-- Case `COMP_ENABLED`, the `if / else if / else` chain on the MOSFET reading. -/
def case_enabled_chain (panel_id : Nat) (panel : PanelProtection_t)
    (anomaly : Bool) (P_measured V_measured : ℚ) (tick : Nat) (mosfet_open : Bool) :
    PanelProtection_t × List HwCall :=
  if mosfet_open then
    ({ panel with
        state := COMP_TRIPPED
        hardware_tripped := true
        trip_time := tick
        trip_count := u32 (panel.trip_count + 1) },
      [HwCall.send_telemetry_alert panel_id P_measured V_measured])
  else if !anomaly then
    let panel1 := { panel with stable_count := u8 (panel.stable_count + 1) }
    if panel1.stable_count ≥ STABLE_REQUIRED then
      ({ panel1 with
          state := COMP_DISABLED
          stable_count := 0
          false_alarm_count := u32 (panel1.false_alarm_count + 1) },
        [HwCall.disable_layer2_comparator panel_id])
    else (panel1, [])
  else
    ({ panel with stable_count := 0 }, [])

/-- Case `COMP_ENABLED`, the safety timeout that follows the chain. -/
def case_enabled_timeout (panel_id : Nat) (panel : PanelProtection_t) (tick : Nat) :
    PanelProtection_t × List HwCall :=
  let time_enabled := u32_sub tick panel.last_enable_time
  if time_enabled > ENABLE_TIMEOUT_MS ∧ panel.hardware_tripped = false then
    ({ panel with
        state := COMP_DISABLED
        false_alarm_count := u32 (panel.false_alarm_count + 1) },
      [HwCall.disable_layer2_comparator panel_id])
  else (panel, [])

/-- Case `COMP_ENABLED`. -/
def case_enabled (panel_id : Nat) (panel : PanelProtection_t) (cmd : GroundCommand_t)
    (anomaly : Bool) (P_measured V_measured : ℚ) (tick : Nat) (mosfet_open : Bool) : Outcome :=
  let r1 := case_enabled_chain panel_id panel anomaly P_measured V_measured tick mosfet_open
  let r2 := case_enabled_timeout panel_id r1.1 tick
  { panel := r2.1
    command := cmd
    calls := HwCall.check_mosfet_status panel_id :: (r1.2 ++ r2.2) }

/-- Case `COMP_TRIPPED`.  `reenable` is the value returned by
`check_ground_command(panel_id, CMD_REENABLE)`. -/
def case_tripped (panel_id : Nat) (panel : PanelProtection_t) (cmd : GroundCommand_t)
    (reenable : Bool) (P_measured V_measured : ℚ) (tick : Nat) : Outcome :=
  let now := tick
  let r1 : PanelProtection_t × List HwCall :=
    if u32_sub now panel.last_log_time > 60000 then
      let I_measured : ℚ := if V_measured > 1 / 10 then P_measured / V_measured else 0
      ({ panel with last_log_time := now },
        [HwCall.send_telemetry panel_id V_measured I_measured P_measured])
    else (panel, [])
  if reenable then
    { panel := { r1.1 with
        ground_approved := true
        state := COMP_RECOVERY
        stable_count := 0 }
      command := CMD_NONE
      calls := r1.2 ++ [HwCall.attempt_reenable_mosfet panel_id] }
  else
    { panel := r1.1, command := cmd, calls := r1.2 }

/-- Case `COMP_RECOVERY`. -/
def case_recovery (panel_id : Nat) (panel : PanelProtection_t) (cmd : GroundCommand_t)
    (anomaly : Bool) (P_measured V_measured : ℚ) (tick : Nat) : Outcome :=
  if anomaly then
    { panel := { panel with
        state := COMP_TRIPPED
        trip_time := tick
        stable_count := 0 }
      command := cmd
      calls := [HwCall.disable_mosfet panel_id,
                HwCall.send_telemetry_alert panel_id P_measured V_measured] }
  else
    let panel1 := { panel with stable_count := u8 (panel.stable_count + 1) }
    if panel1.stable_count ≥ RECOVERY_STABLE_REQ then
      { panel := { panel1 with
          state := COMP_DISABLED
          stable_count := 0
          ground_approved := false }
        command := cmd
        calls := [HwCall.disable_layer2_comparator panel_id,
                  HwCall.send_telemetry_success panel_id] }
    else
      { panel := panel1, command := cmd, calls := [] }

/-- Inputs of one call of `eps_protection_update` for a given panel: the four
arguments, and what `HAL_GetTick()` and `check_mosfet_status()` return during
the call. -/
structure Tick where
  P_measured : ℚ
  V_measured : ℚ
  P_predicted : ℚ
  V_predicted : ℚ
  tick : Nat
  mosfet_open : Bool

/-- Body of `eps_protection_update` after the bounds check, acting on
`panels[panel_id]` and `ground_commands[panel_id]`. -/
def update_panel (panel_id : Nat) (panel0 : PanelProtection_t) (cmd : GroundCommand_t)
    (reenable : Bool) (t : Tick) : Outcome :=
  let anomaly := anomaly_detected panel0 t.P_measured t.V_measured t.P_predicted t.V_predicted
  let panel := { panel0 with P_prev := t.P_measured, V_prev := t.V_measured }
  match panel.state with
  | COMP_DISABLED => case_disabled panel_id panel cmd anomaly t.tick
  | COMP_ENABLED =>
      case_enabled panel_id panel cmd anomaly t.P_measured t.V_measured t.tick t.mosfet_open
  | COMP_TRIPPED => case_tripped panel_id panel cmd reenable t.P_measured t.V_measured t.tick
  | COMP_RECOVERY => case_recovery panel_id panel cmd anomaly t.P_measured t.V_measured t.tick

/-- The function `eps_protection_update`. -/
def eps_protection_update (s : System) (panel_id : Nat) (t : Tick) : System :=
  if h : panel_id ≥ NUM_PANELS then s
  else
    let i : Fin NUM_PANELS := ⟨panel_id, Nat.lt_of_not_le h⟩
    let r := update_panel panel_id (s.panels i) (s.ground_commands i)
      (check_ground_command s panel_id CMD_REENABLE) t
    { panels := Function.update s.panels i r.panel
      ground_commands := Function.update s.ground_commands i r.command
      calls := s.calls ++ r.calls }

/-! ## Runs -/

/-- Entry points that a caller may invoke between two ticks. -/
inductive Event where
  | update (panel_id : Nat) (t : Tick)
  | ground_command (panel_id : Nat) (cmd : GroundCommand_t)
  | init_panel (panel_id : Nat) (P_nom V_nom : ℚ)

def Event.apply (s : System) : Event → System
  | Event.update panel_id t => eps_protection_update s panel_id t
  | Event.ground_command panel_id cmd => process_ground_command s panel_id cmd
  | Event.init_panel panel_id P_nom V_nom => eps_protection_init_panel s panel_id P_nom V_nom

/-- State after a sequence of calls. -/
def run (s : System) (es : List Event) : System := es.foldl Event.apply s

/-- State after consecutive calls of `eps_protection_update` for one panel. -/
def steps (s : System) (panel_id : Nat) (ts : List Tick) : System :=
  ts.foldl (fun s t => eps_protection_update s panel_id t) s

/-- Whether the tick is anomalous for panel `i` in system state `s`. -/
def anomalous (s : System) (i : Fin NUM_PANELS) (t : Tick) : Bool :=
  anomaly_detected (s.panels i) t.P_measured t.V_measured t.P_predicted t.V_predicted

/-- Every tick of the list is non-anomalous when it is processed. -/
def all_clean (s : System) (i : Fin NUM_PANELS) : List Tick → Bool
  | [] => true
  | t :: ts => !anomalous s i t && all_clean (eps_protection_update s i.val t) i ts

/-- Calls recorded between state `s` and a later state `s2`. -/
def calls_since (s s2 : System) : List HwCall := s2.calls.drop s.calls.length

/-- Nominal sample with matching predictions: no condition holds once the
previous sample was nominal too. -/
def nominal_tick (tick : Nat) : Tick :=
  { P_measured := 84 / 10, V_measured := 175 / 10, P_predicted := 84 / 10,
    V_predicted := 175 / 10, tick := tick, mosfet_open := false }

/-- Nominal sample with predictions 6 W and 19 V: `voltage_drop` and
`large_residual` hold. -/
def fault_tick (tick : Nat) : Tick :=
  { P_measured := 84 / 10, V_measured := 175 / 10, P_predicted := 6,
    V_predicted := 19, tick := tick, mosfet_open := false }

/-- One enabling tick at time 0, five clean ticks, and a sixth clean tick that
arrives after the enable timeout. -/
def late_sixth_clean_tick : List Event :=
  [Event.update 0 (fault_tick 0),
   Event.update 0 (nominal_tick 5000),
   Event.update 0 (nominal_tick 10000),
   Event.update 0 (nominal_tick 15000),
   Event.update 0 (nominal_tick 20000),
   Event.update 0 (nominal_tick 25000),
   Event.update 0 (nominal_tick 305000)]

/-- Panel 0 sampled every 5000 ms: anomalous at ticks 0 .. 275000 (enabled at the
first), then clean at ticks 280000 .. 300000. -/
def five_second_cadence : List Event :=
  (List.range 56).map (fun k => Event.update 0 (fault_tick (5000 * k))) ++
  (List.range 5).map (fun k => Event.update 0 (nominal_tick (5000 * (56 + k))))

/-- Nominal sample with matching predictions while the MOSFET reads open. -/
def open_tick (tick : Nat) : Tick :=
  { P_measured := 84 / 10, V_measured := 175 / 10, P_predicted := 84 / 10,
    V_predicted := 175 / 10, tick := tick, mosfet_open := true }

/-- Panel 0 is enabled at time 0 and the MOSFET reads open at time 5000. -/
def trip_run : List Event :=
  [Event.update 0 (fault_tick 0), Event.update 0 (open_tick 5000)]

/-- Clean ticks for the recovery window, 5000 ms apart, starting at 15000. -/
def recovery_ticks : List Tick :=
  (List.range 24).map (fun k => nominal_tick (15000 + 5000 * k))

/-- Ground posts CMD_REENABLE for panel 0, the next tick consumes it, and 24
clean ticks follow. -/
def recovery_run : List Event :=
  [Event.ground_command 0 CMD_REENABLE, Event.update 0 (nominal_tick 10000)] ++
    recovery_ticks.map (Event.update 0)

/-- At least two of four conditions hold. -/
def two_of_four (a b c d : Prop) : Prop :=
  (a ∧ b) ∨ (a ∧ c) ∨ (a ∧ d) ∨ (b ∧ c) ∨ (b ∧ d) ∨ (c ∧ d)

/-- Five nominal ticks 5000 ms apart, the first at time `t0`. -/
def five_clean_ticks (t0 : Nat) : List Tick :=
  (List.range 5).map (fun k => nominal_tick (t0 + 5000 * k))

/-- Panel 0 tripped, ground posted CMD_REENABLE, and the tick at time 10000
consumed the command: the panel has just entered RECOVERY. -/
def recovering : System :=
  run (run (eps_protection_init power_on) trip_run)
    [Event.ground_command 0 CMD_REENABLE, Event.update 0 (nominal_tick 10000)]

/-- Panel 0 has spent four clean ticks in RECOVERY. -/
def recovering_four_ticks : System := steps recovering 0 (recovery_ticks.take 4)

/-! ## Bias corrector (eps_bias_corrector.h) -/

structure BiasCorrector where
  bias_power : ℚ
  bias_voltage : ℚ
  n_samples : Nat
  alpha : ℚ
  warmup : Nat
  deriving DecidableEq

/-- The function `bias_init`; it writes every field, so the previous contents of
the struct do not matter. -/
def bias_init (alpha : ℚ) (warmup : Nat) : BiasCorrector :=
  { bias_power := 0
    bias_voltage := 0
    n_samples := 0
    alpha := alpha
    warmup := warmup }

/-- The function `bias_update`.  `n_samples + 1` is computed on `uint32_t` before it
is converted to `float`. -/
def bias_update (bc : BiasCorrector)
    (y_true_power y_pred_power y_true_voltage y_pred_voltage : ℚ) : BiasCorrector :=
  let residual_p := y_true_power - y_pred_power
  let residual_v := y_true_voltage - y_pred_voltage
  let bc1 : BiasCorrector :=
    if bc.n_samples < bc.warmup then
      { bc with
        bias_power :=
          (bc.bias_power * (bc.n_samples : ℚ) + residual_p) / (u32 (bc.n_samples + 1) : ℚ)
        bias_voltage :=
          (bc.bias_voltage * (bc.n_samples : ℚ) + residual_v) / (u32 (bc.n_samples + 1) : ℚ) }
    else
      { bc with
        bias_power := bc.alpha * residual_p + (1 - bc.alpha) * bc.bias_power
        bias_voltage := bc.alpha * residual_v + (1 - bc.alpha) * bc.bias_voltage }
  { bc1 with n_samples := u32 (bc1.n_samples + 1) }

/-- The function `bias_correct`: returns the struct as the call leaves it and the two
predictions as they stand after the call. -/
def bias_correct (bc : BiasCorrector) (y_pred_power y_pred_voltage : ℚ) :
    BiasCorrector × ℚ × ℚ :=
  if bc.n_samples ≥ bc.warmup then
    (bc, y_pred_power + bc.bias_power, y_pred_voltage + bc.bias_voltage)
  else
    (bc, y_pred_power, y_pred_voltage)

/-- The function `bias_is_ready`. -/
def bias_is_ready (bc : BiasCorrector) : Bool := decide (bc.n_samples ≥ bc.warmup)

/-- Arguments of one `bias_update` call. -/
structure BiasSample where
  y_true_power : ℚ
  y_pred_power : ℚ
  y_true_voltage : ℚ
  y_pred_voltage : ℚ

/-- Consecutive `bias_update` calls. -/
def bias_updates (bc : BiasCorrector) (obs : List BiasSample) : BiasCorrector :=
  obs.foldl (fun b o =>
    bias_update b o.y_true_power o.y_pred_power o.y_true_voltage o.y_pred_voltage) bc

/-- Power residual of a sample. -/
def BiasSample.residual_p (o : BiasSample) : ℚ := o.y_true_power - o.y_pred_power

/-- Voltage residual of a sample. -/
def BiasSample.residual_v (o : BiasSample) : ℚ := o.y_true_voltage - o.y_pred_voltage

/-- A sample with power residual 1/2 and voltage residual -1/4. -/
def drift_sample : BiasSample :=
  { y_true_power := 89 / 10, y_pred_power := 84 / 10,
    y_true_voltage := 17, y_pred_voltage := 69 / 4 }

/-- Corrector after `bias_init(0.01, 50)` and 50 updates with `drift_sample`. -/
def warmed_up : BiasCorrector :=
  bias_updates (bias_init (1 / 100) 50) (List.replicate 50 drift_sample)

/-- A sample with power residual 1 and voltage residual 0. -/
def unit_sample : BiasSample :=
  { y_true_power := 94 / 10, y_pred_power := 84 / 10,
    y_true_voltage := 35 / 2, y_pred_voltage := 35 / 2 }

/-! ## P² quantile estimator (eps_p2_quantile.h)

The five-slot arrays of `P2Quantile` are functions of the index; only the slots
`0 .. 4` belong to the array. -/

structure P2Quantile where
  q : Nat → ℚ
  n_markers : Nat → ℚ
  n_actual : Nat → Nat
  n : Nat
  p : ℚ
  initialized : Bool
  init_buffer : Nat → ℚ
  init_count : Nat

/-- Value of a `uint32_t` after storing the integer `z` (wrapping modulo `2^32`). -/
def u32_of_int (z : Int) : Nat := (z % 4294967296).toNat

/-- The function `p2_init`: the arrays keep whatever they held. -/
def p2_init (p2 : P2Quantile) (quantile : ℚ) : P2Quantile :=
  { p2 with p := quantile, n := 0, initialized := false, init_count := 0 }

/-- Inner `while` loop of `p2_sort_buffer`.  The last argument is `j + 1` for the
loop variable `j`; it reaches 0 when `j < 0`, and `buf[j + 1] = key` ends the
loop. -/
def sort_inner (buf : List ℚ) (key : ℚ) : Nat → List ℚ
  | 0 => buf.set 0 key
  | j + 1 =>
    if buf.getD j 0 > key then sort_inner (buf.set (j + 1) (buf.getD j 0)) key j
    else buf.set (j + 1) key

/-- The function `p2_sort_buffer`: the array `buf[0 .. n-1]` is the list of its slots. -/
def p2_sort_buffer (buf : List ℚ) (n : Nat) : List ℚ :=
  (List.range' 1 (n - 1)).foldl (fun b i => sort_inner b (b.getD i 0) i) buf

/-- Cell search of `p2_update`: the first `i` in `1 .. 4` with `value < q[i]` gives
`k = i - 1`; `k` keeps its initial value 0 when there is none. -/
def p2_find_cell (q : Nat → ℚ) (value : ℚ) : Nat :=
  match [1, 2, 3, 4].find? (fun i => decide (value < q i)) with
  | some i => i - 1
  | none => 0

/-- Body of the height-adjustment loop of `p2_update` for marker `i`.  Differences
of positions are `uint32_t` differences, and `-1` in the comparison is converted
to `uint32_t`. -/
def p2_adjust (p2 : P2Quantile) (i : Nat) : P2Quantile :=
  let d : ℚ := p2.n_markers i - (p2.n_actual i : ℚ)
  if (d ≥ 1 ∧ u32_sub (p2.n_actual (i + 1)) (p2.n_actual i) > 1) ∨
      (d ≤ -1 ∧ u32_sub (p2.n_actual (i - 1)) (p2.n_actual i) < 4294967295) then
    let d_sign : Int := if d ≥ 0 then 1 else -1
    let q_new : ℚ :=
      p2.q i + (d_sign : ℚ) / (u32_sub (p2.n_actual (i + 1)) (p2.n_actual (i - 1)) : ℚ) *
        ((u32_of_int ((p2.n_actual i : Int) - (p2.n_actual (i - 1) : Int) + d_sign) : ℚ) *
            (p2.q (i + 1) - p2.q i) /
            (u32_sub (p2.n_actual (i + 1)) (p2.n_actual i) : ℚ) +
          (u32_of_int ((p2.n_actual (i + 1) : Int) - (p2.n_actual i : Int) - d_sign) : ℚ) *
            (p2.q i - p2.q (i - 1)) /
            (u32_sub (p2.n_actual i) (p2.n_actual (i - 1)) : ℚ))
    let i_s : Nat := ((i : Int) + d_sign).toNat
    let q_i : ℚ :=
      if p2.q (i - 1) < q_new ∧ q_new < p2.q (i + 1) then q_new
      else
        p2.q i + (d_sign : ℚ) * (p2.q i_s - p2.q i) /
          (u32_sub (p2.n_actual i_s) (p2.n_actual i) : ℚ)
    { p2 with
      q := Function.update p2.q i q_i
      n_actual := Function.update p2.n_actual i
        (u32_of_int ((p2.n_actual i : Int) + d_sign)) }
  else p2

/-- First part of the steady state of `p2_update`: find the cell `k` (moving an
extreme marker when the value falls outside), increment the positions above
`k`, count the sample and recompute the ideal positions. -/
def p2_locate (p2 : P2Quantile) (value : ℚ) : P2Quantile :=
  let qk : (Nat → ℚ) × Nat :=
    if value < p2.q 0 then (Function.update p2.q 0 value, 0)
    else if value ≥ p2.q 4 then (Function.update p2.q 4 value, 3)
    else (p2.q, p2_find_cell p2.q value)
  let k := qk.2
  let n_actual : Nat → Nat :=
    fun i => if k + 1 ≤ i ∧ i < 5 then u32 (p2.n_actual i + 1) else p2.n_actual i
  let n := u32 (p2.n + 1)
  let n_markers : Nat → ℚ :=
    Function.update
      (Function.update
        (Function.update
          (Function.update p2.n_markers 1 (1 + 2 * p2.p * (u32_sub n 1 : ℚ)))
          2 (1 + 4 * p2.p * (u32_sub n 1 : ℚ)))
        3 (3 + 2 * p2.p * (u32_sub n 1 : ℚ)))
      4 (n : ℚ)
  { p2 with q := qk.1, n_actual := n_actual, n := n, n_markers := n_markers }

/-- The function `p2_update`. -/
def p2_update (p2 : P2Quantile) (value : ℚ) : P2Quantile :=
  if p2.init_count < 5 then
    let buf := Function.update p2.init_buffer p2.init_count value
    let count := u8 (p2.init_count + 1)
    if count = 5 then
      let sorted := p2_sort_buffer [buf 0, buf 1, buf 2, buf 3, buf 4] 5
      let buf2 : Nat → ℚ := fun i => if i < 5 then sorted.getD i 0 else buf i
      { p2 with
        init_buffer := buf2
        init_count := count
        q := fun i => if i < 5 then buf2 i else p2.q i
        n_actual := fun i => if i < 5 then i + 1 else p2.n_actual i
        n_markers := fun i =>
          if i = 0 then 1
          else if i = 1 then 1 + 2 * p2.p
          else if i = 2 then 1 + 4 * p2.p
          else if i = 3 then 3 + 2 * p2.p
          else if i = 4 then 5
          else p2.n_markers i
        n := 5
        initialized := true }
    else
      { p2 with init_buffer := buf, init_count := count }
  else
    [1, 2, 3].foldl p2_adjust (p2_locate p2 value)

/-- The function `p2_get_quantile`. -/
def p2_get_quantile (p2 : P2Quantile) : ℚ := if p2.initialized then p2.q 2 else 0

/-- The function `p2_is_ready`. -/
def p2_is_ready (p2 : P2Quantile) : Bool := p2.initialized

/-- Consecutive `p2_update` calls. -/
def p2_updates (p2 : P2Quantile) (xs : List ℚ) : P2Quantile := xs.foldl p2_update p2

/-- A struct whose memory is all zero. -/
def p2_zero : P2Quantile :=
  { q := fun _ => 0, n_markers := fun _ => 0, n_actual := fun _ => 0, n := 0, p := 0,
    initialized := false, init_buffer := fun _ => 0, init_count := 0 }

/-- State of an initialised estimator: the marker heights are ordered, the
marker positions are strictly increasing, the first position is 1 and the last
is the sample count. -/
def P2Inv (p2 : P2Quantile) : Prop :=
  p2.initialized = true ∧ p2.init_count = 5 ∧
  p2.q 0 ≤ p2.q 1 ∧ p2.q 1 ≤ p2.q 2 ∧ p2.q 2 ≤ p2.q 3 ∧ p2.q 3 ≤ p2.q 4 ∧
  p2.n_actual 0 < p2.n_actual 1 ∧ p2.n_actual 1 < p2.n_actual 2 ∧
  p2.n_actual 2 < p2.n_actual 3 ∧ p2.n_actual 3 < p2.n_actual 4 ∧
  p2.n_actual 0 = 1 ∧ p2.n_actual 4 = p2.n

/-! ## Feature extraction (eps_model_config.h, eps_features.c)

Arrays of `double` are functions of the index; `features_out` has the slots
`0 .. 9` (power) or `0 .. 4` (voltage). -/

abbrev RING_BUFFER_SIZE : Nat := 13

structure EPS_FeatureBuffers where
  power_buffer : Nat → ℚ
  voltage_buffer : Nat → ℚ
  buffer_index : Nat

/-- The function `eps_init_buffers`. -/
def eps_init_buffers (buffers : EPS_FeatureBuffers) : EPS_FeatureBuffers :=
  { power_buffer := fun i => if i < RING_BUFFER_SIZE then 0 else buffers.power_buffer i
    voltage_buffer := fun i => if i < RING_BUFFER_SIZE then 0 else buffers.voltage_buffer i
    buffer_index := 0 }

/-- The function `eps_update_buffers`. -/
def eps_update_buffers (buffers : EPS_FeatureBuffers) (power voltage : ℚ) :
    EPS_FeatureBuffers :=
  let idx := u8 ((buffers.buffer_index + 1) % RING_BUFFER_SIZE)
  { power_buffer := Function.update buffers.power_buffer idx power
    voltage_buffer := Function.update buffers.voltage_buffer idx voltage
    buffer_index := idx }

/-- The function `get_lag` of eps_features.c; `%` on `int` truncates toward zero. -/
def get_lag (buffer : Nat → ℚ) (current_idx lag : Nat) : ℚ :=
  let idx : Int := Int.tmod ((current_idx : Int) - (lag : Int) + RING_BUFFER_SIZE)
    RING_BUFFER_SIZE
  buffer idx.toNat

/-- The function `eps_extract_power_features`. -/
def eps_extract_power_features (buffers : EPS_FeatureBuffers) (features_out : Nat → ℚ) :
    Nat → ℚ :=
  let idx := buffers.buffer_index
  let f0 := Function.update features_out 0 (get_lag buffers.power_buffer idx 1)
  let f1 := Function.update f0 1 (get_lag buffers.power_buffer idx 2)
  let f2 := Function.update f1 2 (get_lag buffers.power_buffer idx 3)
  let f3 := Function.update f2 3 (get_lag buffers.power_buffer idx 6)
  let f4 := Function.update f3 4 (get_lag buffers.power_buffer idx 12)
  let p_diff := buffers.power_buffer idx - get_lag buffers.power_buffer idx 1
  let f5 := Function.update f4 5 p_diff
  let f6 := Function.update f5 6
    (get_lag buffers.power_buffer idx 2 - get_lag buffers.power_buffer idx 3)
  let f7 := Function.update f6 7
    (get_lag buffers.power_buffer idx 3 - get_lag buffers.power_buffer idx 4)
  let f8 := Function.update f7 8
    (get_lag buffers.power_buffer idx 6 - get_lag buffers.power_buffer idx 7)
  Function.update f8 9
    (get_lag buffers.power_buffer idx 12 -
      (if idx ≥ 13 then get_lag buffers.power_buffer idx 13 else 0))

/-- The function `eps_extract_voltage_features`. -/
def eps_extract_voltage_features (buffers : EPS_FeatureBuffers) (features_out : Nat → ℚ) :
    Nat → ℚ :=
  let idx := buffers.buffer_index
  let f0 := Function.update features_out 0 (get_lag buffers.voltage_buffer idx 1)
  let f1 := Function.update f0 1 (get_lag buffers.voltage_buffer idx 2)
  let f2 := Function.update f1 2 (get_lag buffers.voltage_buffer idx 3)
  let f3 := Function.update f2 3 (get_lag buffers.voltage_buffer idx 6)
  Function.update f3 4 (get_lag buffers.voltage_buffer idx 12)

/-! ## Integration example (eps_main_example.c)

The external predictors `predict_power` and `predict_voltage` are parameters.
Local arrays start out as zeros. -/

structure EPS_LogicState where
  armed_power : Bool
  armed_voltage : Bool
  consecutive_power : Nat
  consecutive_voltage : Nat
  trip_count_power : Nat
  trip_count_voltage : Nat

/-- The file-scope statics of eps_main_example.c. -/
structure FdirState where
  buffers : EPS_FeatureBuffers
  bias_corrector : BiasCorrector
  p2_power : P2Quantile
  p2_voltage : P2Quantile
  logic_state : EPS_LogicState

def GATE_N : Nat := 3
def ARM_THRESHOLD_MULTIPLIER : ℚ := 1
def DISARM_THRESHOLD_MULTIPLIER : ℚ := 7 / 10

/-- The function `eps_fdir_init`, applied to the zero-initialised statics. -/
def eps_fdir_init : FdirState :=
  { buffers := eps_init_buffers
      { power_buffer := fun _ => 0, voltage_buffer := fun _ => 0, buffer_index := 0 }
    bias_corrector := bias_init (1 / 100) 50
    p2_power := p2_init p2_zero (99 / 100)
    p2_voltage := p2_init p2_zero (99 / 100)
    logic_state :=
      { armed_power := false, armed_voltage := false, consecutive_power := 0,
        consecutive_voltage := 0, trip_count_power := 0, trip_count_voltage := 0 } }

/-- Steps 7 and 8 of `eps_fdir_step` for one channel (the power and the voltage
blocks are the same code on their own fields): hysteresis, then the
consecutive-sample gate.  Returns `armed`, `consecutive`, `trip_count`. -/
def logic_channel (armed : Bool) (consecutive trip_count : Nat)
    (residual threshold_arm threshold_disarm : ℚ) : Bool × Nat × Nat :=
  let s1 : Bool × Nat :=
    if !armed && decide (residual > threshold_arm) then (true, 1)
    else if armed then
      if residual > threshold_arm then (armed, u8 (consecutive + 1))
      else if residual < threshold_disarm then (false, 0)
      else (armed, consecutive)
    else (armed, consecutive)
  let trip := decide (s1.2 ≥ GATE_N)
  if trip then (false, 0, u32 (trip_count + 1)) else (s1.1, s1.2, trip_count)

/-- The function `eps_fdir_step`. -/
def eps_fdir_step (predict_power predict_voltage : (Nat → ℚ) → ℚ) (st : FdirState)
    (power_reading voltage_reading : ℚ) : FdirState :=
  let buffers := eps_update_buffers st.buffers power_reading voltage_reading
  let power_features := eps_extract_power_features buffers (fun _ => 0)
  let voltage_features := eps_extract_voltage_features buffers (fun _ => 0)
  let y_pred_power0 := predict_power power_features
  let y_pred_voltage0 := predict_voltage voltage_features
  let c : BiasCorrector × ℚ × ℚ :=
    if bias_is_ready st.bias_corrector then
      bias_correct st.bias_corrector y_pred_power0 y_pred_voltage0
    else (st.bias_corrector, y_pred_power0, y_pred_voltage0)
  let y_pred_power := c.2.1
  let y_pred_voltage := c.2.2
  let residual_power := fabsf (power_reading - y_pred_power)
  let residual_voltage := fabsf (voltage_reading - y_pred_voltage)
  let p2_power := p2_update st.p2_power residual_power
  let p2_voltage := p2_update st.p2_voltage residual_voltage
  let threshold_arm_power := p2_get_quantile p2_power * ARM_THRESHOLD_MULTIPLIER
  let threshold_disarm_power := threshold_arm_power * DISARM_THRESHOLD_MULTIPLIER
  let threshold_arm_voltage := p2_get_quantile p2_voltage * ARM_THRESHOLD_MULTIPLIER
  let threshold_disarm_voltage := threshold_arm_voltage * DISARM_THRESHOLD_MULTIPLIER
  let lp := logic_channel st.logic_state.armed_power st.logic_state.consecutive_power
    st.logic_state.trip_count_power residual_power threshold_arm_power threshold_disarm_power
  let lv := logic_channel st.logic_state.armed_voltage st.logic_state.consecutive_voltage
    st.logic_state.trip_count_voltage residual_voltage threshold_arm_voltage
    threshold_disarm_voltage
  { buffers := buffers
    bias_corrector :=
      bias_update c.1 power_reading y_pred_power voltage_reading y_pred_voltage
    p2_power := p2_power
    p2_voltage := p2_voltage
    logic_state :=
      { armed_power := lp.1, armed_voltage := lv.1, consecutive_power := lp.2.1,
        consecutive_voltage := lv.2.1, trip_count_power := lp.2.2,
        trip_count_voltage := lv.2.2 } }

/-- Consecutive `eps_fdir_step` calls on a list of (power, voltage) readings. -/
def eps_fdir_steps (predict_power predict_voltage : (Nat → ℚ) → ℚ) (st : FdirState)
    (readings : List (ℚ × ℚ)) : FdirState :=
  readings.foldl (fun s r => eps_fdir_step predict_power predict_voltage s r.1 r.2) st

/-- A predictor that always returns the nominal power 8.4 W. -/
def nominal_power_model : (Nat → ℚ) → ℚ := fun _ => 84 / 10

/-- A predictor that always returns the nominal voltage 17.5 V. -/
def nominal_voltage_model : (Nat → ℚ) → ℚ := fun _ => 35 / 2

/-- The example runtime after 50 steps in which the panel delivers 9.4 W at
17.5 V while the predictors return the nominal values. -/
def fdir_after_warmup : FdirState :=
  eps_fdir_steps nominal_power_model nominal_voltage_model eps_fdir_init
    (List.replicate 50 (94 / 10, 35 / 2))

/-! ## Deployment loop (eps_main_deployment.c)

The generated model functions `score` and `score_voltage` are parameters.  The
sensor reads, `HAL_GetTick()` and `check_mosfet_status()` of one loop pass are
given per panel in `LoopInput`.  `panel_id` ranges over `Fin NUM_PANELS`, as in
the loop that makes every call.  The `log_event` lines and the `log_counter`
statics that only drive them are not modelled. -/

abbrev POWER_LAG_SIZE : Nat := 12
abbrev VOLTAGE_LAG_SIZE : Nat := 12

def PANEL_P_NOMINAL (_ : Fin NUM_PANELS) : ℚ := 84 / 10
def PANEL_V_NOMINAL (_ : Fin NUM_PANELS) : ℚ := 175 / 10

structure PanelFeatureBuffer_t where
  power_history : Nat → ℚ
  voltage_history : Nat → ℚ
  history_index : Nat
  initialized : Bool
  bias_corrector : BiasCorrector

/-- Globals of eps_main_deployment.c, the protection globals, and the static
`sample_counts` of `update_panel_history`. -/
structure Deployment where
  protection : System
  panel_buffers : Fin NUM_PANELS → PanelFeatureBuffer_t
  sample_counts : Fin NUM_PANELS → Nat

/-- What the environment returns to one pass of the main loop for one panel. -/
structure LoopInput where
  V_measured : ℚ
  I_measured : ℚ
  tick : Nat
  mosfet_open : Bool

/-- The function `eps_main_init`.  `sample_counts` is a function-local static and is
not reset. -/
def eps_main_init (d : Deployment) : Deployment :=
  { protection :=
      (List.finRange NUM_PANELS).foldl
        (fun s i => eps_protection_init_panel s i.val (PANEL_P_NOMINAL i) (PANEL_V_NOMINAL i))
        (eps_protection_init d.protection)
    panel_buffers := fun _ =>
      { power_history := fun _ => 0
        voltage_history := fun _ => 0
        history_index := 0
        initialized := false
        bias_corrector := bias_init (1 / 100) 50 }
    sample_counts := d.sample_counts }

/-- The function `update_panel_history`. -/
def update_panel_history (d : Deployment) (panel_id : Fin NUM_PANELS) (power voltage : ℚ) :
    Deployment :=
  let buf := d.panel_buffers panel_id
  let buf1 : PanelFeatureBuffer_t :=
    { buf with
      power_history := Function.update buf.power_history buf.history_index power
      voltage_history := Function.update buf.voltage_history buf.history_index voltage
      history_index := u8 ((buf.history_index + 1) % (POWER_LAG_SIZE + 1)) }
  if !buf1.initialized then
    let count := u8 (d.sample_counts panel_id + 1)
    let buf2 : PanelFeatureBuffer_t :=
      if count ≥ POWER_LAG_SIZE then { buf1 with initialized := true } else buf1
    { d with
      panel_buffers := Function.update d.panel_buffers panel_id buf2
      sample_counts := Function.update d.sample_counts panel_id count }
  else
    { d with panel_buffers := Function.update d.panel_buffers panel_id buf1 }

/-- The function `get_lag_value`. -/
def get_lag_value (history : Nat → ℚ) (current_idx lag buffer_size : Nat) : ℚ :=
  let idx : Int := (current_idx : Int) - (lag : Int)
  let idx : Int := if idx < 0 then idx + buffer_size else idx
  history idx.toNat

/-- The function `build_power_features`: the flag returned and the array `features`
after the call. -/
def build_power_features (d : Deployment) (panel_id : Fin NUM_PANELS) (features : Nat → ℚ) :
    Bool × (Nat → ℚ) :=
  let buf := d.panel_buffers panel_id
  if !buf.initialized then (false, features)
  else
    let curr := buf.history_index
    let size := POWER_LAG_SIZE + 1
    let P_lag1 := get_lag_value buf.power_history curr 1 size
    let P_lag2 := get_lag_value buf.power_history curr 2 size
    let P_lag3 := get_lag_value buf.power_history curr 3 size
    let P_lag6 := get_lag_value buf.power_history curr 6 size
    let P_lag12 := get_lag_value buf.power_history curr 12 size
    let dP_lag1 := P_lag1 - P_lag2
    let dP_lag2 := P_lag2 - P_lag3
    let dP_lag3 := P_lag3 - get_lag_value buf.power_history curr 4 size
    let dP_lag6 := P_lag6 - get_lag_value buf.power_history curr 7 size
    let dP_lag12 := P_lag12 - get_lag_value buf.power_history curr 13 size
    (true,
      Function.update (Function.update (Function.update (Function.update (Function.update
        (Function.update (Function.update (Function.update (Function.update (Function.update
          features 0 P_lag1) 1 P_lag2) 2 P_lag3) 3 P_lag6) 4 P_lag12)
            5 dP_lag1) 6 dP_lag2) 7 dP_lag3) 8 dP_lag6) 9 dP_lag12)

/-- The function `build_voltage_features`: the flag returned and the array `features`
after the call. -/
def build_voltage_features (d : Deployment) (panel_id : Fin NUM_PANELS)
    (features : Nat → ℚ) : Bool × (Nat → ℚ) :=
  let buf := d.panel_buffers panel_id
  if !buf.initialized then (false, features)
  else
    let curr := buf.history_index
    let size := VOLTAGE_LAG_SIZE + 1
    (true,
      Function.update (Function.update (Function.update (Function.update (Function.update
        features 0 (get_lag_value buf.voltage_history curr 1 size))
          1 (get_lag_value buf.voltage_history curr 2 size))
          2 (get_lag_value buf.voltage_history curr 3 size))
          3 (get_lag_value buf.voltage_history curr 6 size))
          4 (get_lag_value buf.voltage_history curr 12 size))

/-- The wrapper `predict_power` of eps_main_deployment.c around `score`. -/
def predict_power (score : (Nat → ℚ) → ℚ) (_ : Fin NUM_PANELS) (features : Nat → ℚ) : ℚ :=
  score features

/-- The wrapper `predict_voltage` of eps_main_deployment.c around `score_voltage`. -/
def predict_voltage (score_voltage : (Nat → ℚ) → ℚ) (_ : Fin NUM_PANELS)
    (features : Nat → ℚ) : ℚ :=
  score_voltage features

/-- Body of the `for` loop of `eps_main_loop_iteration` for one `panel_id`. -/
def main_loop_body (score score_voltage : (Nat → ℚ) → ℚ) (env : Fin NUM_PANELS → LoopInput)
    (d : Deployment) (panel_id : Fin NUM_PANELS) : Deployment :=
  let V_measured := (env panel_id).V_measured
  let I_measured := (env panel_id).I_measured
  let P_measured := V_measured * I_measured
  let d1 := update_panel_history d panel_id P_measured V_measured
  if !(d1.panel_buffers panel_id).initialized then d1
  else
    let pf := build_power_features d1 panel_id (fun _ => 0)
    if !pf.1 then d1
    else
      let vf := build_voltage_features d1 panel_id (fun _ => 0)
      if !vf.1 then d1
      else
        let P_predicted_raw := predict_power score panel_id pf.2
        let V_predicted_raw := predict_voltage score_voltage panel_id vf.2
        let c := bias_correct (d1.panel_buffers panel_id).bias_corrector
          P_predicted_raw V_predicted_raw
        let P_predicted := c.2.1
        let V_predicted := c.2.2
        let protection := eps_protection_update d1.protection panel_id.val
          { P_measured := P_measured, V_measured := V_measured, P_predicted := P_predicted,
            V_predicted := V_predicted, tick := (env panel_id).tick,
            mosfet_open := (env panel_id).mosfet_open }
        let bc := bias_update c.1 P_measured P_predicted_raw V_measured V_predicted_raw
        { d1 with
          protection := protection
          panel_buffers := Function.update d1.panel_buffers panel_id
            { d1.panel_buffers panel_id with bias_corrector := bc } }

/-- The function `eps_main_loop_iteration`: panels 0 .. 12 in order. -/
def eps_main_loop_iteration (score score_voltage : (Nat → ℚ) → ℚ)
    (env : Fin NUM_PANELS → LoopInput) (d : Deployment) : Deployment :=
  (List.finRange NUM_PANELS).foldl (main_loop_body score score_voltage env) d

/-- Memory image of the deployment runtime at start-up. -/
def deployment_power_on : Deployment :=
  { protection := power_on
    panel_buffers := fun _ =>
      { power_history := fun _ => 0
        voltage_history := fun _ => 0
        history_index := 0
        initialized := false
        bias_corrector :=
          { bias_power := 0, bias_voltage := 0, n_samples := 0, alpha := 0, warmup := 0 } }
    sample_counts := fun _ => 0 }

/-- Every panel reads 17.5 V and 0.5 A at the given tick, MOSFET closed. -/
def steady_input (tick : Nat) : Fin NUM_PANELS → LoopInput :=
  fun _ => { V_measured := 35 / 2, I_measured := 1 / 2, tick := tick, mosfet_open := false }

/-- The deployment runtime after `eps_main_init` and `k` passes of the main loop
with `steady_input` and the nominal predictors. -/
def deployment_after (k : Nat) : Deployment :=
  (List.range k).foldl
    (fun d j =>
      eps_main_loop_iteration nominal_power_model nominal_voltage_model
        (steady_input (5000 * j)) d)
    (eps_main_init deployment_power_on)

/-- Consecutive `eps_update_buffers` calls, one per (power, voltage) sample. -/
def eps_pushes (buffers : EPS_FeatureBuffers) (xs : List (ℚ × ℚ)) : EPS_FeatureBuffers :=
  xs.foldl (fun b s => eps_update_buffers b s.1 s.2) buffers

/-- Buffers whose memory is all zero. -/
def eps_zero_buffers : EPS_FeatureBuffers :=
  { power_buffer := fun _ => 0, voltage_buffer := fun _ => 0, buffer_index := 0 }

/-- Fourteen samples: powers 1, 2, 4, 7, 11, ... (increments 1, 2, 3, ...) and
voltages 17, 18, ... -/
def ramp_samples : List (ℚ × ℚ) :=
  (List.range 14).map (fun k => (((k * (k + 1) / 2 + 1 : Nat) : ℚ), ((17 + k : Nat) : ℚ)))

/-- Consecutive `update_panel_history` calls for one panel, one per (power, voltage)
sample. -/
def push_history (d : Deployment) (panel_id : Fin NUM_PANELS) (xs : List (ℚ × ℚ)) :
    Deployment :=
  xs.foldl (fun d s => update_panel_history d panel_id s.1 s.2) d

/-! ## Fault injection (fault_injection.h, fault_injection.c)

The values behind the pointers `P`, `V`, `I` and the static `rng_state` are
passed in and returned in `FaultSignals`; a null `sc` is `none`.  `step`,
`start_step` and `duration` are `uint32_t`. -/

inductive FaultType where
  | FAULT_NONE
  | FAULT_SHADE
  | FAULT_OPEN_CIRCUIT
  | FAULT_SHORT_CIRCUIT
  | FAULT_SENSOR_NOISE
  deriving DecidableEq, Repr

open FaultType

structure FaultScenario where
  panel_id : Nat
  type : FaultType
  start_step : Nat
  duration : Nat
  severity : ℚ

structure FaultSignals where
  rng_state : Nat
  P : ℚ
  V : ℚ
  I : ℚ
  deriving DecidableEq

def fminf (a b : ℚ) : ℚ := min a b

def fmaxf (a b : ℚ) : ℚ := max a b

/-- The function `frand`: the new `rng_state` and the value returned. -/
def frand (rng_state : Nat) : Nat × ℚ :=
  let r := u32 (1664525 * rng_state + 1013904223)
  (r, ((r / 256 : Nat) : ℚ) * (1 / 16777216))

/-- The `switch` of `apply_fault`, reached when the scenario is active. -/
def fault_switch (sc : FaultScenario) (step : Nat) (x : FaultSignals) : FaultSignals :=
  let severity := sc.severity
  match sc.type with
  | FAULT_SHADE =>
    let factor := 1 - severity *
      fminf 1 ((u32_sub step sc.start_step : ℚ) / fmaxf 1 (sc.duration : ℚ))
    let P := x.P * factor
    { x with P := P, I := P / fmaxf (1 / 10) x.V }
  | FAULT_OPEN_CIRCUIT =>
    let I := x.I * (5 / 100 + 2 / 100 * severity)
    { x with I := I, P := x.V * I, V := x.V * (1 + 5 / 100 * severity) }
  | FAULT_SHORT_CIRCUIT =>
    let V := x.V * (15 / 100 + 2 / 10 * (1 - severity))
    let I_spike := x.I * (25 / 10 + 2 * severity)
    { x with V := V, P := V * I_spike, I := I_spike }
  | FAULT_SENSOR_NOISE =>
    let r1 := frand x.rng_state
    let noiseP := (r1.2 * 2 - 1) * severity * (3 / 10) * (x.P + 1 / 1000)
    let r2 := frand r1.1
    let noiseV := (r2.2 * 2 - 1) * severity * (5 / 100) * (x.V + 1 / 1000)
    let P := x.P + noiseP
    let V := x.V + noiseV
    { rng_state := r2.1, P := P, V := V, I := P / fmaxf (1 / 10) V }
  | FAULT_NONE => x

/-- The function `apply_fault`; `start_step + duration` is a `uint32_t` sum. -/
def apply_fault (sc : Option FaultScenario) (step : Nat) (x : FaultSignals) : FaultSignals :=
  match sc with
  | none => x
  | some sc =>
    if step < sc.start_step then x
    else if sc.duration ≠ 0 ∧ step ≥ u32 (sc.start_step + sc.duration) then x
    else fault_switch sc step x

/-- The nominal sample: 8.4 W, 17.5 V, 0.48 A, with the initial `rng_state`. -/
def nominal_signals : FaultSignals :=
  { rng_state := 305419896, P := 84 / 10, V := 175 / 10, I := 48 / 100 }

/-- Short circuit of severity 1 on panel 0, steps 10 .. 14. -/
def short_circuit_scenario : FaultScenario :=
  { panel_id := 0, type := FAULT_SHORT_CIRCUIT, start_step := 10, duration := 5,
    severity := 1 }

/-- Short circuit of severity 1 that starts at the last `uint32_t` step and lasts
two steps. -/
def late_short_circuit_scenario : FaultScenario :=
  { panel_id := 0, type := FAULT_SHORT_CIRCUIT, start_step := 4294967295, duration := 2,
    severity := 1 }

/-- After a trip of panel 0: ground re-enables it, 24 clean ticks complete the
recovery, and an anomalous tick at time 200000 enables Layer 2 again. -/
def recover_and_enable : List Event :=
  recovery_run ++ [Event.update 0 (fault_tick 200000)]

/-- State in which the adjustment loop of `p2_update` reaches marker `i` (for
`i` in 1 .. 3), in the steady state: the cell search and the markers below `i`
are done. -/
def p2_at_marker (p2 : P2Quantile) (value : ℚ) (i : Nat) : P2Quantile :=
  (List.range' 1 (i - 1)).foldl p2_adjust (p2_locate p2 value)

/-- Parabolic prediction `q_new` of `p2_update` for marker `i` and direction
`d_sign`, as `p2_adjust` computes it. -/
def p2_parabolic (p2 : P2Quantile) (i : Nat) (d_sign : Int) : ℚ :=
  p2.q i + (d_sign : ℚ) / (u32_sub (p2.n_actual (i + 1)) (p2.n_actual (i - 1)) : ℚ) *
    ((u32_of_int ((p2.n_actual i : Int) - (p2.n_actual (i - 1) : Int) + d_sign) : ℚ) *
        (p2.q (i + 1) - p2.q i) /
        (u32_sub (p2.n_actual (i + 1)) (p2.n_actual i) : ℚ) +
      (u32_of_int ((p2.n_actual (i + 1) : Int) - (p2.n_actual i : Int) - d_sign) : ℚ) *
        (p2.q i - p2.q (i - 1)) /
        (u32_sub (p2.n_actual i) (p2.n_actual (i - 1)) : ℚ))

/-- Linear fallback of `p2_update` for marker `i` and direction `d_sign`, as
`p2_adjust` computes it: the position difference is a `uint32_t` difference. -/
def p2_linear (p2 : P2Quantile) (i : Nat) (d_sign : Int) : ℚ :=
  p2.q i + (d_sign : ℚ) * (p2.q ((i : Int) + d_sign).toNat - p2.q i) /
    (u32_sub (p2.n_actual ((i : Int) + d_sign).toNat) (p2.n_actual i) : ℚ)

/-- Linear step with the position difference taken as a signed integer:
`q[i] + s·(q[i+s] − q[i]) / (n[i+s] − n[i])`. -/
def linear_signed (p2 : P2Quantile) (i : Nat) (s : Int) : ℚ :=
  p2.q i + (s : ℚ) * (p2.q ((i : Int) + s).toNat - p2.q i) /
    (((p2.n_actual ((i : Int) + s).toNat : Int) - (p2.n_actual i : Int) : Int) : ℚ)

/-- The estimator with p = 0.1 after the samples 0, 0, 0, 2, 6. -/
def p2_small_quantile : P2Quantile := p2_updates (p2_init p2_zero (1 / 10)) [0, 0, 0, 2, 6]

/-! ## Binary32 arithmetic of the anomaly conditions

The arguments of `eps_protection_update` and the fields `P_prev`, `V_prev`,
`P_nominal` are `float`.  The definitions above compute the four conditions in
exact arithmetic; the definitions `F32.*` of this section repeat them with every
constant, product, difference and quotient rounded to binary32 (round to
nearest, ties to even), as the code does where `float` expressions are evaluated
in `float` (FLT_EVAL_METHOD 0, as on the Cortex-M FPU).  Numbers are rationals;
the exponent is bounded below (subnormal spacing 2^-149) but not above: a result
that would overflow is a number of magnitude at least 2^128, which compares
with every binary32 number as the infinity does.  NaN is not modelled.  The
state machine that consumes the flag is the one of `update_panel`. -/

/-- Nearest integer, ties to the even one. -/
def round_half_even (r : ℚ) : Int :=
  let f : Int := ⌊r⌋
  if r - f < 1 / 2 then f
  else if r - f > 1 / 2 then f + 1
  else if f % 2 = 0 then f else f + 1

/-- Climb from binade `e` while `2^(e+1) ≤ a`. -/
def f32_exponent_from (a : ℚ) (e : Int) : Nat → Int
  | 0 => e
  | fuel + 1 => if (2 : ℚ) ^ (e + 1) ≤ a then f32_exponent_from a (e + 1) fuel else e

/-- Exponent `e` of the binary32 binade of `a ≥ 0`: `2^e ≤ a < 2^(e+1)`, and
`e = -126` below `2^-125` (smallest normal binade and the subnormals).  The fuel
exceeds the number of steps needed, since `a < 2^(numerator of a)`. -/
def f32_exponent (a : ℚ) : Int := f32_exponent_from a (-126) (127 + a.num.natAbs)

/-- Rounding of a real result to binary32: 24 significant bits, so the spacing in
the binade of exponent `e` is `2^(e-23)`. -/
def f32_round (x : ℚ) : ℚ :=
  let quantum : ℚ := (2 : ℚ) ^ (f32_exponent |x| - 23)
  (round_half_even (x / quantum) : ℚ) * quantum

/-- Local `dP_dt` as computed in binary32. -/
def F32.dP_dt (panel : PanelProtection_t) (P_measured : ℚ) : ℚ :=
  f32_round (f32_round (P_measured - panel.P_prev) / 5)

/-- Local `dV_dt` as computed in binary32. -/
def F32.dV_dt (panel : PanelProtection_t) (V_measured : ℚ) : ℚ :=
  f32_round (f32_round (V_measured - panel.V_prev) / 5)

def F32.residual_power (P_measured P_predicted : ℚ) : ℚ := f32_round (P_measured - P_predicted)

def F32.power_spike (panel : PanelProtection_t) (P_predicted : ℚ) : Bool :=
  decide (P_predicted > f32_round (panel.P_nominal * f32_round POWER_SPIKE_MULT))

def F32.voltage_drop (V_measured V_predicted : ℚ) : Bool :=
  decide (V_measured < f32_round (V_predicted - f32_round VOLTAGE_DROP_THRESH))

def F32.high_dynamics (panel : PanelProtection_t) (P_measured V_measured : ℚ) : Bool :=
  decide (fabsf (F32.dP_dt panel P_measured) > f32_round DP_DT_THRESH) &&
    decide (fabsf (F32.dV_dt panel V_measured) > f32_round DV_DT_THRESH)

def F32.large_residual (P_measured P_predicted : ℚ) : Bool :=
  decide (fabsf (F32.residual_power P_measured P_predicted) >
    f32_round (f32_round RESIDUAL_MULT * f32_round SIGMA_POWER))

/-- Local `condition_count`, from the binary32 conditions. -/
def F32.condition_count (panel : PanelProtection_t)
    (P_measured V_measured P_predicted V_predicted : ℚ) : Nat :=
  u8 ((F32.power_spike panel P_predicted).toNat +
    (F32.voltage_drop V_measured V_predicted).toNat +
    (F32.high_dynamics panel P_measured V_measured).toNat +
    (F32.large_residual P_measured P_predicted).toNat)

/-- Local `anomaly_detected`, from the binary32 conditions. -/
def F32.anomaly_detected (panel : PanelProtection_t)
    (P_measured V_measured P_predicted V_predicted : ℚ) : Bool :=
  decide (F32.condition_count panel P_measured V_measured P_predicted V_predicted ≥ 2)

/-- Body of `eps_protection_update` after the bounds check, with the anomaly flag
computed in binary32; the `switch` is that of `update_panel`. -/
def F32.update_panel (panel_id : Nat) (panel0 : PanelProtection_t) (cmd : GroundCommand_t)
    (reenable : Bool) (t : Tick) : Outcome :=
  let anomaly :=
    F32.anomaly_detected panel0 t.P_measured t.V_measured t.P_predicted t.V_predicted
  let panel := { panel0 with P_prev := t.P_measured, V_prev := t.V_measured }
  match panel.state with
  | COMP_DISABLED => case_disabled panel_id panel cmd anomaly t.tick
  | COMP_ENABLED =>
      case_enabled panel_id panel cmd anomaly t.P_measured t.V_measured t.tick t.mosfet_open
  | COMP_TRIPPED => case_tripped panel_id panel cmd reenable t.P_measured t.V_measured t.tick
  | COMP_RECOVERY => case_recovery panel_id panel cmd anomaly t.P_measured t.V_measured t.tick

/-- The function `eps_protection_update`, with the anomaly flag computed in
binary32. -/
def F32.eps_protection_update (s : System) (panel_id : Nat) (t : Tick) : System :=
  if h : panel_id ≥ NUM_PANELS then s
  else
    let i : Fin NUM_PANELS := ⟨panel_id, Nat.lt_of_not_le h⟩
    let r := F32.update_panel panel_id (s.panels i) (s.ground_commands i)
      (check_ground_command s panel_id CMD_REENABLE) t
    { panels := Function.update s.panels i r.panel
      ground_commands := Function.update s.ground_commands i r.command
      calls := s.calls ++ r.calls }

/-- The function `eps_protection_init` with the defaults as the `float` variables
hold them: `P_nominal = 8.4f`, `V_nominal = 17.5f`. -/
def F32.eps_protection_init (s : System) : System :=
  { panels := fun _ =>
      { init_panel_value with
        P_nominal := f32_round (84 / 10)
        V_nominal := f32_round (175 / 10) }
    ground_commands := s.ground_commands
    calls := s.calls ++ (List.range NUM_PANELS).map HwCall.disable_layer2_comparator }

/-- Whether the tick is anomalous for panel `i` in state `s`, in binary32. -/
def F32.anomalous (s : System) (i : Fin NUM_PANELS) (t : Tick) : Bool :=
  F32.anomaly_detected (s.panels i) t.P_measured t.V_measured t.P_predicted t.V_predicted

/-- Panel 0 configured with P_nominal = 8 W and V_nominal = 17.5 V after
eps_protection_init, then one tick with 8 W and 17.5 V measured and predicted:
the panel is DISABLED with P_prev = 8 and V_prev = 17.5. -/
def eight_watt_panel : System :=
  F32.eps_protection_update
    (eps_protection_init_panel (F32.eps_protection_init power_on) 0 8 (35 / 2)) 0
    { P_measured := 8, V_measured := 35 / 2, P_predicted := 8, V_predicted := 35 / 2,
      tick := 0, mosfet_open := false }

/-- A tick with 12 W and 17.5 V measured, 17.5 V predicted, and the predicted
power 9.6f, the binary32 number nearest to 9.6. -/
def spike_threshold_tick : Tick :=
  { P_measured := 12, V_measured := 35 / 2, P_predicted := f32_round (96 / 10),
    V_predicted := 35 / 2, tick := 5000, mosfet_open := false }

/-- A first tick with 8 W measured, 6 W predicted, and the voltage 1.5 + 2^-23, the
binary32 number that follows 1.5, measured and predicted. -/
def dynamics_threshold_tick : Tick :=
  { P_measured := 8, V_measured := 3 / 2 + 1 / 8388608, P_predicted := 6,
    V_predicted := 3 / 2 + 1 / 8388608, tick := 0, mosfet_open := false }

/-- The nominal sample in binary32 (8.4f W, 17.5 V) with predictions 6 W and
17.5 V: of `power_spike`, `voltage_drop` and `large_residual` only
`large_residual` holds. -/
def residual_tick_f32 (tick : Nat) : Tick :=
  { P_measured := f32_round (84 / 10), V_measured := 35 / 2, P_predicted := 6,
    V_predicted := 35 / 2, tick := tick, mosfet_open := false }

/-- Run in which eps_main_init is called a second time: start-up, eps_main_init,
twelve pushes for panel 0 (the static sample count of the panel reaches 12),
then eps_main_init again. -/
def second_init : Deployment :=
  eps_main_init (push_history (eps_main_init deployment_power_on) 0 (ramp_samples.take 12))

/-! ## Basic facts about one call -/

theorem update_panels_self (s : System) (pid : Nat) (h : pid < NUM_PANELS) (t : Tick) :
    (eps_protection_update s pid t).panels ⟨pid, h⟩ =
      (update_panel pid (s.panels ⟨pid, h⟩) (s.ground_commands ⟨pid, h⟩)
        (decide (s.ground_commands ⟨pid, h⟩ = CMD_REENABLE)) t).panel := by
  have h2 : ¬ pid ≥ NUM_PANELS := Nat.not_le.mpr h
  simp [eps_protection_update, check_ground_command, h2]

theorem update_commands_self (s : System) (pid : Nat) (h : pid < NUM_PANELS) (t : Tick) :
    (eps_protection_update s pid t).ground_commands ⟨pid, h⟩ =
      (update_panel pid (s.panels ⟨pid, h⟩) (s.ground_commands ⟨pid, h⟩)
        (decide (s.ground_commands ⟨pid, h⟩ = CMD_REENABLE)) t).command := by
  have h2 : ¬ pid ≥ NUM_PANELS := Nat.not_le.mpr h
  simp [eps_protection_update, check_ground_command, h2]

theorem update_calls (s : System) (pid : Nat) (h : pid < NUM_PANELS) (t : Tick) :
    (eps_protection_update s pid t).calls = s.calls ++
      (update_panel pid (s.panels ⟨pid, h⟩) (s.ground_commands ⟨pid, h⟩)
        (decide (s.ground_commands ⟨pid, h⟩ = CMD_REENABLE)) t).calls := by
  have h2 : ¬ pid ≥ NUM_PANELS := Nat.not_le.mpr h
  simp [eps_protection_update, check_ground_command, h2]

theorem update_panels_other (s : System) (pid : Nat) (t : Tick) (i : Fin NUM_PANELS)
    (hne : i.val ≠ pid) : (eps_protection_update s pid t).panels i = s.panels i := by
  unfold eps_protection_update
  split
  · rfl
  · have : i ≠ ⟨pid, by omega⟩ := fun h => hne (by rw [h])
    simp [Function.update_noteq this]

theorem update_panel_state_of_disabled (pid : Nat) (p : PanelProtection_t)
    (cmd : GroundCommand_t) (re : Bool) (t : Tick) (h : p.state = COMP_DISABLED) :
    (update_panel pid p cmd re t).panel.state = COMP_DISABLED ∨
      (update_panel pid p cmd re t).panel.state = COMP_ENABLED := by
  simp only [update_panel, h, case_disabled]
  split <;> simp

theorem update_panel_state_of_tripped (pid : Nat) (p : PanelProtection_t)
    (cmd : GroundCommand_t) (re : Bool) (t : Tick) (h : p.state = COMP_TRIPPED) :
    (update_panel pid p cmd re t).panel.state = COMP_TRIPPED ∨
      (update_panel pid p cmd re t).panel.state = COMP_RECOVERY := by
  simp only [update_panel, h, case_tripped]
  split <;> split <;> simp [h]

theorem apply_state_cases (s : System) (e : Event) (i : Fin NUM_PANELS) :
    ((e.apply s).panels i).state = (s.panels i).state ∨
      ∃ t, (e.apply s).panels i =
        (update_panel i.val (s.panels i) (s.ground_commands i)
          (decide (s.ground_commands i = CMD_REENABLE)) t).panel := by
  cases e with
  | update pid t =>
    by_cases hp : i.val = pid
    · right
      refine ⟨t, ?_⟩
      subst hp
      exact update_panels_self s i.val i.isLt t
    · left
      simp only [Event.apply]
      rw [update_panels_other s pid t i hp]
  | ground_command pid cmd =>
    left
    simp only [Event.apply, process_ground_command]
    split <;> rfl
  | init_panel pid P_nom V_nom =>
    left
    simp only [Event.apply, eps_protection_init_panel]
    split
    · rfl
    · by_cases hp : i.val = pid
      · subst hp
        simp
      · have : i ≠ ⟨pid, by omega⟩ := fun h => hp (by rw [h])
        simp [Function.update_noteq this]

theorem apply_state_of_disabled (s : System) (e : Event) (i : Fin NUM_PANELS)
    (h : (s.panels i).state = COMP_DISABLED) :
    ((e.apply s).panels i).state = COMP_DISABLED ∨
      ((e.apply s).panels i).state = COMP_ENABLED := by
  rcases apply_state_cases s e i with h1 | ⟨t, h1⟩
  · left; rw [h1, h]
  · rw [h1]; exact update_panel_state_of_disabled _ _ _ _ _ h

theorem apply_state_of_tripped (s : System) (e : Event) (i : Fin NUM_PANELS)
    (h : (s.panels i).state = COMP_TRIPPED) :
    ((e.apply s).panels i).state = COMP_TRIPPED ∨
      ((e.apply s).panels i).state = COMP_RECOVERY := by
  rcases apply_state_cases s e i with h1 | ⟨t, h1⟩
  · left; rw [h1, h]
  · rw [h1]; exact update_panel_state_of_tripped _ _ _ _ _ h

theorem run_cons (s : System) (e : Event) (es : List Event) :
    run s (e :: es) = run (e.apply s) es := rfl

theorem run_tripped_to_disabled (es : List Event) :
    ∀ (s : System) (i : Fin NUM_PANELS), (s.panels i).state = COMP_TRIPPED →
      ((run s es).panels i).state = COMP_DISABLED →
      ∃ es1 es2, es = es1 ++ es2 ∧ ((run s es1).panels i).state = COMP_RECOVERY := by
  induction es with
  | nil =>
    intro s i h1 h2
    simp only [run, List.foldl_nil] at h2
    rw [h1] at h2
    exact absurd h2 (by decide)
  | cons e es ih =>
    intro s i h1 h2
    rcases apply_state_of_tripped s e i h1 with h3 | h3
    · obtain ⟨es1, es2, heq, hr⟩ := ih (e.apply s) i h3 h2
      exact ⟨e :: es1, es2, by rw [heq]; rfl, hr⟩
    · exact ⟨[e], es, rfl, h3⟩

/-! ## Claims -/

/-- C1 (enable_count ≥ trip_count + false_alarm_count after every call): the
code breaks the invariant.  From the initial state, one enabling tick at time 0,
five clean ticks and a sixth clean tick at time 305000 leave panel 0 with
enable_count = 1, trip_count = 0 and false_alarm_count = 2, because the sixth
clean tick takes the false-alarm exit and then the timeout exit as well. -/
theorem C1_false_alarm_counted_twice :
    ((run (eps_protection_init power_on) late_sixth_clean_tick).panels 0).enable_count = 1 ∧
    ((run (eps_protection_init power_on) late_sixth_clean_tick).panels 0).trip_count = 0 ∧
    ((run (eps_protection_init power_on) late_sixth_clean_tick).panels 0).false_alarm_count = 2 ∧
    ¬ (((run (eps_protection_init power_on) late_sixth_clean_tick).panels 0).enable_count ≥
        ((run (eps_protection_init power_on) late_sixth_clean_tick).panels 0).trip_count +
        ((run (eps_protection_init power_on) late_sixth_clean_tick).panels 0).false_alarm_count) := by
  decide!

/-- C2 (no shortcut transitions): for every call, a panel that is DISABLED
before is DISABLED or ENABLED after, a panel that is TRIPPED before is TRIPPED or
RECOVERY after, so a panel found TRIPPED after a call was TRIPPED, ENABLED or
RECOVERY before it; and in every run that takes a panel from TRIPPED to DISABLED
some intermediate state of the run has the panel in RECOVERY. -/
theorem C2_no_shortcut_transitions :
    (∀ (s : System) (e : Event) (i : Fin NUM_PANELS),
      ((s.panels i).state = COMP_DISABLED →
        ((e.apply s).panels i).state = COMP_DISABLED ∨
        ((e.apply s).panels i).state = COMP_ENABLED) ∧
      ((s.panels i).state = COMP_TRIPPED →
        ((e.apply s).panels i).state = COMP_TRIPPED ∨
        ((e.apply s).panels i).state = COMP_RECOVERY) ∧
      (((e.apply s).panels i).state = COMP_TRIPPED →
        (s.panels i).state = COMP_TRIPPED ∨ (s.panels i).state = COMP_ENABLED ∨
        (s.panels i).state = COMP_RECOVERY)) ∧
    (∀ (s : System) (es : List Event) (i : Fin NUM_PANELS),
      (s.panels i).state = COMP_TRIPPED →
      ((run s es).panels i).state = COMP_DISABLED →
      ∃ es1 es2, es = es1 ++ es2 ∧ ((run s es1).panels i).state = COMP_RECOVERY) := by
  refine ⟨fun s e i => ⟨apply_state_of_disabled s e i, apply_state_of_tripped s e i, ?_⟩,
    fun s es i => run_tripped_to_disabled es s i⟩
  intro h
  cases hs : (s.panels i).state with
  | COMP_DISABLED =>
    rcases apply_state_of_disabled s e i hs with h1 | h1 <;> rw [h1] at h <;>
      exact absurd h (by decide)
  | COMP_ENABLED => simp
  | COMP_TRIPPED => simp
  | COMP_RECOVERY => simp

theorem C2_no_shortcut_transitions_witness :
    ((run (eps_protection_init power_on) trip_run).panels 0).state = COMP_TRIPPED ∧
    ((run (run (eps_protection_init power_on) trip_run) recovery_run).panels 0).state
      = COMP_DISABLED ∧
    (((Event.update 0 (nominal_tick 10000)).apply
        (run (eps_protection_init power_on) trip_run)).panels 0).state = COMP_TRIPPED ∧
    ∃ es1 es2, recovery_run = es1 ++ es2 ∧
      ((run (run (eps_protection_init power_on) trip_run) es1).panels 0).state
        = COMP_RECOVERY :=
  ⟨by decide!, by decide!,
    ((C2_no_shortcut_transitions.1 (run (eps_protection_init power_on) trip_run)
      (Event.update 0 (nominal_tick 10000)) 0).2.1 (by decide!)).resolve_right (by decide!),
    C2_no_shortcut_transitions.2 (run (eps_protection_init power_on) trip_run) recovery_run 0
      (by decide!) (by decide!)⟩

/-- C3 (at most one transition per call): the code takes two exits from
ENABLED in one call.  Panel 0, sampled every 5000 ms, was enabled at time 0 and
has seen five clean ticks up to time 300000; the clean tick at time 305000 moves
it to DISABLED, raises false_alarm_count by 2 (so the sum of the three counters
grows by 2) and calls disable_layer2_comparator twice. -/
theorem C3_two_exits_in_one_call :
    ((run (eps_protection_init power_on) five_second_cadence).panels 0).state = COMP_ENABLED ∧
    ((eps_protection_update (run (eps_protection_init power_on) five_second_cadence) 0
        (nominal_tick 305000)).panels 0).state = COMP_DISABLED ∧
    ((eps_protection_update (run (eps_protection_init power_on) five_second_cadence) 0
        (nominal_tick 305000)).panels 0).false_alarm_count =
      ((run (eps_protection_init power_on) five_second_cadence).panels 0).false_alarm_count + 2 ∧
    ((eps_protection_update (run (eps_protection_init power_on) five_second_cadence) 0
        (nominal_tick 305000)).panels 0).enable_count =
      ((run (eps_protection_init power_on) five_second_cadence).panels 0).enable_count ∧
    ((eps_protection_update (run (eps_protection_init power_on) five_second_cadence) 0
        (nominal_tick 305000)).panels 0).trip_count =
      ((run (eps_protection_init power_on) five_second_cadence).panels 0).trip_count ∧
    calls_since (run (eps_protection_init power_on) five_second_cadence)
      (eps_protection_update (run (eps_protection_init power_on) five_second_cadence) 0
        (nominal_tick 305000)) =
      [HwCall.check_mosfet_status 0, HwCall.disable_layer2_comparator 0,
        HwCall.disable_layer2_comparator 0] := by
  decide!

theorem power_spike_iff (p : PanelProtection_t) (Pp : ℚ) :
    power_spike p Pp = true ↔ Pp > 1.2 * p.P_nominal := by
  simp only [power_spike, POWER_SPIKE_MULT, decide_eq_true_eq, gt_iff_lt]
  rw [mul_comm]
  norm_num

theorem voltage_drop_iff (V Vp : ℚ) : voltage_drop V Vp = true ↔ V < Vp - 0.5 := by
  simp only [voltage_drop, VOLTAGE_DROP_THRESH, decide_eq_true_eq]
  norm_num

theorem high_dynamics_iff (p : PanelProtection_t) (P V : ℚ) :
    high_dynamics p P V = true ↔ |P - p.P_prev| / 5 > 0.5 ∧ |V - p.V_prev| / 5 > 0.3 := by
  simp only [high_dynamics, fabsf, dP_dt, dV_dt, DP_DT_THRESH, DV_DT_THRESH,
    Bool.and_eq_true, decide_eq_true_eq, gt_iff_lt, abs_div]
  norm_num

theorem large_residual_iff (P Pp : ℚ) : large_residual P Pp = true ↔ |P - Pp| > 3 * 0.5 := by
  simp only [large_residual, fabsf, residual_power, RESIDUAL_MULT, SIGMA_POWER,
    decide_eq_true_eq, gt_iff_lt]
  norm_num

theorem count_ge_two_iff (b1 b2 b3 b4 : Bool) :
    u8 (b1.toNat + b2.toNat + b3.toNat + b4.toNat) ≥ 2 ↔
      two_of_four (b1 = true) (b2 = true) (b3 = true) (b4 = true) := by
  unfold two_of_four
  revert b1 b2 b3 b4
  decide

theorem update_panel_prev (pid : Nat) (p : PanelProtection_t) (cmd : GroundCommand_t)
    (re : Bool) (t : Tick) :
    (update_panel pid p cmd re t).panel.P_prev = t.P_measured ∧
      (update_panel pid p cmd re t).panel.V_prev = t.V_measured := by
  unfold update_panel
  cases hs : p.state
  · simp only [case_disabled]
    split <;> simp
  · simp only [case_enabled, case_enabled_chain, case_enabled_timeout]
    split <;> split <;> (try split) <;> (try split) <;> simp
  · simp only [case_tripped]
    split <;> split <;> simp
  · simp only [case_recovery]
    split <;> (try split) <;> simp

/-- Exact-arithmetic reading of the four conditions: in the model without
rounding the anomaly flag is set exactly when at least two of
P_predicted > 1.2·P_nominal, V_measured < V_predicted − 0.5,
(|P_measured − P_prev|/5 > 0.5 and |V_measured − V_prev|/5 > 0.3),
|P_measured − P_predicted| > 3·0.5 hold, and whatever the state, after the
call P_prev and V_prev are the measurements of the call. -/
theorem exact_anomaly_is_two_of_four (s : System) (pid : Nat) (h : pid < NUM_PANELS) (t : Tick) :
    (anomalous s ⟨pid, h⟩ t = true ↔
      two_of_four
        (t.P_predicted > 1.2 * (s.panels ⟨pid, h⟩).P_nominal)
        (t.V_measured < t.V_predicted - 0.5)
        (|t.P_measured - (s.panels ⟨pid, h⟩).P_prev| / 5 > 0.5 ∧
          |t.V_measured - (s.panels ⟨pid, h⟩).V_prev| / 5 > 0.3)
        (|t.P_measured - t.P_predicted| > 3 * 0.5)) ∧
    ((eps_protection_update s pid t).panels ⟨pid, h⟩).P_prev = t.P_measured ∧
    ((eps_protection_update s pid t).panels ⟨pid, h⟩).V_prev = t.V_measured := by
  refine ⟨?_, ?_⟩
  · unfold anomalous anomaly_detected condition_count
    rw [decide_eq_true_iff, count_ge_two_iff, power_spike_iff, voltage_drop_iff,
      high_dynamics_iff, large_residual_iff]
  · rw [update_panels_self]
    exact update_panel_prev _ _ _ _ _

theorem calls_since_update (s : System) (pid : Nat) (h : pid < NUM_PANELS) (t : Tick) :
    calls_since s (eps_protection_update s pid t) =
      (update_panel pid (s.panels ⟨pid, h⟩) (s.ground_commands ⟨pid, h⟩)
        (decide (s.ground_commands ⟨pid, h⟩ = CMD_REENABLE)) t).calls := by
  simp [calls_since, update_calls s pid h t]

theorem u32_sub_gt_iff (a b n : Nat) :
    u32_sub a b > n ↔ ((a : Int) - (b : Int)) % 2 ^ 32 > (n : Int) := by
  unfold u32_sub
  rw [gt_iff_lt, Int.lt_toNat]
  norm_num

/-- C5 (DISABLED → ENABLED): for a panel in DISABLED, an anomalous tick ends
in ENABLED with last_enable_time = tick, stable_count = 0, enable_count
incremented by one (as a uint32), trip_count and false_alarm_count unchanged and
exactly one call, enable_layer2_comparator; a non-anomalous tick leaves the panel
DISABLED with the three counters unchanged and no call made. -/
theorem C5_disabled_step (s : System) (pid : Nat) (h : pid < NUM_PANELS) (t : Tick)
    (hs : (s.panels ⟨pid, h⟩).state = COMP_DISABLED) :
    (anomalous s ⟨pid, h⟩ t = true →
      ((eps_protection_update s pid t).panels ⟨pid, h⟩).state = COMP_ENABLED ∧
      ((eps_protection_update s pid t).panels ⟨pid, h⟩).last_enable_time = t.tick ∧
      ((eps_protection_update s pid t).panels ⟨pid, h⟩).stable_count = 0 ∧
      ((eps_protection_update s pid t).panels ⟨pid, h⟩).enable_count =
        ((s.panels ⟨pid, h⟩).enable_count + 1) % 2 ^ 32 ∧
      ((eps_protection_update s pid t).panels ⟨pid, h⟩).trip_count =
        (s.panels ⟨pid, h⟩).trip_count ∧
      ((eps_protection_update s pid t).panels ⟨pid, h⟩).false_alarm_count =
        (s.panels ⟨pid, h⟩).false_alarm_count ∧
      (eps_protection_update s pid t).calls =
        s.calls ++ [HwCall.enable_layer2_comparator pid]) ∧
    (anomalous s ⟨pid, h⟩ t = false →
      ((eps_protection_update s pid t).panels ⟨pid, h⟩).state = COMP_DISABLED ∧
      ((eps_protection_update s pid t).panels ⟨pid, h⟩).enable_count =
        (s.panels ⟨pid, h⟩).enable_count ∧
      ((eps_protection_update s pid t).panels ⟨pid, h⟩).trip_count =
        (s.panels ⟨pid, h⟩).trip_count ∧
      ((eps_protection_update s pid t).panels ⟨pid, h⟩).false_alarm_count =
        (s.panels ⟨pid, h⟩).false_alarm_count ∧
      (eps_protection_update s pid t).calls = s.calls) := by
  constructor <;> intro ha <;> simp only [anomalous] at ha <;>
    rw [update_panels_self, update_calls s pid h t] <;>
    simp [update_panel, hs, case_disabled, ha, u32]

theorem C5_disabled_step_witness :
    ((eps_protection_init power_on).panels ⟨0, by decide⟩).state = COMP_DISABLED ∧
    anomalous (eps_protection_init power_on) ⟨0, by decide⟩ (fault_tick 0) = true ∧
    ((eps_protection_update (eps_protection_init power_on) 0 (fault_tick 0)).panels
      ⟨0, by decide⟩).state = COMP_ENABLED ∧
    anomalous (eps_protection_update (eps_protection_init power_on) 0 (fault_tick 0))
      ⟨1, by decide⟩ (nominal_tick 0) = false ∧
    ((eps_protection_update (eps_protection_init power_on) 1 (nominal_tick 0)).panels
      ⟨1, by decide⟩).state = COMP_DISABLED :=
  ⟨by decide!, by decide!,
    ((C5_disabled_step (eps_protection_init power_on) 0 (by decide) (fault_tick 0)
      (by decide!)).1 (by decide!)).1,
    by decide!,
    ((C5_disabled_step (eps_protection_init power_on) 1 (by decide) (nominal_tick 0)
      (by decide!)).2 (by decide!)).1⟩

/-- C6 (ENABLED → TRIPPED): for a panel in ENABLED, whenever the MOSFET reads
open the call ends in TRIPPED with hardware_tripped = true, trip_time = tick,
trip_count incremented by one (as a uint32), enable_count and false_alarm_count
unchanged, and the calls made are the MOSFET reading followed by exactly one
alert; this holds for every tick, anomalous or not and whatever the time since
Layer 2 was enabled. -/
theorem C6_enabled_trip (s : System) (pid : Nat) (h : pid < NUM_PANELS) (t : Tick)
    (hs : (s.panels ⟨pid, h⟩).state = COMP_ENABLED) (hm : t.mosfet_open = true) :
    ((eps_protection_update s pid t).panels ⟨pid, h⟩).state = COMP_TRIPPED ∧
    ((eps_protection_update s pid t).panels ⟨pid, h⟩).hardware_tripped = true ∧
    ((eps_protection_update s pid t).panels ⟨pid, h⟩).trip_time = t.tick ∧
    ((eps_protection_update s pid t).panels ⟨pid, h⟩).trip_count =
      ((s.panels ⟨pid, h⟩).trip_count + 1) % 2 ^ 32 ∧
    ((eps_protection_update s pid t).panels ⟨pid, h⟩).enable_count =
      (s.panels ⟨pid, h⟩).enable_count ∧
    ((eps_protection_update s pid t).panels ⟨pid, h⟩).false_alarm_count =
      (s.panels ⟨pid, h⟩).false_alarm_count ∧
    (eps_protection_update s pid t).calls = s.calls ++
      [HwCall.check_mosfet_status pid,
        HwCall.send_telemetry_alert pid t.P_measured t.V_measured] := by
  rw [update_panels_self, update_calls s pid h t]
  simp [update_panel, hs, case_enabled, case_enabled_chain, case_enabled_timeout, hm, u32]

theorem C6_enabled_trip_witness :
    ((eps_protection_update (eps_protection_init power_on) 0 (fault_tick 0)).panels
      ⟨0, by decide⟩).state = COMP_ENABLED ∧
    (open_tick 400000).mosfet_open = true ∧
    ((eps_protection_update (eps_protection_update (eps_protection_init power_on) 0
      (fault_tick 0)) 0 (open_tick 400000)).panels ⟨0, by decide⟩).state = COMP_TRIPPED :=
  ⟨by decide!, rfl,
    (C6_enabled_trip (eps_protection_update (eps_protection_init power_on) 0 (fault_tick 0))
      0 (by decide) (open_tick 400000) (by decide!) rfl).1⟩

theorem update_panel_enabled_anomalous (pid : Nat) (p : PanelProtection_t)
    (cmd : GroundCommand_t) (re : Bool) (t : Tick)
    (hs : p.state = COMP_ENABLED) (hm : t.mosfet_open = false)
    (ha : anomaly_detected p t.P_measured t.V_measured t.P_predicted t.V_predicted = true) :
    update_panel pid p cmd re t =
      if u32_sub t.tick p.last_enable_time > ENABLE_TIMEOUT_MS ∧ p.hardware_tripped = false then
        { panel := { p with
            P_prev := t.P_measured
            V_prev := t.V_measured
            stable_count := 0
            state := COMP_DISABLED
            false_alarm_count := u32 (p.false_alarm_count + 1) }
          command := cmd
          calls := [HwCall.check_mosfet_status pid, HwCall.disable_layer2_comparator pid] }
      else
        { panel := { p with
            P_prev := t.P_measured
            V_prev := t.V_measured
            stable_count := 0 }
          command := cmd
          calls := [HwCall.check_mosfet_status pid] } := by
  by_cases hto : u32_sub t.tick p.last_enable_time > ENABLE_TIMEOUT_MS ∧
      p.hardware_tripped = false
  · simp [update_panel, hs, case_enabled, case_enabled_chain, case_enabled_timeout, hm, ha,
      hto.1, hto.2]
  · rw [if_neg hto]
    rw [gt_iff_lt] at hto
    simp [update_panel, hs, case_enabled, case_enabled_chain, case_enabled_timeout, hm, ha, hto]

/-- C8 (ENABLED timeout boundary): for a panel in ENABLED with
hardware_tripped = false, on an anomalous tick with the MOSFET closed, the call
ends in DISABLED with false_alarm_count incremented by one (as a uint32) and
disable_layer2_comparator called (once) if and only if
(tick − last_enable_time) mod 2^32 > 300000; when that difference is exactly
300000 the panel stays ENABLED and none of the three counters changes. -/
theorem C8_enabled_timeout (s : System) (pid : Nat) (h : pid < NUM_PANELS) (t : Tick)
    (hs : (s.panels ⟨pid, h⟩).state = COMP_ENABLED)
    (hht : (s.panels ⟨pid, h⟩).hardware_tripped = false)
    (ha : anomalous s ⟨pid, h⟩ t = true) (hm : t.mosfet_open = false) :
    ((((eps_protection_update s pid t).panels ⟨pid, h⟩).state = COMP_DISABLED ∧
        ((eps_protection_update s pid t).panels ⟨pid, h⟩).false_alarm_count =
          ((s.panels ⟨pid, h⟩).false_alarm_count + 1) % 2 ^ 32 ∧
        (calls_since s (eps_protection_update s pid t)).count
          (HwCall.disable_layer2_comparator pid) = 1) ↔
      ((t.tick : Int) - ((s.panels ⟨pid, h⟩).last_enable_time : Int)) % 2 ^ 32 > 300000) ∧
    (((t.tick : Int) - ((s.panels ⟨pid, h⟩).last_enable_time : Int)) % 2 ^ 32 = 300000 →
      ((eps_protection_update s pid t).panels ⟨pid, h⟩).state = COMP_ENABLED ∧
      ((eps_protection_update s pid t).panels ⟨pid, h⟩).enable_count =
        (s.panels ⟨pid, h⟩).enable_count ∧
      ((eps_protection_update s pid t).panels ⟨pid, h⟩).trip_count =
        (s.panels ⟨pid, h⟩).trip_count ∧
      ((eps_protection_update s pid t).panels ⟨pid, h⟩).false_alarm_count =
        (s.panels ⟨pid, h⟩).false_alarm_count) := by
  simp only [anomalous] at ha
  have hgt := u32_sub_gt_iff t.tick (s.panels ⟨pid, h⟩).last_enable_time 300000
  rw [update_panels_self, calls_since_update s pid h t,
    update_panel_enabled_anomalous pid _ _ _ t hs hm ha]
  by_cases hto : u32_sub t.tick (s.panels ⟨pid, h⟩).last_enable_time > ENABLE_TIMEOUT_MS
  · have hz := hgt.mp hto
    rw [if_pos ⟨hto, hht⟩]
    refine ⟨⟨fun _ => hz, fun _ => ⟨rfl, ?_, ?_⟩⟩, fun heq => ?_⟩
    · simp [u32]
    · simp
    · rw [heq] at hz
      exact absurd hz (by decide)
  · have hz : ¬ ((t.tick : Int) - ((s.panels ⟨pid, h⟩).last_enable_time : Int)) % 2 ^ 32
        > ((300000 : Nat) : Int) := fun hc => hto (hgt.mpr hc)
    rw [if_neg (fun hc => hto hc.1)]
    refine ⟨⟨fun hc => ?_, fun hc => absurd hc hz⟩, fun _ => ⟨hs, rfl, rfl, rfl⟩⟩
    have h1 := hc.1
    simp only [hs] at h1
    exact absurd h1 (by decide)

theorem C8_enabled_timeout_witness :
    ((eps_protection_update (eps_protection_init power_on) 0 (fault_tick 0)).panels
      ⟨0, by decide⟩).state = COMP_ENABLED ∧
    ((eps_protection_update (eps_protection_init power_on) 0 (fault_tick 0)).panels
      ⟨0, by decide⟩).hardware_tripped = false ∧
    anomalous (eps_protection_update (eps_protection_init power_on) 0 (fault_tick 0))
      ⟨0, by decide⟩ (fault_tick 300000) = true ∧
    anomalous (eps_protection_update (eps_protection_init power_on) 0 (fault_tick 0))
      ⟨0, by decide⟩ (fault_tick 300001) = true ∧
    ((eps_protection_update (eps_protection_update (eps_protection_init power_on) 0
      (fault_tick 0)) 0 (fault_tick 300000)).panels ⟨0, by decide⟩).state = COMP_ENABLED ∧
    ((eps_protection_update (eps_protection_update (eps_protection_init power_on) 0
      (fault_tick 0)) 0 (fault_tick 300001)).panels ⟨0, by decide⟩).state = COMP_DISABLED :=
  ⟨by decide!, by decide!, by decide!, by decide!,
    ((C8_enabled_timeout (eps_protection_update (eps_protection_init power_on) 0 (fault_tick 0))
      0 (by decide) (fault_tick 300000) (by decide!) (by decide!) (by decide!) rfl).2
        (by decide!)).1,
    ((C8_enabled_timeout (eps_protection_update (eps_protection_init power_on) 0 (fault_tick 0))
      0 (by decide) (fault_tick 300001) (by decide!) (by decide!) (by decide!) rfl).1.mpr
        (by decide!)).1⟩

/-- C9 (TRIPPED → RECOVERY): for a panel in TRIPPED, whatever the measurements
and predictions, if its command slot holds CMD_REENABLE the call ends in
RECOVERY with ground_approved = true, stable_count = 0, the slot cleared to
CMD_NONE, attempt_reenable_mosfet called exactly once and the three counters
unchanged; if the slot holds any other value the panel stays TRIPPED and the
slot keeps its value. -/
theorem C9_tripped_step (s : System) (pid : Nat) (h : pid < NUM_PANELS) (t : Tick)
    (hs : (s.panels ⟨pid, h⟩).state = COMP_TRIPPED) :
    (s.ground_commands ⟨pid, h⟩ = CMD_REENABLE →
      ((eps_protection_update s pid t).panels ⟨pid, h⟩).state = COMP_RECOVERY ∧
      ((eps_protection_update s pid t).panels ⟨pid, h⟩).ground_approved = true ∧
      ((eps_protection_update s pid t).panels ⟨pid, h⟩).stable_count = 0 ∧
      (eps_protection_update s pid t).ground_commands ⟨pid, h⟩ = CMD_NONE ∧
      (calls_since s (eps_protection_update s pid t)).count
        (HwCall.attempt_reenable_mosfet pid) = 1 ∧
      ((eps_protection_update s pid t).panels ⟨pid, h⟩).enable_count =
        (s.panels ⟨pid, h⟩).enable_count ∧
      ((eps_protection_update s pid t).panels ⟨pid, h⟩).trip_count =
        (s.panels ⟨pid, h⟩).trip_count ∧
      ((eps_protection_update s pid t).panels ⟨pid, h⟩).false_alarm_count =
        (s.panels ⟨pid, h⟩).false_alarm_count) ∧
    (s.ground_commands ⟨pid, h⟩ ≠ CMD_REENABLE →
      ((eps_protection_update s pid t).panels ⟨pid, h⟩).state = COMP_TRIPPED ∧
      (eps_protection_update s pid t).ground_commands ⟨pid, h⟩ =
        s.ground_commands ⟨pid, h⟩) := by
  by_cases hl : 60000 < u32_sub t.tick (s.panels ⟨pid, h⟩).last_log_time <;>
    constructor <;> intro hc <;>
    rw [update_panels_self, update_commands_self] <;>
    (try rw [calls_since_update s pid h t]) <;>
    simp [update_panel, hs, case_tripped, hc, hl]

theorem C9_tripped_step_witness :
    ((process_ground_command (run (eps_protection_init power_on) trip_run) 0
      CMD_REENABLE).panels ⟨0, by decide⟩).state = COMP_TRIPPED ∧
    (process_ground_command (run (eps_protection_init power_on) trip_run) 0
      CMD_REENABLE).ground_commands ⟨0, by decide⟩ = CMD_REENABLE ∧
    ((eps_protection_update (process_ground_command (run (eps_protection_init power_on)
      trip_run) 0 CMD_REENABLE) 0 (nominal_tick 10000)).panels ⟨0, by decide⟩).state
        = COMP_RECOVERY ∧
    ((run (eps_protection_init power_on) trip_run).panels ⟨0, by decide⟩).state
      = COMP_TRIPPED ∧
    (run (eps_protection_init power_on) trip_run).ground_commands ⟨0, by decide⟩
      ≠ CMD_REENABLE ∧
    ((eps_protection_update (run (eps_protection_init power_on) trip_run) 0
      (nominal_tick 10000)).panels ⟨0, by decide⟩).state = COMP_TRIPPED :=
  ⟨by decide!, by decide!,
    ((C9_tripped_step (process_ground_command (run (eps_protection_init power_on) trip_run) 0
      CMD_REENABLE) 0 (by decide) (nominal_tick 10000) (by decide!)).1 (by decide!)).1,
    by decide!, by decide!,
    ((C9_tripped_step (run (eps_protection_init power_on) trip_run) 0 (by decide)
      (nominal_tick 10000) (by decide!)).2 (by decide!)).1⟩

/-! ## Runs of clean ticks -/

theorem steps_append (s : System) (pid : Nat) (a b : List Tick) :
    steps s pid (a ++ b) = steps (steps s pid a) pid b := by
  simp [steps, List.foldl_append]

theorem all_clean_append (i : Fin NUM_PANELS) (b : List Tick) :
    ∀ (a : List Tick) (s : System),
      all_clean s i (a ++ b) = (all_clean s i a && all_clean (steps s i.val a) i b) := by
  intro a
  induction a with
  | nil => intro s; simp [all_clean, steps]
  | cons t ts ih =>
    intro s
    have hsteps : steps s i.val (t :: ts) = steps (eps_protection_update s i.val t) i.val ts :=
      rfl
    show (!anomalous s i t && all_clean (eps_protection_update s i.val t) i (ts ++ b)) = _
    rw [ih, hsteps, ← Bool.and_assoc]
    rfl

theorem all_clean_take (i : Fin NUM_PANELS) (s : System) (ts : List Tick) (k : Nat)
    (hc : all_clean s i ts = true) : all_clean s i (ts.take k) = true := by
  have h := all_clean_append i (ts.drop k) (ts.take k) s
  rw [List.take_append_drop, hc] at h
  have h2 := h.symm
  rw [Bool.and_eq_true] at h2
  exact h2.1

theorem update_panel_enabled_clean (pid : Nat) (p : PanelProtection_t)
    (cmd : GroundCommand_t) (re : Bool) (t : Tick)
    (hs : p.state = COMP_ENABLED) (hm : t.mosfet_open = false)
    (ha : anomaly_detected p t.P_measured t.V_measured t.P_predicted t.V_predicted = false)
    (ht : u32_sub t.tick p.last_enable_time ≤ ENABLE_TIMEOUT_MS) :
    update_panel pid p cmd re t =
      if p.stable_count + 1 < STABLE_REQUIRED then
        { panel := { p with
            P_prev := t.P_measured
            V_prev := t.V_measured
            stable_count := p.stable_count + 1 }
          command := cmd
          calls := [HwCall.check_mosfet_status pid] }
      else if STABLE_REQUIRED ≤ u8 (p.stable_count + 1) then
        { panel := { p with
            P_prev := t.P_measured
            V_prev := t.V_measured
            state := COMP_DISABLED
            stable_count := 0
            false_alarm_count := u32 (p.false_alarm_count + 1) }
          command := cmd
          calls := [HwCall.check_mosfet_status pid, HwCall.disable_layer2_comparator pid] }
      else
        { panel := { p with
            P_prev := t.P_measured
            V_prev := t.V_measured
            stable_count := u8 (p.stable_count + 1) }
          command := cmd
          calls := [HwCall.check_mosfet_status pid] } := by
  have hto : ¬ ENABLE_TIMEOUT_MS < u32_sub t.tick p.last_enable_time := Nat.not_lt.mpr ht
  by_cases h1 : p.stable_count + 1 < STABLE_REQUIRED
  · have h2 : u8 (p.stable_count + 1) = p.stable_count + 1 := by
      unfold STABLE_REQUIRED at h1
      unfold u8
      omega
    have h3 : ¬ STABLE_REQUIRED ≤ p.stable_count + 1 := Nat.not_le.mpr h1
    simp [update_panel, hs, case_enabled, case_enabled_chain, case_enabled_timeout, hm, ha,
      hto, h1, h2, h3]
  · rw [if_neg h1]
    by_cases h4 : STABLE_REQUIRED ≤ u8 (p.stable_count + 1)
    · simp [update_panel, hs, case_enabled, case_enabled_chain, case_enabled_timeout, hm, ha,
        hto, h4]
    · simp [update_panel, hs, case_enabled, case_enabled_chain, case_enabled_timeout, hm, ha,
        hto, h4]

theorem steps_enabled_clean (pid : Nat) (h : pid < NUM_PANELS) :
    ∀ (ts : List Tick) (s : System),
      (s.panels ⟨pid, h⟩).state = COMP_ENABLED →
      (∀ t ∈ ts, t.mosfet_open = false ∧
        u32_sub t.tick (s.panels ⟨pid, h⟩).last_enable_time ≤ ENABLE_TIMEOUT_MS) →
      all_clean s ⟨pid, h⟩ ts = true →
      (s.panels ⟨pid, h⟩).stable_count + ts.length < STABLE_REQUIRED →
      ((steps s pid ts).panels ⟨pid, h⟩).state = COMP_ENABLED ∧
      ((steps s pid ts).panels ⟨pid, h⟩).stable_count =
        (s.panels ⟨pid, h⟩).stable_count + ts.length ∧
      ((steps s pid ts).panels ⟨pid, h⟩).last_enable_time =
        (s.panels ⟨pid, h⟩).last_enable_time ∧
      ((steps s pid ts).panels ⟨pid, h⟩).enable_count = (s.panels ⟨pid, h⟩).enable_count ∧
      ((steps s pid ts).panels ⟨pid, h⟩).trip_count = (s.panels ⟨pid, h⟩).trip_count ∧
      ((steps s pid ts).panels ⟨pid, h⟩).false_alarm_count =
        (s.panels ⟨pid, h⟩).false_alarm_count := by
  intro ts
  induction ts with
  | nil => intro s hs _ _ _; simp [steps, hs]
  | cons t ts ih =>
    intro s hs henv hclean hlen
    simp only [all_clean, Bool.and_eq_true, Bool.not_eq_true', anomalous] at hclean
    have ht := henv t (List.mem_cons_self t ts)
    simp only [List.length_cons] at hlen
    have h1 : (s.panels ⟨pid, h⟩).stable_count + 1 < STABLE_REQUIRED := by omega
    have hp : (eps_protection_update s pid t).panels ⟨pid, h⟩ =
        { s.panels ⟨pid, h⟩ with
          P_prev := t.P_measured
          V_prev := t.V_measured
          stable_count := (s.panels ⟨pid, h⟩).stable_count + 1 } := by
      rw [update_panels_self, update_panel_enabled_clean pid _ _ _ t hs ht.1 hclean.1 ht.2,
        if_pos h1]
    have hih := ih (eps_protection_update s pid t)
      (by rw [hp]; exact hs)
      (by
        intro u hu
        rw [hp]
        exact henv u (List.mem_cons_of_mem t hu))
      hclean.2
      (by rw [hp]; simp only; omega)
    rw [hp] at hih
    simp only at hih
    have hsteps : steps s pid (t :: ts) = steps (eps_protection_update s pid t) pid ts := rfl
    rw [hsteps]
    simp only [List.length_cons]
    refine ⟨hih.1, ?_, hih.2.2.1, hih.2.2.2.1, hih.2.2.2.2.1, hih.2.2.2.2.2⟩
    rw [hih.2.1]
    omega

theorem enabled_six_clean (s : System) (pid : Nat) (h : pid < NUM_PANELS)
    (pre : List Tick) (last : Tick)
    (hs : (s.panels ⟨pid, h⟩).state = COMP_ENABLED)
    (hc : (s.panels ⟨pid, h⟩).stable_count = 0)
    (hl : pre.length = 5)
    (henv : ∀ t ∈ pre ++ [last], t.mosfet_open = false ∧
      u32_sub t.tick (s.panels ⟨pid, h⟩).last_enable_time ≤ ENABLE_TIMEOUT_MS)
    (hclean : all_clean s ⟨pid, h⟩ (pre ++ [last]) = true) :
    (∀ k, k ≤ 5 →
      ((steps s pid (pre.take k)).panels ⟨pid, h⟩).state = COMP_ENABLED ∧
      ((steps s pid (pre.take k)).panels ⟨pid, h⟩).stable_count = k ∧
      ((steps s pid (pre.take k)).panels ⟨pid, h⟩).false_alarm_count =
        (s.panels ⟨pid, h⟩).false_alarm_count ∧
      ((steps s pid (pre.take k)).panels ⟨pid, h⟩).trip_count =
        (s.panels ⟨pid, h⟩).trip_count) ∧
    ((steps s pid (pre ++ [last])).panels ⟨pid, h⟩).state = COMP_DISABLED ∧
    ((steps s pid (pre ++ [last])).panels ⟨pid, h⟩).false_alarm_count =
      ((s.panels ⟨pid, h⟩).false_alarm_count + 1) % 2 ^ 32 ∧
    ((steps s pid (pre ++ [last])).panels ⟨pid, h⟩).trip_count =
      (s.panels ⟨pid, h⟩).trip_count ∧
    ((steps s pid (pre ++ [last])).panels ⟨pid, h⟩).enable_count =
      (s.panels ⟨pid, h⟩).enable_count ∧
    ((steps s pid (pre ++ [last])).panels ⟨pid, h⟩).stable_count = 0 := by
  have hsplit := all_clean_append ⟨pid, h⟩ [last] pre s
  rw [hclean] at hsplit
  have hboth := hsplit.symm
  rw [Bool.and_eq_true] at hboth
  have henvpre : ∀ t ∈ pre, t.mosfet_open = false ∧
      u32_sub t.tick (s.panels ⟨pid, h⟩).last_enable_time ≤ ENABLE_TIMEOUT_MS :=
    fun t ht => henv t (List.mem_append_left _ ht)
  constructor
  · intro k hk
    have hlen : (pre.take k).length = k := by
      rw [List.length_take, hl]
      omega
    have hr := steps_enabled_clean pid h (pre.take k) s hs
      (fun t ht => henvpre t (List.mem_of_mem_take ht))
      (all_clean_take ⟨pid, h⟩ s pre k hboth.1)
      (by rw [hc, hlen]; unfold STABLE_REQUIRED; omega)
    rw [hc, hlen] at hr
    exact ⟨hr.1, by rw [hr.2.1]; omega, hr.2.2.2.2.2, hr.2.2.2.2.1⟩
  · have hr := steps_enabled_clean pid h pre s hs henvpre hboth.1
      (by rw [hc, hl]; unfold STABLE_REQUIRED; omega)
    rw [hc, hl] at hr
    obtain ⟨h5s, h5c, h5t, h5e, h5tr, h5f⟩ := hr
    have hlast := henv last (List.mem_append_right _ (List.mem_singleton_self last))
    rw [← h5t] at hlast
    have hcl : anomaly_detected ((steps s pid pre).panels ⟨pid, h⟩) last.P_measured
        last.V_measured last.P_predicted last.V_predicted = false := by
      have := hboth.2
      simp only [all_clean, Bool.and_true, Bool.not_eq_true', anomalous] at this
      exact this
    have hfin : steps s pid (pre ++ [last]) =
        eps_protection_update (steps s pid pre) pid last := by
      rw [steps_append]
      rfl
    have hn : ¬ ((steps s pid pre).panels ⟨pid, h⟩).stable_count + 1 < STABLE_REQUIRED := by
      rw [h5c]
      decide
    have hy : STABLE_REQUIRED ≤ u8 (((steps s pid pre).panels ⟨pid, h⟩).stable_count + 1) := by
      rw [h5c]
      decide
    rw [hfin, update_panels_self,
      update_panel_enabled_clean pid _ _ _ last h5s hlast.1 hcl hlast.2, if_neg hn, if_pos hy]
    simp only [h5f, h5tr, h5e, u32]
    norm_num

/-- C7 (false-alarm exit after six clean ticks): from ENABLED with
stable_count = 0, over ticks on which the MOSFET reads closed and the enable
timeout is not exceeded, the panel is ENABLED (with stable_count = k and the
counters untouched) after each of the first k ≤ 5 consecutive non-anomalous ticks
and is DISABLED after the 6th, with false_alarm_count incremented by one (as a
uint32), trip_count unchanged and stable_count = 0.  An anomalous tick in ENABLED
(same conditions, any stable_count) leaves the panel ENABLED with
stable_count = 0 and the counters unchanged, after which again the first five
clean ticks keep it ENABLED and the sixth disables it. -/
theorem C7_six_clean_ticks :
    (∀ (s : System) (pid : Nat) (h : pid < NUM_PANELS) (pre : List Tick) (last : Tick),
      (s.panels ⟨pid, h⟩).state = COMP_ENABLED →
      (s.panels ⟨pid, h⟩).stable_count = 0 →
      pre.length = 5 →
      (∀ t ∈ pre ++ [last], t.mosfet_open = false ∧
        u32_sub t.tick (s.panels ⟨pid, h⟩).last_enable_time ≤ ENABLE_TIMEOUT_MS) →
      all_clean s ⟨pid, h⟩ (pre ++ [last]) = true →
      (∀ k, k ≤ 5 →
        ((steps s pid (pre.take k)).panels ⟨pid, h⟩).state = COMP_ENABLED ∧
        ((steps s pid (pre.take k)).panels ⟨pid, h⟩).stable_count = k ∧
        ((steps s pid (pre.take k)).panels ⟨pid, h⟩).false_alarm_count =
          (s.panels ⟨pid, h⟩).false_alarm_count ∧
        ((steps s pid (pre.take k)).panels ⟨pid, h⟩).trip_count =
          (s.panels ⟨pid, h⟩).trip_count) ∧
      ((steps s pid (pre ++ [last])).panels ⟨pid, h⟩).state = COMP_DISABLED ∧
      ((steps s pid (pre ++ [last])).panels ⟨pid, h⟩).false_alarm_count =
        ((s.panels ⟨pid, h⟩).false_alarm_count + 1) % 2 ^ 32 ∧
      ((steps s pid (pre ++ [last])).panels ⟨pid, h⟩).trip_count =
        (s.panels ⟨pid, h⟩).trip_count ∧
      ((steps s pid (pre ++ [last])).panels ⟨pid, h⟩).enable_count =
        (s.panels ⟨pid, h⟩).enable_count ∧
      ((steps s pid (pre ++ [last])).panels ⟨pid, h⟩).stable_count = 0) ∧
    (∀ (s : System) (pid : Nat) (h : pid < NUM_PANELS) (a : Tick) (pre : List Tick)
        (last : Tick),
      (s.panels ⟨pid, h⟩).state = COMP_ENABLED →
      anomalous s ⟨pid, h⟩ a = true →
      pre.length = 5 →
      (∀ t ∈ a :: (pre ++ [last]), t.mosfet_open = false ∧
        u32_sub t.tick (s.panels ⟨pid, h⟩).last_enable_time ≤ ENABLE_TIMEOUT_MS) →
      all_clean (eps_protection_update s pid a) ⟨pid, h⟩ (pre ++ [last]) = true →
      ((eps_protection_update s pid a).panels ⟨pid, h⟩).state = COMP_ENABLED ∧
      ((eps_protection_update s pid a).panels ⟨pid, h⟩).stable_count = 0 ∧
      ((eps_protection_update s pid a).panels ⟨pid, h⟩).false_alarm_count =
        (s.panels ⟨pid, h⟩).false_alarm_count ∧
      ((eps_protection_update s pid a).panels ⟨pid, h⟩).trip_count =
        (s.panels ⟨pid, h⟩).trip_count ∧
      (∀ k, k ≤ 5 →
        ((steps s pid (a :: pre.take k)).panels ⟨pid, h⟩).state = COMP_ENABLED ∧
        ((steps s pid (a :: pre.take k)).panels ⟨pid, h⟩).stable_count = k) ∧
      ((steps s pid (a :: (pre ++ [last]))).panels ⟨pid, h⟩).state = COMP_DISABLED ∧
      ((steps s pid (a :: (pre ++ [last]))).panels ⟨pid, h⟩).false_alarm_count =
        ((s.panels ⟨pid, h⟩).false_alarm_count + 1) % 2 ^ 32 ∧
      ((steps s pid (a :: (pre ++ [last]))).panels ⟨pid, h⟩).trip_count =
        (s.panels ⟨pid, h⟩).trip_count) := by
  refine ⟨fun s pid h pre last hs hc hl henv hclean =>
    enabled_six_clean s pid h pre last hs hc hl henv hclean, ?_⟩
  intro s pid h a pre last hs ha hl henv hclean
  simp only [anomalous] at ha
  have hea := henv a (List.mem_cons_self a _)
  have hto : ¬ (u32_sub a.tick (s.panels ⟨pid, h⟩).last_enable_time > ENABLE_TIMEOUT_MS ∧
      (s.panels ⟨pid, h⟩).hardware_tripped = false) := fun hc => absurd hc.1 (Nat.not_lt.mpr hea.2)
  have hp : (eps_protection_update s pid a).panels ⟨pid, h⟩ =
      { s.panels ⟨pid, h⟩ with
        P_prev := a.P_measured
        V_prev := a.V_measured
        stable_count := 0 } := by
    rw [update_panels_self, update_panel_enabled_anomalous pid _ _ _ a hs hea.1 ha, if_neg hto]
  have hA := enabled_six_clean (eps_protection_update s pid a) pid h pre last
    (by rw [hp]; exact hs) (by rw [hp]) hl
    (by
      intro u hu
      rw [hp]
      exact henv u (List.mem_cons_of_mem a hu))
    hclean
  rw [hp] at hA
  simp only at hA
  have hcons : ∀ ts, steps s pid (a :: ts) = steps (eps_protection_update s pid a) pid ts :=
    fun _ => rfl
  rw [hp]
  simp only [hcons]
  exact ⟨hs, trivial, trivial, trivial, fun k hk => ⟨(hA.1 k hk).1, (hA.1 k hk).2.1⟩,
    hA.2.1, hA.2.2.1, hA.2.2.2.1⟩

theorem C7_six_clean_ticks_witness :
    ((eps_protection_update (eps_protection_init power_on) 0 (fault_tick 0)).panels
      ⟨0, by decide⟩).state = COMP_ENABLED ∧
    ((eps_protection_update (eps_protection_init power_on) 0 (fault_tick 0)).panels
      ⟨0, by decide⟩).stable_count = 0 ∧
    all_clean (eps_protection_update (eps_protection_init power_on) 0 (fault_tick 0))
      ⟨0, by decide⟩ (five_clean_ticks 5000 ++ [nominal_tick 30000]) = true ∧
    ((steps (eps_protection_update (eps_protection_init power_on) 0 (fault_tick 0)) 0
      (five_clean_ticks 5000 ++ [nominal_tick 30000])).panels ⟨0, by decide⟩).state
        = COMP_DISABLED ∧
    anomalous (eps_protection_update (eps_protection_init power_on) 0 (fault_tick 0))
      ⟨0, by decide⟩ (fault_tick 5000) = true ∧
    ((steps (eps_protection_update (eps_protection_init power_on) 0 (fault_tick 0)) 0
      (fault_tick 5000 :: (five_clean_ticks 10000 ++ [nominal_tick 35000]))).panels
        ⟨0, by decide⟩).state = COMP_DISABLED :=
  ⟨by decide!, by decide!, by decide!,
    (C7_six_clean_ticks.1 (eps_protection_update (eps_protection_init power_on) 0 (fault_tick 0))
      0 (by decide) (five_clean_ticks 5000) (nominal_tick 30000)
      (by decide!) (by decide!) (by decide!) (by decide!) (by decide!)).2.1,
    by decide!,
    (C7_six_clean_ticks.2 (eps_protection_update (eps_protection_init power_on) 0 (fault_tick 0))
      0 (by decide) (fault_tick 5000) (five_clean_ticks 10000) (nominal_tick 35000)
      (by decide!) (by decide!) (by decide!) (by decide!) (by decide!)).2.2.2.2.2.1⟩

theorem update_panel_recovery_clean (pid : Nat) (p : PanelProtection_t)
    (cmd : GroundCommand_t) (re : Bool) (t : Tick)
    (hs : p.state = COMP_RECOVERY)
    (ha : anomaly_detected p t.P_measured t.V_measured t.P_predicted t.V_predicted = false) :
    update_panel pid p cmd re t =
      if p.stable_count + 1 < RECOVERY_STABLE_REQ then
        { panel := { p with
            P_prev := t.P_measured
            V_prev := t.V_measured
            stable_count := p.stable_count + 1 }
          command := cmd
          calls := [] }
      else if RECOVERY_STABLE_REQ ≤ u8 (p.stable_count + 1) then
        { panel := { p with
            P_prev := t.P_measured
            V_prev := t.V_measured
            state := COMP_DISABLED
            stable_count := 0
            ground_approved := false }
          command := cmd
          calls := [HwCall.disable_layer2_comparator pid, HwCall.send_telemetry_success pid] }
      else
        { panel := { p with
            P_prev := t.P_measured
            V_prev := t.V_measured
            stable_count := u8 (p.stable_count + 1) }
          command := cmd
          calls := [] } := by
  by_cases h1 : p.stable_count + 1 < RECOVERY_STABLE_REQ
  · have h2 : u8 (p.stable_count + 1) = p.stable_count + 1 := by
      unfold RECOVERY_STABLE_REQ at h1
      unfold u8
      omega
    have h3 : ¬ RECOVERY_STABLE_REQ ≤ p.stable_count + 1 := Nat.not_le.mpr h1
    simp [update_panel, hs, case_recovery, ha, h1, h2, h3]
  · rw [if_neg h1]
    by_cases h4 : RECOVERY_STABLE_REQ ≤ u8 (p.stable_count + 1)
    · simp [update_panel, hs, case_recovery, ha, h4]
    · simp [update_panel, hs, case_recovery, ha, h4]

theorem steps_recovery_clean (pid : Nat) (h : pid < NUM_PANELS) :
    ∀ (ts : List Tick) (s : System),
      (s.panels ⟨pid, h⟩).state = COMP_RECOVERY →
      all_clean s ⟨pid, h⟩ ts = true →
      (s.panels ⟨pid, h⟩).stable_count + ts.length < RECOVERY_STABLE_REQ →
      ((steps s pid ts).panels ⟨pid, h⟩).state = COMP_RECOVERY ∧
      ((steps s pid ts).panels ⟨pid, h⟩).stable_count =
        (s.panels ⟨pid, h⟩).stable_count + ts.length ∧
      ((steps s pid ts).panels ⟨pid, h⟩).enable_count = (s.panels ⟨pid, h⟩).enable_count ∧
      ((steps s pid ts).panels ⟨pid, h⟩).trip_count = (s.panels ⟨pid, h⟩).trip_count ∧
      ((steps s pid ts).panels ⟨pid, h⟩).false_alarm_count =
        (s.panels ⟨pid, h⟩).false_alarm_count ∧
      (steps s pid ts).calls = s.calls := by
  intro ts
  induction ts with
  | nil => intro s hs _ _; simp [steps, hs]
  | cons t ts ih =>
    intro s hs hclean hlen
    simp only [all_clean, Bool.and_eq_true, Bool.not_eq_true', anomalous] at hclean
    simp only [List.length_cons] at hlen
    have h1 : (s.panels ⟨pid, h⟩).stable_count + 1 < RECOVERY_STABLE_REQ := by omega
    have ho := update_panel_recovery_clean pid (s.panels ⟨pid, h⟩) (s.ground_commands ⟨pid, h⟩)
      (decide (s.ground_commands ⟨pid, h⟩ = CMD_REENABLE)) t hs hclean.1
    rw [if_pos h1] at ho
    have hp : (eps_protection_update s pid t).panels ⟨pid, h⟩ =
        { s.panels ⟨pid, h⟩ with
          P_prev := t.P_measured
          V_prev := t.V_measured
          stable_count := (s.panels ⟨pid, h⟩).stable_count + 1 } := by
      rw [update_panels_self, ho]
    have hcalls : (eps_protection_update s pid t).calls = s.calls := by
      rw [update_calls s pid h t, ho]
      simp
    have hih := ih (eps_protection_update s pid t)
      (by rw [hp]; exact hs) hclean.2 (by rw [hp]; simp only; omega)
    rw [hp, hcalls] at hih
    simp only at hih
    have hsteps : steps s pid (t :: ts) = steps (eps_protection_update s pid t) pid ts := rfl
    rw [hsteps]
    simp only [List.length_cons]
    refine ⟨hih.1, ?_, hih.2.2.1, hih.2.2.2.1, hih.2.2.2.2.1, hih.2.2.2.2.2⟩
    rw [hih.2.1]
    omega

/-- C10 (RECOVERY → DISABLED after 24 clean ticks): from RECOVERY with
stable_count = 0, over 24 consecutive non-anomalous ticks the panel is in
RECOVERY after each of the first 23 and in DISABLED after the 24th, with
ground_approved = false, stable_count = 0 and the three counters unchanged; the
calls made over the 24 ticks are exactly disable_layer2_comparator followed by
send_telemetry_success, so the success telemetry is emitted exactly once. -/
theorem C10_recovery_success (s : System) (pid : Nat) (h : pid < NUM_PANELS)
    (pre : List Tick) (last : Tick)
    (hs : (s.panels ⟨pid, h⟩).state = COMP_RECOVERY)
    (hc : (s.panels ⟨pid, h⟩).stable_count = 0)
    (hl : pre.length = 23)
    (hclean : all_clean s ⟨pid, h⟩ (pre ++ [last]) = true) :
    (∀ k, k ≤ 23 → ((steps s pid (pre.take k)).panels ⟨pid, h⟩).state = COMP_RECOVERY) ∧
    ((steps s pid (pre ++ [last])).panels ⟨pid, h⟩).state = COMP_DISABLED ∧
    ((steps s pid (pre ++ [last])).panels ⟨pid, h⟩).ground_approved = false ∧
    ((steps s pid (pre ++ [last])).panels ⟨pid, h⟩).stable_count = 0 ∧
    ((steps s pid (pre ++ [last])).panels ⟨pid, h⟩).enable_count =
      (s.panels ⟨pid, h⟩).enable_count ∧
    ((steps s pid (pre ++ [last])).panels ⟨pid, h⟩).trip_count =
      (s.panels ⟨pid, h⟩).trip_count ∧
    ((steps s pid (pre ++ [last])).panels ⟨pid, h⟩).false_alarm_count =
      (s.panels ⟨pid, h⟩).false_alarm_count ∧
    calls_since s (steps s pid (pre ++ [last])) =
      [HwCall.disable_layer2_comparator pid, HwCall.send_telemetry_success pid] ∧
    (calls_since s (steps s pid (pre ++ [last]))).count (HwCall.send_telemetry_success pid)
      = 1 := by
  have hsplit := all_clean_append ⟨pid, h⟩ [last] pre s
  rw [hclean] at hsplit
  have hboth := hsplit.symm
  rw [Bool.and_eq_true] at hboth
  constructor
  · intro k hk
    have hlen : (pre.take k).length = k := by
      rw [List.length_take, hl]
      omega
    exact (steps_recovery_clean pid h (pre.take k) s hs
      (all_clean_take ⟨pid, h⟩ s pre k hboth.1)
      (by rw [hc, hlen]; unfold RECOVERY_STABLE_REQ; omega)).1
  · have hr := steps_recovery_clean pid h pre s hs hboth.1
      (by rw [hc, hl]; unfold RECOVERY_STABLE_REQ; omega)
    rw [hc, hl] at hr
    obtain ⟨h5s, h5c, h5e, h5tr, h5f, h5calls⟩ := hr
    have hcl : anomaly_detected ((steps s pid pre).panels ⟨pid, h⟩) last.P_measured
        last.V_measured last.P_predicted last.V_predicted = false := by
      have := hboth.2
      simp only [all_clean, Bool.and_true, Bool.not_eq_true', anomalous] at this
      exact this
    have hfin : steps s pid (pre ++ [last]) =
        eps_protection_update (steps s pid pre) pid last := by
      rw [steps_append]
      rfl
    have hn : ¬ ((steps s pid pre).panels ⟨pid, h⟩).stable_count + 1 < RECOVERY_STABLE_REQ := by
      rw [h5c]
      decide
    have hy : RECOVERY_STABLE_REQ ≤
        u8 (((steps s pid pre).panels ⟨pid, h⟩).stable_count + 1) := by
      rw [h5c]
      decide
    have ho := update_panel_recovery_clean pid ((steps s pid pre).panels ⟨pid, h⟩)
      ((steps s pid pre).ground_commands ⟨pid, h⟩)
      (decide ((steps s pid pre).ground_commands ⟨pid, h⟩ = CMD_REENABLE)) last h5s hcl
    rw [if_neg hn, if_pos hy] at ho
    have hcs : calls_since s (steps s pid (pre ++ [last])) =
        [HwCall.disable_layer2_comparator pid, HwCall.send_telemetry_success pid] := by
      rw [hfin, calls_since, update_calls (steps s pid pre) pid h last, ho, h5calls]
      simp
    rw [hcs, hfin, update_panels_self, ho]
    simp [h5e, h5tr, h5f]

theorem C10_recovery_success_witness :
    (recovering.panels ⟨0, by decide⟩).state = COMP_RECOVERY ∧
    (recovering.panels ⟨0, by decide⟩).stable_count = 0 ∧
    (recovery_ticks.take 23).length = 23 ∧
    all_clean recovering ⟨0, by decide⟩ (recovery_ticks.take 23 ++ [nominal_tick 130000])
      = true ∧
    ((steps recovering 0 (recovery_ticks.take 23 ++ [nominal_tick 130000])).panels
      ⟨0, by decide⟩).state = COMP_DISABLED ∧
    calls_since recovering (steps recovering 0
      (recovery_ticks.take 23 ++ [nominal_tick 130000])) =
      [HwCall.disable_layer2_comparator 0, HwCall.send_telemetry_success 0] :=
  ⟨by decide!, by decide!, by decide!, by decide!,
    (C10_recovery_success recovering 0 (by decide) (recovery_ticks.take 23)
      (nominal_tick 130000) (by decide!) (by decide!) (by decide!) (by decide!)).2.1,
    (C10_recovery_success recovering 0 (by decide) (recovery_ticks.take 23)
      (nominal_tick 130000) (by decide!) (by decide!) (by decide!) (by decide!)).2.2.2.2.2.2.2.1⟩

/-! ## Recovery relapse and bad panel ids -/

/-- C11 (RECOVERY → TRIPPED): for a panel in RECOVERY, every anomalous tick
ends in TRIPPED with trip_time = tick and stable_count = 0, and the calls made
are exactly disable_mosfet followed by one alert, whatever stable_count was
before the tick. -/
theorem C11_recovery_relapse (s : System) (pid : Nat) (h : pid < NUM_PANELS) (t : Tick)
    (hs : (s.panels ⟨pid, h⟩).state = COMP_RECOVERY)
    (ha : anomalous s ⟨pid, h⟩ t = true) :
    ((eps_protection_update s pid t).panels ⟨pid, h⟩).state = COMP_TRIPPED ∧
    ((eps_protection_update s pid t).panels ⟨pid, h⟩).trip_time = t.tick ∧
    ((eps_protection_update s pid t).panels ⟨pid, h⟩).stable_count = 0 ∧
    (eps_protection_update s pid t).calls = s.calls ++
      [HwCall.disable_mosfet pid,
        HwCall.send_telemetry_alert pid t.P_measured t.V_measured] := by
  simp only [anomalous] at ha
  rw [update_panels_self, update_calls s pid h t]
  simp [update_panel, hs, case_recovery, ha]

theorem C11_recovery_relapse_witness :
    (recovering_four_ticks.panels ⟨0, by decide⟩).state = COMP_RECOVERY ∧
    (recovering_four_ticks.panels ⟨0, by decide⟩).stable_count = 4 ∧
    anomalous recovering_four_ticks ⟨0, by decide⟩ (fault_tick 35000) = true ∧
    ((eps_protection_update recovering_four_ticks 0 (fault_tick 35000)).panels
      ⟨0, by decide⟩).state = COMP_TRIPPED ∧
    ((eps_protection_update recovering_four_ticks 0 (fault_tick 35000)).panels
      ⟨0, by decide⟩).stable_count = 0 :=
  ⟨by decide!, by decide!, by decide!,
    (C11_recovery_relapse recovering_four_ticks 0 (by decide) (fault_tick 35000)
      (by decide!) (by decide!)).1,
    (C11_recovery_relapse recovering_four_ticks 0 (by decide) (fault_tick 35000)
      (by decide!) (by decide!)).2.2.1⟩

/-- C12, as stated, fails: panel 0 tripped once, entered RECOVERY on ground
approval and spent four clean ticks there; the anomalous fifth tick returns it to
TRIPPED, and trip_count is still 1, not 2. -/
theorem C12_relapse_trip_count_not_incremented :
    (recovering_four_ticks.panels 0).state = COMP_RECOVERY ∧
    anomalous recovering_four_ticks 0 (fault_tick 35000) = true ∧
    ((eps_protection_update recovering_four_ticks 0 (fault_tick 35000)).panels 0).state
      = COMP_TRIPPED ∧
    (recovering_four_ticks.panels 0).trip_count = 1 ∧
    ((eps_protection_update recovering_four_ticks 0 (fault_tick 35000)).panels 0).trip_count
      = 1 ∧
    ¬ ((eps_protection_update recovering_four_ticks 0 (fault_tick 35000)).panels 0).trip_count
      = ((recovering_four_ticks.panels 0).trip_count + 1) % 2 ^ 32 := by
  decide!

/-- C12 (amended): on a recovery relapse (a panel in RECOVERY receives an
anomalous tick and returns to TRIPPED) trip_count, enable_count and
false_alarm_count are all unchanged. -/
theorem C12_relapse_counters_unchanged (s : System) (pid : Nat) (h : pid < NUM_PANELS)
    (t : Tick)
    (hs : (s.panels ⟨pid, h⟩).state = COMP_RECOVERY)
    (ha : anomalous s ⟨pid, h⟩ t = true) :
    ((eps_protection_update s pid t).panels ⟨pid, h⟩).state = COMP_TRIPPED ∧
    ((eps_protection_update s pid t).panels ⟨pid, h⟩).trip_count =
      (s.panels ⟨pid, h⟩).trip_count ∧
    ((eps_protection_update s pid t).panels ⟨pid, h⟩).enable_count =
      (s.panels ⟨pid, h⟩).enable_count ∧
    ((eps_protection_update s pid t).panels ⟨pid, h⟩).false_alarm_count =
      (s.panels ⟨pid, h⟩).false_alarm_count := by
  simp only [anomalous] at ha
  rw [update_panels_self]
  simp [update_panel, hs, case_recovery, ha]

theorem C12_relapse_counters_unchanged_witness :
    (recovering_four_ticks.panels ⟨0, by decide⟩).state = COMP_RECOVERY ∧
    anomalous recovering_four_ticks ⟨0, by decide⟩ (fault_tick 35000) = true ∧
    ((eps_protection_update recovering_four_ticks 0 (fault_tick 35000)).panels
      ⟨0, by decide⟩).trip_count = (recovering_four_ticks.panels ⟨0, by decide⟩).trip_count :=
  ⟨by decide!, by decide!,
    (C12_relapse_counters_unchanged recovering_four_ticks 0 (by decide) (fault_tick 35000)
      (by decide!) (by decide!)).2.1⟩

/-- C13 (bad panel id): for every panel_id ≥ NUM_PANELS the functions
eps_protection_update, eps_protection_init_panel and process_ground_command
return the system unchanged (every panel struct, every command slot, and the
record of hardware calls), and check_ground_command returns false. -/
theorem C13_bad_panel_id (s : System) (pid : Nat) (h : pid ≥ NUM_PANELS) (t : Tick)
    (P_nom V_nom : ℚ) (cmd : GroundCommand_t) :
    eps_protection_update s pid t = s ∧
    eps_protection_init_panel s pid P_nom V_nom = s ∧
    process_ground_command s pid cmd = s ∧
    check_ground_command s pid cmd = false := by
  simp [eps_protection_update, eps_protection_init_panel, process_ground_command,
    check_ground_command, h]

theorem C13_bad_panel_id_witness :
    13 ≥ NUM_PANELS ∧
    eps_protection_update recovering 13 (fault_tick 35000) = recovering ∧
    eps_protection_init_panel recovering 13 1 1 = recovering ∧
    process_ground_command recovering 13 CMD_REENABLE = recovering ∧
    check_ground_command recovering 13 CMD_REENABLE = false :=
  ⟨by decide, C13_bad_panel_id recovering 13 (by decide) (fault_tick 35000) 1 1 CMD_REENABLE⟩

/-! ## Bias corrector -/

theorem bias_updates_cons (bc : BiasCorrector) (o : BiasSample) (obs : List BiasSample) :
    bias_updates bc (o :: obs) =
      bias_updates (bias_update bc o.y_true_power o.y_pred_power o.y_true_voltage
        o.y_pred_voltage) obs := rfl

theorem bias_updates_append (bc : BiasCorrector) (a b : List BiasSample) :
    bias_updates bc (a ++ b) = bias_updates (bias_updates bc a) b := by
  simp [bias_updates, List.foldl_append]

theorem bias_update_params (bc : BiasCorrector) (a b c d : ℚ) :
    (bias_update bc a b c d).alpha = bc.alpha ∧
    (bias_update bc a b c d).warmup = bc.warmup ∧
    (bias_update bc a b c d).n_samples = u32 (bc.n_samples + 1) := by
  unfold bias_update
  split <;> simp

theorem bias_updates_warmup_sum :
    ∀ (obs : List BiasSample) (bc : BiasCorrector),
      bc.warmup < 2 ^ 32 →
      bc.n_samples + obs.length ≤ bc.warmup →
      (bias_updates bc obs).n_samples = bc.n_samples + obs.length ∧
      (bias_updates bc obs).warmup = bc.warmup ∧
      (bias_updates bc obs).bias_power * ((bc.n_samples + obs.length : Nat) : ℚ) =
        bc.bias_power * (bc.n_samples : ℚ) + (obs.map BiasSample.residual_p).sum ∧
      (bias_updates bc obs).bias_voltage * ((bc.n_samples + obs.length : Nat) : ℚ) =
        bc.bias_voltage * (bc.n_samples : ℚ) + (obs.map BiasSample.residual_v).sum := by
  intro obs
  induction obs with
  | nil => intro bc _ _; simp [bias_updates]
  | cons o obs ih =>
    intro bc hW hlen
    simp only [List.length_cons] at hlen
    have hn : bc.n_samples < bc.warmup := by omega
    have hu : u32 (bc.n_samples + 1) = bc.n_samples + 1 := by
      unfold u32
      apply Nat.mod_eq_of_lt
      have : (2 : Nat) ^ 32 = 4294967296 := by norm_num
      omega
    have hne : ((bc.n_samples + 1 : Nat) : ℚ) ≠ 0 :=
      Nat.cast_ne_zero.mpr (Nat.succ_ne_zero bc.n_samples)
    have h1 : (bias_update bc o.y_true_power o.y_pred_power o.y_true_voltage
        o.y_pred_voltage) =
      { bc with
        bias_power := (bc.bias_power * (bc.n_samples : ℚ) + o.residual_p) /
          ((bc.n_samples + 1 : Nat) : ℚ)
        bias_voltage := (bc.bias_voltage * (bc.n_samples : ℚ) + o.residual_v) /
          ((bc.n_samples + 1 : Nat) : ℚ)
        n_samples := bc.n_samples + 1 } := by
      simp [bias_update, hn, hu, BiasSample.residual_p, BiasSample.residual_v]
    have hih := ih (bias_update bc o.y_true_power o.y_pred_power o.y_true_voltage
      o.y_pred_voltage) (by rw [h1]; exact hW) (by rw [h1]; simp only; omega)
    rw [bias_updates_cons]
    rw [h1] at hih ⊢
    simp only at hih
    obtain ⟨hA, hB, hC, hD⟩ := hih
    have hidx : bc.n_samples + 1 + obs.length = bc.n_samples + (obs.length + 1) := by omega
    simp only [List.length_cons, List.map_cons, List.sum_cons]
    rw [hidx] at hA hC hD
    refine ⟨hA, hB, ?_, ?_⟩
    · rw [hC, div_mul_cancel₀ _ hne]
      ring
    · rw [hD, div_mul_cancel₀ _ hne]
      ring

/-- C14 (warmup is the running mean): for every α, every warmup W (a uint32
value) and every sequence of k samples with 1 ≤ k ≤ W, after bias_init(α, W) and
the k bias_update calls bias_power is the arithmetic mean of the k power
residuals and bias_voltage the mean of the k voltage residuals; in particular,
when all power (voltage) residuals equal r, the bias equals r exactly. -/
theorem C14_warmup_running_mean (alpha : ℚ) (W : Nat) (obs : List BiasSample)
    (hW : W < 2 ^ 32) (hk1 : 1 ≤ obs.length) (hkW : obs.length ≤ W) :
    (bias_updates (bias_init alpha W) obs).bias_power =
      (obs.map BiasSample.residual_p).sum / (obs.length : ℚ) ∧
    (bias_updates (bias_init alpha W) obs).bias_voltage =
      (obs.map BiasSample.residual_v).sum / (obs.length : ℚ) ∧
    (∀ r : ℚ, (∀ o ∈ obs, o.y_true_power - o.y_pred_power = r) →
      (bias_updates (bias_init alpha W) obs).bias_power = r) ∧
    (∀ r : ℚ, (∀ o ∈ obs, o.y_true_voltage - o.y_pred_voltage = r) →
      (bias_updates (bias_init alpha W) obs).bias_voltage = r) := by
  have h := bias_updates_warmup_sum obs (bias_init alpha W) hW
    (by simp only [bias_init]; omega)
  simp only [bias_init, Nat.zero_add, Nat.cast_zero, mul_zero, zero_add] at h
  have hne : (obs.length : ℚ) ≠ 0 := by
    have : obs.length ≠ 0 := by omega
    exact_mod_cast this
  have hp : (bias_updates (bias_init alpha W) obs).bias_power =
      (obs.map BiasSample.residual_p).sum / (obs.length : ℚ) := by
    rw [eq_div_iff hne]
    exact h.2.2.1
  have hv : (bias_updates (bias_init alpha W) obs).bias_voltage =
      (obs.map BiasSample.residual_v).sum / (obs.length : ℚ) := by
    rw [eq_div_iff hne]
    exact h.2.2.2
  refine ⟨hp, hv, ?_, ?_⟩
  · intro r hr
    have hs : (obs.map BiasSample.residual_p).sum = (obs.length : ℚ) * r := by
      have : obs.map BiasSample.residual_p = List.replicate obs.length r := by
        rw [List.eq_replicate_iff]
        refine ⟨by simp, ?_⟩
        intro x hx
        obtain ⟨o, ho, rfl⟩ := List.mem_map.mp hx
        exact hr o ho
      rw [this, List.sum_replicate, nsmul_eq_mul]
    rw [hp, hs, mul_div_cancel_left₀ _ hne]
  · intro r hr
    have hs : (obs.map BiasSample.residual_v).sum = (obs.length : ℚ) * r := by
      have : obs.map BiasSample.residual_v = List.replicate obs.length r := by
        rw [List.eq_replicate_iff]
        refine ⟨by simp, ?_⟩
        intro x hx
        obtain ⟨o, ho, rfl⟩ := List.mem_map.mp hx
        exact hr o ho
      rw [this, List.sum_replicate, nsmul_eq_mul]
    rw [hv, hs, mul_div_cancel_left₀ _ hne]

theorem C14_warmup_running_mean_witness :
    (50 : Nat) < 2 ^ 32 ∧ 1 ≤ (List.replicate 50 drift_sample).length ∧
    (List.replicate 50 drift_sample).length ≤ 50 ∧
    (∀ o ∈ List.replicate 50 drift_sample, o.y_true_power - o.y_pred_power = 1 / 2) ∧
    (bias_updates (bias_init (1 / 100) 50) (List.replicate 50 drift_sample)).bias_power
      = 1 / 2 :=
  ⟨by norm_num, by simp, by simp,
    by intro o ho; rw [List.eq_of_mem_replicate ho]; norm_num [drift_sample],
    (C14_warmup_running_mean (1 / 100) 50 (List.replicate 50 drift_sample) (by norm_num)
      (by simp) (by simp)).2.2.1 (1 / 2)
      (by intro o ho; rw [List.eq_of_mem_replicate ho]; norm_num [drift_sample])⟩

theorem u32_lt (n : Nat) : u32 n < 2 ^ 32 := by
  unfold u32
  have : (2 : Nat) ^ 32 = 4294967296 := by norm_num
  rw [this]
  exact Nat.mod_lt _ (by norm_num)

theorem bias_updates_params :
    ∀ (obs : List BiasSample) (bc : BiasCorrector),
      (bias_updates bc obs).alpha = bc.alpha ∧
      (bias_updates bc obs).warmup = bc.warmup ∧
      (bc.n_samples < 2 ^ 32 → (bias_updates bc obs).n_samples < 2 ^ 32) ∧
      (bias_updates bc obs).n_samples = u32 (bc.n_samples + obs.length) ∨
        obs = [] ∧ (bias_updates bc obs) = bc := by
  intro obs
  induction obs with
  | nil => intro bc; right; exact ⟨rfl, rfl⟩
  | cons o obs ih =>
    intro bc
    left
    have hp := bias_update_params bc o.y_true_power o.y_pred_power o.y_true_voltage
      o.y_pred_voltage
    rw [bias_updates_cons]
    rcases ih (bias_update bc o.y_true_power o.y_pred_power o.y_true_voltage
      o.y_pred_voltage) with h | ⟨h1, h2⟩
    · refine ⟨by rw [h.1, hp.1], by rw [h.2.1, hp.2.1], fun _ => ?_, ?_⟩
      · exact h.2.2.1 (by rw [hp.2.2]; exact u32_lt _)
      · rw [h.2.2.2, hp.2.2]
        unfold u32
        simp only [List.length_cons]
        omega
    · rw [h2, h1]
      refine ⟨hp.1, hp.2.1, fun _ => by rw [hp.2.2]; exact u32_lt _, ?_⟩
      rw [hp.2.2]
      simp

theorem bias_update_ewma (bc : BiasCorrector) (a b c d : ℚ)
    (hn : bc.n_samples ≥ bc.warmup) :
    (bias_update bc a b c d).bias_power = bc.alpha * (a - b) + (1 - bc.alpha) * bc.bias_power ∧
    (bias_update bc a b c d).bias_voltage =
      bc.alpha * (c - d) + (1 - bc.alpha) * bc.bias_voltage := by
  have h : ¬ bc.n_samples < bc.warmup := Nat.not_lt.mpr hn
  simp [bias_update, h]

theorem bias_update_contracts (bc : BiasCorrector) (o : BiasSample)
    (hw : bc.warmup < 2 ^ 32) (ha0 : 0 < bc.alpha) (ha1 : bc.alpha ≤ 1) :
    ∃ c : ℚ, 0 ≤ c ∧ c ≤ 1 ∧
      (bias_update bc o.y_true_power o.y_pred_power o.y_true_voltage
        o.y_pred_voltage).bias_power - o.residual_p = c * (bc.bias_power - o.residual_p) ∧
      (bias_update bc o.y_true_power o.y_pred_power o.y_true_voltage
        o.y_pred_voltage).bias_voltage - o.residual_v =
          c * (bc.bias_voltage - o.residual_v) := by
  by_cases hn : bc.n_samples < bc.warmup
  · have hu : u32 (bc.n_samples + 1) = bc.n_samples + 1 := by
      unfold u32
      apply Nat.mod_eq_of_lt
      have : (2 : Nat) ^ 32 = 4294967296 := by norm_num
      omega
    have hpos : (0 : ℚ) < (bc.n_samples : ℚ) + 1 := by positivity
    refine ⟨(bc.n_samples : ℚ) / ((bc.n_samples : ℚ) + 1), by positivity, ?_, ?_, ?_⟩
    · rw [div_le_one hpos]
      linarith
    · simp only [bias_update, hn, if_true, hu, BiasSample.residual_p, Nat.cast_add,
        Nat.cast_one]
      field_simp
      ring
    · simp only [bias_update, hn, if_true, hu, BiasSample.residual_v, Nat.cast_add,
        Nat.cast_one]
      field_simp
      ring
  · have he := bias_update_ewma bc o.y_true_power o.y_pred_power o.y_true_voltage
      o.y_pred_voltage (Nat.not_lt.mp hn)
    refine ⟨1 - bc.alpha, by linarith, by linarith, ?_, ?_⟩
    · rw [he.1]
      simp only [BiasSample.residual_p]
      ring
    · rw [he.2]
      simp only [BiasSample.residual_v]
      ring

theorem bias_updates_contracts (rp rv : ℚ) :
    ∀ (obs : List BiasSample) (bc : BiasCorrector),
      bc.warmup < 2 ^ 32 → 0 < bc.alpha → bc.alpha ≤ 1 →
      (∀ o ∈ obs, o.y_true_power - o.y_pred_power = rp ∧
        o.y_true_voltage - o.y_pred_voltage = rv) →
      ∃ c : ℚ, 0 ≤ c ∧ c ≤ 1 ∧
        (bias_updates bc obs).bias_power - rp = c * (bc.bias_power - rp) ∧
        (bias_updates bc obs).bias_voltage - rv = c * (bc.bias_voltage - rv) := by
  intro obs
  induction obs with
  | nil =>
    intro bc _ _ _ _
    exact ⟨1, by norm_num, le_refl _, by simp [bias_updates], by simp [bias_updates]⟩
  | cons o obs ih =>
    intro bc hw ha0 ha1 hr
    have ho := hr o (List.mem_cons_self o obs)
    have hp := bias_update_params bc o.y_true_power o.y_pred_power o.y_true_voltage
      o.y_pred_voltage
    obtain ⟨c1, hc10, hc11, hcp, hcv⟩ := bias_update_contracts bc o hw ha0 ha1
    simp only [BiasSample.residual_p, BiasSample.residual_v, ho.1, ho.2] at hcp hcv
    obtain ⟨c2, hc20, hc21, hdp, hdv⟩ := ih
      (bias_update bc o.y_true_power o.y_pred_power o.y_true_voltage o.y_pred_voltage)
      (by rw [hp.2.1]; exact hw) (by rw [hp.1]; exact ha0) (by rw [hp.1]; exact ha1)
      (fun u hu => hr u (List.mem_cons_of_mem o hu))
    refine ⟨c2 * c1, mul_nonneg hc20 hc10, ?_, ?_, ?_⟩
    · calc c2 * c1 ≤ 1 * 1 := mul_le_mul hc21 hc11 hc10 (by norm_num)
        _ = 1 := by norm_num
    · rw [bias_updates_cons, hdp, hcp]
      ring
    · rw [bias_updates_cons, hdv, hcv]
      ring

/-- C15 (EWMA step and monotone convergence): for a corrector with
n_samples ≥ warmup, one bias_update with residual r sets each bias to
α·r + (1−α)·bias.  With 0 < α ≤ 1 the new error satisfies
|bias_new − r| = (1−α)·|bias_old − r|, lies on the same side of r as the old one
and is no larger.  Over successive updates with a constant residual r (per
channel) the distance to r after any longer run is at most the distance after
any shorter run, and the bias stays on the side of r where it started. -/
theorem C15_ewma_converges_monotonically :
    (∀ (bc : BiasCorrector) (o : BiasSample), bc.n_samples ≥ bc.warmup →
      (bias_update bc o.y_true_power o.y_pred_power o.y_true_voltage
        o.y_pred_voltage).bias_power =
          bc.alpha * (o.y_true_power - o.y_pred_power) + (1 - bc.alpha) * bc.bias_power ∧
      (bias_update bc o.y_true_power o.y_pred_power o.y_true_voltage
        o.y_pred_voltage).bias_voltage =
          bc.alpha * (o.y_true_voltage - o.y_pred_voltage) +
            (1 - bc.alpha) * bc.bias_voltage) ∧
    (∀ (bc : BiasCorrector) (o : BiasSample), bc.n_samples ≥ bc.warmup →
      0 < bc.alpha → bc.alpha ≤ 1 →
      |(bias_update bc o.y_true_power o.y_pred_power o.y_true_voltage
          o.y_pred_voltage).bias_power - (o.y_true_power - o.y_pred_power)| =
        (1 - bc.alpha) * |bc.bias_power - (o.y_true_power - o.y_pred_power)| ∧
      |(bias_update bc o.y_true_power o.y_pred_power o.y_true_voltage
          o.y_pred_voltage).bias_voltage - (o.y_true_voltage - o.y_pred_voltage)| =
        (1 - bc.alpha) * |bc.bias_voltage - (o.y_true_voltage - o.y_pred_voltage)| ∧
      0 ≤ ((bias_update bc o.y_true_power o.y_pred_power o.y_true_voltage
          o.y_pred_voltage).bias_power - (o.y_true_power - o.y_pred_power)) *
        (bc.bias_power - (o.y_true_power - o.y_pred_power)) ∧
      0 ≤ ((bias_update bc o.y_true_power o.y_pred_power o.y_true_voltage
          o.y_pred_voltage).bias_voltage - (o.y_true_voltage - o.y_pred_voltage)) *
        (bc.bias_voltage - (o.y_true_voltage - o.y_pred_voltage))) ∧
    (∀ (bc : BiasCorrector) (rp rv : ℚ) (a b : List BiasSample),
      bc.n_samples ≥ bc.warmup → bc.n_samples < 2 ^ 32 →
      0 < bc.alpha → bc.alpha ≤ 1 →
      (∀ o ∈ a ++ b, o.y_true_power - o.y_pred_power = rp ∧
        o.y_true_voltage - o.y_pred_voltage = rv) →
      |(bias_updates bc (a ++ b)).bias_power - rp| ≤ |(bias_updates bc a).bias_power - rp| ∧
      |(bias_updates bc (a ++ b)).bias_voltage - rv| ≤
        |(bias_updates bc a).bias_voltage - rv| ∧
      0 ≤ ((bias_updates bc (a ++ b)).bias_power - rp) * (bc.bias_power - rp) ∧
      0 ≤ ((bias_updates bc (a ++ b)).bias_voltage - rv) * (bc.bias_voltage - rv)) := by
  refine ⟨fun bc o hn => bias_update_ewma bc _ _ _ _ hn, ?_, ?_⟩
  · intro bc o hn ha0 ha1
    have he := bias_update_ewma bc o.y_true_power o.y_pred_power o.y_true_voltage
      o.y_pred_voltage hn
    have hp : (bias_update bc o.y_true_power o.y_pred_power o.y_true_voltage
        o.y_pred_voltage).bias_power - (o.y_true_power - o.y_pred_power) =
        (1 - bc.alpha) * (bc.bias_power - (o.y_true_power - o.y_pred_power)) := by
      rw [he.1]; ring
    have hv : (bias_update bc o.y_true_power o.y_pred_power o.y_true_voltage
        o.y_pred_voltage).bias_voltage - (o.y_true_voltage - o.y_pred_voltage) =
        (1 - bc.alpha) * (bc.bias_voltage - (o.y_true_voltage - o.y_pred_voltage)) := by
      rw [he.2]; ring
    have h1a : (0 : ℚ) ≤ 1 - bc.alpha := by linarith
    rw [hp, hv, abs_mul, abs_mul, abs_of_nonneg h1a]
    refine ⟨rfl, rfl, ?_, ?_⟩
    · rw [mul_assoc]
      exact mul_nonneg h1a (mul_self_nonneg _)
    · rw [mul_assoc]
      exact mul_nonneg h1a (mul_self_nonneg _)
  · intro bc rp rv a b hn hlt ha0 ha1 hr
    have hw : bc.warmup < 2 ^ 32 := lt_of_le_of_lt hn hlt
    have hpa : (bias_updates bc a).alpha = bc.alpha ∧ (bias_updates bc a).warmup = bc.warmup := by
      rcases bias_updates_params a bc with h | ⟨_, h⟩
      · exact ⟨h.1, h.2.1⟩
      · rw [h]; exact ⟨rfl, rfl⟩
    obtain ⟨c, hc0, hc1, hcp, hcv⟩ := bias_updates_contracts rp rv b (bias_updates bc a)
      (by rw [hpa.2]; exact hw) (by rw [hpa.1]; exact ha0) (by rw [hpa.1]; exact ha1)
      (fun o ho => hr o (List.mem_append_right a ho))
    obtain ⟨c', hc0', _, hcp', hcv'⟩ := bias_updates_contracts rp rv (a ++ b) bc hw ha0 ha1 hr
    rw [bias_updates_append] at hcp' hcv' ⊢
    refine ⟨?_, ?_, ?_, ?_⟩
    · rw [hcp, abs_mul, abs_of_nonneg hc0]
      exact mul_le_of_le_one_left (abs_nonneg _) hc1
    · rw [hcv, abs_mul, abs_of_nonneg hc0]
      exact mul_le_of_le_one_left (abs_nonneg _) hc1
    · rw [hcp', mul_assoc]
      exact mul_nonneg hc0' (mul_self_nonneg _)
    · rw [hcv', mul_assoc]
      exact mul_nonneg hc0' (mul_self_nonneg _)

theorem C15_ewma_converges_monotonically_witness :
    warmed_up.n_samples ≥ warmed_up.warmup ∧ warmed_up.n_samples < 2 ^ 32 ∧
    0 < warmed_up.alpha ∧ warmed_up.alpha ≤ 1 ∧
    (bias_update warmed_up unit_sample.y_true_power unit_sample.y_pred_power
      unit_sample.y_true_voltage unit_sample.y_pred_voltage).bias_power =
        warmed_up.alpha * (unit_sample.y_true_power - unit_sample.y_pred_power) +
          (1 - warmed_up.alpha) * warmed_up.bias_power ∧
    |(bias_updates warmed_up ([unit_sample] ++ [unit_sample, unit_sample])).bias_power - 1| ≤
      |(bias_updates warmed_up [unit_sample]).bias_power - 1| :=
  ⟨by decide!, by decide!, by decide!, by decide!,
    (C15_ewma_converges_monotonically.1 warmed_up unit_sample (by decide!)).1,
    (C15_ewma_converges_monotonically.2.2 warmed_up 1 0 [unit_sample]
      [unit_sample, unit_sample] (by decide!) (by decide!) (by decide!) (by decide!)
      (by decide!)).1⟩

theorem getD_mid (A : List ℚ) (x : ℚ) (B : List ℚ) (d : ℚ) :
    (A ++ x :: B).getD A.length d = x := by
  induction A with
  | nil => rfl
  | cons a A ih =>
    simp only [List.cons_append, List.length_cons, List.getD_cons_succ]
    exact ih

theorem set_mid (A : List ℚ) (x y : ℚ) (B : List ℚ) :
    (A ++ x :: B).set A.length y = A ++ y :: B := by
  induction A with
  | nil => rfl
  | cons a A ih => simp [ih]

theorem sort_inner_closed (key : ℚ) :
    ∀ (l : List ℚ) (h : ℚ) (R : List ℚ),
      sort_inner (l.reverse ++ h :: R) key l.length =
        (l.orderedInsert (fun a b => a ≥ b) key).reverse ++ R := by
  intro l
  induction l with
  | nil => intro h R; simp [sort_inner]
  | cons x t ih =>
    intro h R
    have hlen : t.reverse.length = t.length := List.length_reverse t
    have e1 : (x :: t).reverse ++ h :: R = t.reverse ++ x :: (h :: R) := by simp
    have hget : (t.reverse ++ x :: (h :: R)).getD t.length 0 = x := by
      rw [← hlen]; exact getD_mid _ _ _ _
    have e2 : ∀ y, (t.reverse ++ x :: (h :: R)).set (t.length + 1) y =
        (t.reverse ++ [x]) ++ y :: R := by
      intro y
      have := set_mid (t.reverse ++ [x]) h y R
      simp only [List.length_append, List.length_singleton, hlen, List.append_assoc,
        List.singleton_append] at this
      simp [this]
    rw [e1, List.length_cons, sort_inner, hget]
    by_cases hx : x > key
    · rw [if_pos hx, e2 x]
      have e3 : (t.reverse ++ [x]) ++ x :: R = t.reverse ++ x :: (x :: R) := by simp
      rw [e3, ih x (x :: R)]
      have hnot : ¬ key ≥ x := not_le.mpr hx
      simp [List.orderedInsert, hnot]
    · rw [if_neg hx, e2 key]
      have hge : key ≥ x := not_lt.mp hx
      simp [List.orderedInsert, hge]

theorem sort_outer_sorted :
    ∀ (T S : List ℚ), List.Sorted (fun a b => a ≤ b) S →
      List.Sorted (fun a b => a ≤ b)
        ((List.range' S.length T.length).foldl (fun b i => sort_inner b (b.getD i 0) i)
          (S ++ T)) ∧
      List.Perm
        ((List.range' S.length T.length).foldl (fun b i => sort_inner b (b.getD i 0) i)
          (S ++ T)) (S ++ T) := by
  intro T
  induction T with
  | nil => intro S hS; simpa using hS
  | cons key T ih =>
    intro S hS
    have hrev : S.reverse.reverse = S := List.reverse_reverse S
    have hstep : sort_inner (S ++ key :: T) ((S ++ key :: T).getD S.length 0) S.length =
        (S.reverse.orderedInsert (fun a b => a ≥ b) key).reverse ++ T := by
      rw [getD_mid]
      have := sort_inner_closed key S.reverse key T
      rwa [hrev, List.length_reverse] at this
    have hsortedrev : List.Sorted (fun a b => a ≥ b) S.reverse := by
      rw [List.Sorted, List.pairwise_reverse]
      exact hS
    have hins : List.Sorted (fun a b => a ≥ b)
        (S.reverse.orderedInsert (fun a b => a ≥ b) key) :=
      List.Sorted.orderedInsert key S.reverse hsortedrev
    have hS2 : List.Sorted (fun a b => a ≤ b)
        (S.reverse.orderedInsert (fun a b => a ≥ b) key).reverse := by
      rw [List.Sorted, List.pairwise_reverse]
      exact hins
    have hlen2 : (S.reverse.orderedInsert (fun a b => a ≥ b) key).reverse.length =
        S.length + 1 := by
      rw [List.length_reverse, List.orderedInsert_length, List.length_reverse]
    have hperm : List.Perm (S.reverse.orderedInsert (fun a b => a ≥ b) key).reverse
        (key :: S) :=
      ((List.reverse_perm _).trans (List.perm_orderedInsert _ key S.reverse)).trans
        (List.Perm.cons key (List.reverse_perm S))
    have hih := ih _ hS2
    rw [hlen2] at hih
    simp only [List.length_cons, List.range'_succ, List.foldl_cons, hstep]
    refine ⟨hih.1, hih.2.trans ?_⟩
    exact (List.Perm.append_right T hperm).trans (List.perm_middle.symm)

theorem p2_sort_buffer_five (a b c d e : ℚ) :
    List.Sorted (fun x y => x ≤ y) (p2_sort_buffer [a, b, c, d, e] 5) ∧
    List.Perm (p2_sort_buffer [a, b, c, d, e] 5) [a, b, c, d, e] := by
  have h := sort_outer_sorted [b, c, d, e] [a] (List.sorted_singleton a)
  simpa [p2_sort_buffer] using h

theorem p2_init_phase :
    ∀ (xs : List ℚ) (p2 : P2Quantile), p2.initialized = false →
      p2.init_count + xs.length < 5 →
      (p2_updates p2 xs).initialized = false ∧
      (p2_updates p2 xs).init_count = p2.init_count + xs.length := by
  intro xs
  induction xs with
  | nil => intro p2 h _; exact ⟨h, rfl⟩
  | cons x xs ih =>
    intro p2 h hl
    simp only [List.length_cons] at hl
    have hc : p2.init_count < 5 := by omega
    have hu : u8 (p2.init_count + 1) = p2.init_count + 1 := by unfold u8; omega
    have hne : ¬ p2.init_count + 1 = 5 := by omega
    have hstep : p2_update p2 x =
        { p2 with
          init_buffer := Function.update p2.init_buffer p2.init_count x
          init_count := p2.init_count + 1 } := by
      simp [p2_update, hc, hu, hne]
    have := ih (p2_update p2 x) (by rw [hstep]; exact h) (by rw [hstep]; simp only; omega)
    have hcons : p2_updates p2 (x :: xs) = p2_updates (p2_update p2 x) xs := rfl
    rw [hcons]
    refine ⟨this.1, ?_⟩
    rw [this.2, hstep, List.length_cons]
    simp only
    omega

theorem p2_five_samples (p2 : P2Quantile) (p x1 x2 x3 x4 x5 : ℚ) :
    (∀ i, i < 5 → (p2_updates (p2_init p2 p) [x1, x2, x3, x4, x5]).q i =
      (p2_sort_buffer [x1, x2, x3, x4, x5] 5).getD i 0) ∧
    (∀ i, i < 5 → (p2_updates (p2_init p2 p) [x1, x2, x3, x4, x5]).n_actual i = i + 1) ∧
    (p2_updates (p2_init p2 p) [x1, x2, x3, x4, x5]).n_markers 0 = 1 ∧
    (p2_updates (p2_init p2 p) [x1, x2, x3, x4, x5]).n_markers 1 = 1 + 2 * p ∧
    (p2_updates (p2_init p2 p) [x1, x2, x3, x4, x5]).n_markers 2 = 1 + 4 * p ∧
    (p2_updates (p2_init p2 p) [x1, x2, x3, x4, x5]).n_markers 3 = 3 + 2 * p ∧
    (p2_updates (p2_init p2 p) [x1, x2, x3, x4, x5]).n_markers 4 = 5 ∧
    (p2_updates (p2_init p2 p) [x1, x2, x3, x4, x5]).n = 5 ∧
    (p2_updates (p2_init p2 p) [x1, x2, x3, x4, x5]).initialized = true ∧
    (p2_updates (p2_init p2 p) [x1, x2, x3, x4, x5]).init_count = 5 ∧
    (p2_updates (p2_init p2 p) [x1, x2, x3, x4, x5]).p = p := by
  refine ⟨?_, ?_, ?_, ?_, ?_, ?_, ?_, ?_, ?_, ?_, ?_⟩ <;>
    simp +contextual [p2_updates, p2_update, p2_init, u8, Function.update]

/-- C19 (P² initialisation): after p2_init(p), on any prior struct contents:
after fewer than 5 p2_update calls the estimator is not initialized and
p2_get_quantile returns 0; after exactly 5 calls q[0..4] is the ascending sorted
permutation of the five samples, n_actual = (1,2,3,4,5), the ideal positions are
(1, 1+2p, 1+4p, 3+2p, 5), n = 5, initialized is true and p2_get_quantile returns
q[2], the third smallest of the five samples. -/
theorem C19_p2_initialisation (p2 : P2Quantile) (p : ℚ) :
    (∀ xs : List ℚ, xs.length < 5 →
      (p2_updates (p2_init p2 p) xs).initialized = false ∧
      p2_get_quantile (p2_updates (p2_init p2 p) xs) = 0) ∧
    (∀ x1 x2 x3 x4 x5 : ℚ,
      List.Sorted (fun a b => a ≤ b)
        ((List.range 5).map (p2_updates (p2_init p2 p) [x1, x2, x3, x4, x5]).q) ∧
      List.Perm ((List.range 5).map (p2_updates (p2_init p2 p) [x1, x2, x3, x4, x5]).q)
        [x1, x2, x3, x4, x5] ∧
      (List.range 5).map (p2_updates (p2_init p2 p) [x1, x2, x3, x4, x5]).q =
        [x1, x2, x3, x4, x5].insertionSort (fun a b => a ≤ b) ∧
      (List.range 5).map (p2_updates (p2_init p2 p) [x1, x2, x3, x4, x5]).n_actual =
        [1, 2, 3, 4, 5] ∧
      (List.range 5).map (p2_updates (p2_init p2 p) [x1, x2, x3, x4, x5]).n_markers =
        [1, 1 + 2 * p, 1 + 4 * p, 3 + 2 * p, 5] ∧
      (p2_updates (p2_init p2 p) [x1, x2, x3, x4, x5]).n = 5 ∧
      (p2_updates (p2_init p2 p) [x1, x2, x3, x4, x5]).initialized = true ∧
      p2_get_quantile (p2_updates (p2_init p2 p) [x1, x2, x3, x4, x5]) =
        (p2_updates (p2_init p2 p) [x1, x2, x3, x4, x5]).q 2 ∧
      p2_get_quantile (p2_updates (p2_init p2 p) [x1, x2, x3, x4, x5]) =
        ([x1, x2, x3, x4, x5].insertionSort (fun a b => a ≤ b)).getD 2 0) := by
  constructor
  · intro xs hx
    have h := p2_init_phase xs (p2_init p2 p) rfl (by simpa [p2_init] using hx)
    exact ⟨h.1, by simp [p2_get_quantile, h.1]⟩
  · intro x1 x2 x3 x4 x5
    obtain ⟨hq, hn, hm0, hm1, hm2, hm3, hm4, hN, hI, _, _⟩ :=
      p2_five_samples p2 p x1 x2 x3 x4 x5
    obtain ⟨hsorted, hperm⟩ := p2_sort_buffer_five x1 x2 x3 x4 x5
    have hlen : (p2_sort_buffer [x1, x2, x3, x4, x5] 5).length = 5 := by
      rw [hperm.length_eq]; rfl
    have hmap : (List.range 5).map (p2_updates (p2_init p2 p) [x1, x2, x3, x4, x5]).q =
        p2_sort_buffer [x1, x2, x3, x4, x5] 5 := by
      have e : List.range 5 = [0, 1, 2, 3, 4] := by decide
      rw [e]
      simp only [List.map_cons, List.map_nil]
      rw [hq 0 (by norm_num), hq 1 (by norm_num), hq 2 (by norm_num), hq 3 (by norm_num),
        hq 4 (by norm_num)]
      match hl : p2_sort_buffer [x1, x2, x3, x4, x5] 5, hlen with
      | [a, b, c, d, e], _ => rfl
    have hins : p2_sort_buffer [x1, x2, x3, x4, x5] 5 =
        [x1, x2, x3, x4, x5].insertionSort (fun a b => a ≤ b) :=
      List.eq_of_perm_of_sorted
        (hperm.trans (List.perm_insertionSort _ _).symm) hsorted (List.sorted_insertionSort _ _)
    have hq2 : (p2_updates (p2_init p2 p) [x1, x2, x3, x4, x5]).q 2 =
        ([x1, x2, x3, x4, x5].insertionSort (fun a b => a ≤ b)).getD 2 0 := by
      rw [hq 2 (by norm_num), hins]
    have hg : p2_get_quantile (p2_updates (p2_init p2 p) [x1, x2, x3, x4, x5]) =
        (p2_updates (p2_init p2 p) [x1, x2, x3, x4, x5]).q 2 := by
      simp [p2_get_quantile, hI]
    refine ⟨by rw [hmap]; exact hsorted, by rw [hmap]; exact hperm, by rw [hmap, hins], ?_, ?_,
      hN, hI, hg, by rw [hg, hq2]⟩
    · have e : List.range 5 = [0, 1, 2, 3, 4] := by decide
      rw [e]
      simp [hn]
    · have e : List.range 5 = [0, 1, 2, 3, 4] := by decide
      rw [e]
      simp [hm0, hm1, hm2, hm3, hm4]

theorem C19_p2_initialisation_witness :
    [(3 : ℚ), 1, 2].length < 5 ∧
    p2_get_quantile (p2_updates (p2_init p2_zero (99 / 100)) [3, 1, 2]) = 0 ∧
    p2_get_quantile (p2_updates (p2_init p2_zero (99 / 100)) [3, 1, 2, 5, 4]) =
      ([(3 : ℚ), 1, 2, 5, 4].insertionSort (fun a b => a ≤ b)).getD 2 0 :=
  ⟨by decide, ((C19_p2_initialisation p2_zero (99 / 100)).1 [3, 1, 2] (by decide)).2,
    ((C19_p2_initialisation p2_zero (99 / 100)).2 3 1 2 5 4).2.2.2.2.2.2.2.2⟩

/-! ## P² estimator: marker adjustment keeps the markers ordered -/

theorem linear_down_core (qm qi qp a b G : ℚ) (ha : 2 ≤ a) (hb : 1 ≤ b) (hG : 1 ≤ G)
    (h1 : qm ≤ qi) (h2 : qi ≤ qp)
    (hrej : ¬ (qm < qi + (-1) / (a + b) * ((a - 1) * (qp - qi) / b + (b + 1) * (qi - qm) / a) ∧
      qi + (-1) / (a + b) * ((a - 1) * (qp - qi) / b + (b + 1) * (qi - qm) / a) < qp)) :
    qm ≤ qi + (-1) * (qm - qi) / G ∧ qi + (-1) * (qm - qi) / G ≤ qp := by
  have hGpos : 0 < G := by linarith
  have hapos : 0 < a := by linarith
  have hbpos : 0 < b := by linarith
  have habpos : 0 < a + b := by linarith
  have hv : 0 ≤ qi - qm := by linarith
  have hu : 0 ≤ qp - qi := by linarith
  have hfrac : (-1) * (qm - qi) / G = (qi - qm) / G := by ring
  have hnn : 0 ≤ (qi - qm) / G := div_nonneg hv hGpos.le
  have hle : (qi - qm) / G ≤ qi - qm := div_le_self hv hG
  rw [hfrac]
  refine ⟨by linarith, ?_⟩
  by_contra hcon
  push_neg at hcon
  have huv : qp - qi < qi - qm := by linarith
  have hvpos : 0 < qi - qm := by linarith
  apply hrej
  obtain ⟨X, hX⟩ : ∃ X, X = (a - 1) * (qp - qi) / b + (b + 1) * (qi - qm) / a := ⟨_, rfl⟩
  rw [← hX]
  have hX1 : 0 < X := by
    rw [hX]
    have t1 : 0 ≤ (a - 1) * (qp - qi) / b := by
      apply div_nonneg _ hbpos.le
      exact mul_nonneg (by linarith) hu
    have t2 : 0 < (b + 1) * (qi - qm) / a := by
      apply div_pos _ hapos
      exact mul_pos (by linarith) hvpos
    linarith
  have hX2 : X < (qi - qm) * (a + b) := by
    rw [hX]
    have t1 : (a - 1) * (qp - qi) / b ≤ (a - 1) * (qp - qi) := by
      apply div_le_self _ hb
      exact mul_nonneg (by linarith) hu
    have t1' : (a - 1) * (qp - qi) < (a - 1) * (qi - qm) := by
      apply mul_lt_mul_of_pos_left huv
      linarith
    have t2 : (b + 1) * (qi - qm) / a ≤ (b + 1) * (qi - qm) := by
      apply div_le_self _ (by linarith)
      exact mul_nonneg (by linarith) hv
    nlinarith
  have hT : (-1) / (a + b) * X = - (X / (a + b)) := by ring
  have hT1 : 0 < X / (a + b) := div_pos hX1 habpos
  have hT2 : X / (a + b) < qi - qm := by
    rw [div_lt_iff₀ habpos]
    exact hX2
  rw [hT]
  constructor <;> linarith

theorem linear_up_core (qi qp g : ℚ) (hg : 1 ≤ g) (h2 : qi ≤ qp) :
    qi ≤ qi + 1 * (qp - qi) / g ∧ qi + 1 * (qp - qi) / g ≤ qp := by
  have hu : 0 ≤ qp - qi := by linarith
  have hgpos : 0 < g := by linarith
  have h1 : 1 * (qp - qi) / g = (qp - qi) / g := by ring
  have hnn : 0 ≤ (qp - qi) / g := div_nonneg hu hgpos.le
  have hle : (qp - qi) / g ≤ qp - qi := div_le_self hu hg
  rw [h1]
  constructor <;> linarith


theorem u32_sub_of_le (a b : Nat) (h : b ≤ a) (ha : a < 4294967296) : u32_sub a b = a - b := by
  unfold u32_sub
  omega

theorem u32_sub_of_lt (a b : Nat) (h : a < b) (hb : b < 4294967296) :
    u32_sub a b = 4294967296 - (b - a) := by
  unfold u32_sub
  omega

theorem p2_adjust_spec (p2 : P2Quantile) (i : Nat) (hi : 1 ≤ i)
    (hq1 : p2.q (i - 1) ≤ p2.q i) (hq2 : p2.q i ≤ p2.q (i + 1))
    (hn1 : p2.n_actual (i - 1) < p2.n_actual i) (hn2 : p2.n_actual i < p2.n_actual (i + 1))
    (hb : p2.n_actual (i + 1) < 4294967296) :
    ∃ (q' : ℚ) (n' : Nat),
      p2_adjust p2 i =
        { p2 with q := Function.update p2.q i q', n_actual := Function.update p2.n_actual i n' } ∧
      p2.q (i - 1) ≤ q' ∧ q' ≤ p2.q (i + 1) ∧
      p2.n_actual (i - 1) < n' ∧ n' < p2.n_actual (i + 1) := by
  unfold p2_adjust
  simp only []
  by_cases hc : (p2.n_markers i - (p2.n_actual i : ℚ) ≥ 1 ∧
        u32_sub (p2.n_actual (i + 1)) (p2.n_actual i) > 1) ∨
      (p2.n_markers i - (p2.n_actual i : ℚ) ≤ -1 ∧
        u32_sub (p2.n_actual (i - 1)) (p2.n_actual i) < 4294967295)
  · rw [if_pos hc]
    by_cases hd : p2.n_markers i - (p2.n_actual i : ℚ) ≥ 0
    · have hs : (if p2.n_markers i - (p2.n_actual i : ℚ) ≥ 0 then (1 : Int) else -1) = 1 :=
        if_pos hd
      simp only [hs]
      have hgap : u32_sub (p2.n_actual (i + 1)) (p2.n_actual i) > 1 := by
        rcases hc with h | h
        · exact h.2
        · exact absurd h.1 (by linarith)
      have hsub := u32_sub_of_le (p2.n_actual (i + 1)) (p2.n_actual i) (le_of_lt hn2) hb
      have hidx : ((i : Int) + 1).toNat = i + 1 := by omega
      have hn' : u32_of_int ((p2.n_actual i : Int) + 1) = p2.n_actual i + 1 := by
        unfold u32_of_int
        omega
      have hg : (1 : ℚ) ≤ ((u32_sub (p2.n_actual (i + 1)) (p2.n_actual i) : Nat) : ℚ) := by
        exact_mod_cast le_of_lt hgap
      have hlin := linear_up_core (p2.q i) (p2.q (i + 1)) _ hg hq2
      refine ⟨_, _, rfl, ?_, ?_, ?_, ?_⟩
      · split_ifs with hpar
        · exact le_of_lt hpar.1
        · simp only [hidx, Int.cast_one]
          linarith [hlin.1]
      · split_ifs with hpar
        · exact le_of_lt hpar.2
        · simp only [hidx, Int.cast_one]
          exact hlin.2
      · rw [hn']; omega
      · rw [hn']; omega
    · have hs : (if p2.n_markers i - (p2.n_actual i : ℚ) ≥ 0 then (1 : Int) else -1) = -1 :=
        if_neg hd
      simp only [hs]
      have hgap : u32_sub (p2.n_actual (i - 1)) (p2.n_actual i) < 4294967295 := by
        rcases hc with h | h
        · exact absurd h.1 (by linarith)
        · exact h.2
      have hb1 : p2.n_actual i < 4294967296 := by omega
      have hsubG := u32_sub_of_lt (p2.n_actual (i - 1)) (p2.n_actual i) hn1 hb1
      have hgap2 : 1 < p2.n_actual i - p2.n_actual (i - 1) := by omega
      have hidx : ((i : Int) + -1).toNat = i - 1 := by omega
      have hn' : u32_of_int ((p2.n_actual i : Int) + -1) = p2.n_actual i - 1 := by
        unfold u32_of_int
        omega
      -- the unsigned quantities of the parabolic formula
      have e1 : ((u32_sub (p2.n_actual (i + 1)) (p2.n_actual (i - 1)) : Nat) : ℚ) =
          ((p2.n_actual i : ℚ) - (p2.n_actual (i - 1) : ℚ)) +
            ((p2.n_actual (i + 1) : ℚ) - (p2.n_actual i : ℚ)) := by
        have h0 : u32_sub (p2.n_actual (i + 1)) (p2.n_actual (i - 1)) + p2.n_actual (i - 1) =
            p2.n_actual (i + 1) := by
          rw [u32_sub_of_le _ _ (by omega) hb]; omega
        have := congrArg (Nat.cast : Nat → ℚ) h0
        push_cast at this
        linarith
      have e2 : ((u32_of_int ((p2.n_actual i : Int) - (p2.n_actual (i - 1) : Int) + -1) : Nat)
          : ℚ) = ((p2.n_actual i : ℚ) - (p2.n_actual (i - 1) : ℚ)) - 1 := by
        have h0 : u32_of_int ((p2.n_actual i : Int) - (p2.n_actual (i - 1) : Int) + -1) +
            p2.n_actual (i - 1) + 1 = p2.n_actual i := by
          unfold u32_of_int; omega
        have := congrArg (Nat.cast : Nat → ℚ) h0
        push_cast at this
        linarith
      have e3 : ((u32_sub (p2.n_actual (i + 1)) (p2.n_actual i) : Nat) : ℚ) =
          (p2.n_actual (i + 1) : ℚ) - (p2.n_actual i : ℚ) := by
        have h0 : u32_sub (p2.n_actual (i + 1)) (p2.n_actual i) + p2.n_actual i =
            p2.n_actual (i + 1) := by
          rw [u32_sub_of_le _ _ (by omega) hb]; omega
        have := congrArg (Nat.cast : Nat → ℚ) h0
        push_cast at this
        linarith
      have e4 : ((u32_of_int ((p2.n_actual (i + 1) : Int) - (p2.n_actual i : Int) - -1) : Nat)
          : ℚ) = ((p2.n_actual (i + 1) : ℚ) - (p2.n_actual i : ℚ)) + 1 := by
        have h0 : u32_of_int ((p2.n_actual (i + 1) : Int) - (p2.n_actual i : Int) - -1) +
            p2.n_actual i = p2.n_actual (i + 1) + 1 := by
          unfold u32_of_int; omega
        have := congrArg (Nat.cast : Nat → ℚ) h0
        push_cast at this
        linarith
      have e5 : ((u32_sub (p2.n_actual i) (p2.n_actual (i - 1)) : Nat) : ℚ) =
          (p2.n_actual i : ℚ) - (p2.n_actual (i - 1) : ℚ) := by
        have h0 : u32_sub (p2.n_actual i) (p2.n_actual (i - 1)) + p2.n_actual (i - 1) =
            p2.n_actual i := by
          rw [u32_sub_of_le _ _ (by omega) hb1]; omega
        have := congrArg (Nat.cast : Nat → ℚ) h0
        push_cast at this
        linarith
      have ha2 : (2 : ℚ) ≤ (p2.n_actual i : ℚ) - (p2.n_actual (i - 1) : ℚ) := by
        have h0 : p2.n_actual (i - 1) + 2 ≤ p2.n_actual i := by omega
        have : ((p2.n_actual (i - 1) + 2 : Nat) : ℚ) ≤ (p2.n_actual i : ℚ) := by
          exact_mod_cast h0
        push_cast at this
        linarith
      have hb2 : (1 : ℚ) ≤ (p2.n_actual (i + 1) : ℚ) - (p2.n_actual i : ℚ) := by
        have h0 : p2.n_actual i + 1 ≤ p2.n_actual (i + 1) := by omega
        have : ((p2.n_actual i + 1 : Nat) : ℚ) ≤ (p2.n_actual (i + 1) : ℚ) := by
          exact_mod_cast h0
        push_cast at this
        linarith
      have hG : (1 : ℚ) ≤ ((u32_sub (p2.n_actual (i - 1)) (p2.n_actual i) : Nat) : ℚ) := by
        have h0 : 1 ≤ u32_sub (p2.n_actual (i - 1)) (p2.n_actual i) := by
          rw [hsubG]; omega
        exact_mod_cast h0
      refine ⟨_, _, rfl, ?_, ?_, ?_, ?_⟩
      · split_ifs with hpar
        · exact le_of_lt hpar.1
        · simp only [hidx, Int.cast_neg, Int.cast_one, e1, e2, e3, e4, e5] at hpar ⊢
          exact (linear_down_core _ _ _ _ _ _ ha2 hb2 hG hq1 hq2 hpar).1
      · split_ifs with hpar
        · exact le_of_lt hpar.2
        · simp only [hidx, Int.cast_neg, Int.cast_one, e1, e2, e3, e4, e5] at hpar ⊢
          exact (linear_down_core _ _ _ _ _ _ ha2 hb2 hG hq1 hq2 hpar).2
      · rw [hn']; omega
      · rw [hn']; omega
  · rw [if_neg hc]
    exact ⟨p2.q i, p2.n_actual i, by simp, hq1, hq2, hn1, hn2⟩

theorem p2_find_cell_le (q : Nat → ℚ) (v : ℚ) : p2_find_cell q v ≤ 3 := by
  unfold p2_find_cell
  simp only [List.find?]
  generalize decide (v < q 1) = b1
  generalize decide (v < q 2) = b2
  generalize decide (v < q 3) = b3
  generalize decide (v < q 4) = b4
  cases b1 <;> cases b2 <;> cases b3 <;> cases b4 <;> simp

theorem p2_locate_inv (p2 : P2Quantile) (x : ℚ) (h : P2Inv p2) (hn : p2.n + 1 < 4294967296) :
    (p2_locate p2 x).initialized = true ∧ (p2_locate p2 x).init_count = 5 ∧
    (p2_locate p2 x).q 0 ≤ (p2_locate p2 x).q 1 ∧
    (p2_locate p2 x).q 1 ≤ (p2_locate p2 x).q 2 ∧
    (p2_locate p2 x).q 2 ≤ (p2_locate p2 x).q 3 ∧
    (p2_locate p2 x).q 3 ≤ (p2_locate p2 x).q 4 ∧
    (p2_locate p2 x).n_actual 0 < (p2_locate p2 x).n_actual 1 ∧
    (p2_locate p2 x).n_actual 1 < (p2_locate p2 x).n_actual 2 ∧
    (p2_locate p2 x).n_actual 2 < (p2_locate p2 x).n_actual 3 ∧
    (p2_locate p2 x).n_actual 3 < (p2_locate p2 x).n_actual 4 ∧
    (p2_locate p2 x).n_actual 0 = 1 ∧
    (p2_locate p2 x).n_actual 4 = p2.n + 1 ∧
    (p2_locate p2 x).n = p2.n + 1 ∧
    (p2_locate p2 x).p = p2.p := by
  obtain ⟨hI, hC, hq0, hq1, hq2, hq3, hn0, hn1, hn2, hn3, hn00, hn4⟩ := h
  have hu : u32 (p2.n + 1) = p2.n + 1 := by unfold u32; omega
  have hqpart : (p2_locate p2 x).q 0 ≤ (p2_locate p2 x).q 1 ∧
      (p2_locate p2 x).q 1 ≤ (p2_locate p2 x).q 2 ∧
      (p2_locate p2 x).q 2 ≤ (p2_locate p2 x).q 3 ∧
      (p2_locate p2 x).q 3 ≤ (p2_locate p2 x).q 4 := by
    simp only [p2_locate]
    by_cases h0 : x < p2.q 0
    · simp only [h0, if_true]
      simp [Function.update]
      exact ⟨by linarith, hq1, hq2, hq3⟩
    · by_cases h4 : x ≥ p2.q 4
      · simp only [h0, h4, if_true, if_false]
        simp [Function.update]
        exact ⟨hq0, hq1, hq2, by linarith⟩
      · simp only [h0, h4, if_false]
        exact ⟨hq0, hq1, hq2, hq3⟩
  have hk : ∃ k, k ≤ 3 ∧ (p2_locate p2 x).n_actual =
      fun i => if k + 1 ≤ i ∧ i < 5 then u32 (p2.n_actual i + 1) else p2.n_actual i := by
    simp only [p2_locate]
    by_cases h0 : x < p2.q 0
    · exact ⟨0, by norm_num, by simp only [h0, if_true]⟩
    · by_cases h4 : x ≥ p2.q 4
      · exact ⟨3, le_refl _, by simp only [h0, h4, if_true, if_false]⟩
      · exact ⟨p2_find_cell p2.q x, p2_find_cell_le _ _, by simp only [h0, h4, if_false]⟩
  obtain ⟨k, hk3, hkn⟩ := hk
  refine ⟨hI, hC, hqpart.1, hqpart.2.1, hqpart.2.2.1, hqpart.2.2.2, ?_, ?_, ?_, ?_, ?_, ?_,
    hu, rfl⟩ <;> rw [hkn] <;> simp only [u32] <;> interval_cases k <;> simp <;> omega

theorem p2_adjust_inv (p2 : P2Quantile) (i : Nat) (hi : i = 1 ∨ i = 2 ∨ i = 3)
    (h : P2Inv p2) (hn : p2.n < 4294967296) :
    P2Inv (p2_adjust p2 i) ∧ (p2_adjust p2 i).n = p2.n ∧ (p2_adjust p2 i).p = p2.p := by
  obtain ⟨hI, hC, hq0, hq1, hq2, hq3, hn0, hn1, hn2, hn3, hn00, hn4⟩ := h
  rcases hi with rfl | rfl | rfl
  · obtain ⟨q', n', heq, b1, b2, b3, b4⟩ :=
      p2_adjust_spec p2 1 (le_refl _) hq0 hq1 hn0 hn1
        (show p2.n_actual 2 < 4294967296 by omega)
    rw [heq]
    simp only [Nat.sub_self, Nat.reduceAdd] at b1 b2 b3 b4
    refine ⟨⟨hI, hC, ?_, ?_, ?_, ?_, ?_, ?_, ?_, ?_, ?_, ?_⟩, rfl, rfl⟩ <;>
      simp [Function.update] <;> assumption
  · obtain ⟨q', n', heq, b1, b2, b3, b4⟩ :=
      p2_adjust_spec p2 2 (by norm_num) hq1 hq2 hn1 hn2
        (show p2.n_actual 3 < 4294967296 by omega)
    rw [heq]
    simp only [Nat.add_one_sub_one, Nat.reduceAdd, Nat.reduceSub] at b1 b2 b3 b4
    refine ⟨⟨hI, hC, ?_, ?_, ?_, ?_, ?_, ?_, ?_, ?_, ?_, ?_⟩, rfl, rfl⟩ <;>
      simp [Function.update] <;> assumption
  · obtain ⟨q', n', heq, b1, b2, b3, b4⟩ :=
      p2_adjust_spec p2 3 (by norm_num) hq2 hq3 hn2 hn3
        (show p2.n_actual 4 < 4294967296 by omega)
    rw [heq]
    simp only [Nat.add_one_sub_one, Nat.reduceAdd, Nat.reduceSub] at b1 b2 b3 b4
    refine ⟨⟨hI, hC, ?_, ?_, ?_, ?_, ?_, ?_, ?_, ?_, ?_, ?_⟩, rfl, rfl⟩ <;>
      simp [Function.update] <;> assumption

theorem p2_update_inv (p2 : P2Quantile) (x : ℚ) (h : P2Inv p2) (hn : p2.n + 1 < 4294967296) :
    P2Inv (p2_update p2 x) ∧ (p2_update p2 x).n = p2.n + 1 ∧ (p2_update p2 x).p = p2.p := by
  have hC : ¬ p2.init_count < 5 := by rw [h.2.1]; decide
  have hL := p2_locate_inv p2 x h hn
  obtain ⟨l1, l2, l3, l4, l5, l6, l7, l8, l9, l10, l11, l12, l13, l14⟩ := hL
  have h0 : P2Inv (p2_locate p2 x) :=
    ⟨l1, l2, l3, l4, l5, l6, l7, l8, l9, l10, l11, by rw [l12, l13]⟩
  have a1 := p2_adjust_inv (p2_locate p2 x) 1 (Or.inl rfl) h0 (by rw [l13]; exact hn)
  have a2 := p2_adjust_inv _ 2 (Or.inr (Or.inl rfl)) a1.1 (by rw [a1.2.1, l13]; exact hn)
  have a3 := p2_adjust_inv _ 3 (Or.inr (Or.inr rfl)) a2.1
    (by rw [a2.2.1, a1.2.1, l13]; exact hn)
  have hstep : p2_update p2 x =
      p2_adjust (p2_adjust (p2_adjust (p2_locate p2 x) 1) 2) 3 := by
    simp [p2_update, hC]
  rw [hstep]
  exact ⟨a3.1, by rw [a3.2.1, a2.2.1, a1.2.1, l13], by rw [a3.2.2, a2.2.2, a1.2.2, l14]⟩

theorem p2_updates_inv :
    ∀ (xs : List ℚ) (p2 : P2Quantile), P2Inv p2 → p2.n + xs.length < 4294967296 →
      P2Inv (p2_updates p2 xs) ∧ (p2_updates p2 xs).n = p2.n + xs.length ∧
      (p2_updates p2 xs).p = p2.p := by
  intro xs
  induction xs with
  | nil => intro p2 h _; exact ⟨h, rfl, rfl⟩
  | cons x xs ih =>
    intro p2 h hl
    simp only [List.length_cons] at hl
    have hs := p2_update_inv p2 x h (by omega)
    have := ih (p2_update p2 x) hs.1 (by rw [hs.2.1]; omega)
    have hcons : p2_updates p2 (x :: xs) = p2_updates (p2_update p2 x) xs := rfl
    rw [hcons]
    refine ⟨this.1, ?_, by rw [this.2.2, hs.2.2]⟩
    rw [this.2.1, hs.2.1, List.length_cons]
    omega

theorem p2_updates_append (p2 : P2Quantile) (a b : List ℚ) :
    p2_updates p2 (a ++ b) = p2_updates (p2_updates p2 a) b := by
  simp [p2_updates, List.foldl_append]

theorem exists_five (xs : List ℚ) (h : 5 ≤ xs.length) :
    ∃ x1 x2 x3 x4 x5 rest, xs = x1 :: x2 :: x3 :: x4 :: x5 :: rest := by
  match xs, h with
  | x1 :: x2 :: x3 :: x4 :: x5 :: rest, _ => exact ⟨x1, x2, x3, x4, x5, rest, rfl⟩

theorem p2_five_inv (p2 : P2Quantile) (p x1 x2 x3 x4 x5 : ℚ) :
    P2Inv (p2_updates (p2_init p2 p) [x1, x2, x3, x4, x5]) := by
  obtain ⟨hq, hn, _, _, _, _, _, hN, hI, hC, _⟩ := p2_five_samples p2 p x1 x2 x3 x4 x5
  obtain ⟨hsorted, hperm⟩ := p2_sort_buffer_five x1 x2 x3 x4 x5
  have hlen : (p2_sort_buffer [x1, x2, x3, x4, x5] 5).length = 5 := by
    rw [hperm.length_eq]; rfl
  have hord : (p2_sort_buffer [x1, x2, x3, x4, x5] 5).getD 0 0 ≤
        (p2_sort_buffer [x1, x2, x3, x4, x5] 5).getD 1 0 ∧
      (p2_sort_buffer [x1, x2, x3, x4, x5] 5).getD 1 0 ≤
        (p2_sort_buffer [x1, x2, x3, x4, x5] 5).getD 2 0 ∧
      (p2_sort_buffer [x1, x2, x3, x4, x5] 5).getD 2 0 ≤
        (p2_sort_buffer [x1, x2, x3, x4, x5] 5).getD 3 0 ∧
      (p2_sort_buffer [x1, x2, x3, x4, x5] 5).getD 3 0 ≤
        (p2_sort_buffer [x1, x2, x3, x4, x5] 5).getD 4 0 := by
    match hl : p2_sort_buffer [x1, x2, x3, x4, x5] 5, hlen with
    | [a, b, c, d, e], _ =>
      rw [hl] at hsorted
      simp only [List.Sorted, List.pairwise_cons, List.mem_cons, forall_eq_or_imp] at hsorted
      simp only [List.getD_cons_zero, List.getD_cons_succ]
      exact ⟨hsorted.1.1, hsorted.2.1.1, hsorted.2.2.1.1, hsorted.2.2.2.1.1⟩
  refine ⟨hI, hC, ?_, ?_, ?_, ?_, ?_, ?_, ?_, ?_, ?_, ?_⟩
  · rw [hq 0 (by norm_num), hq 1 (by norm_num)]; exact hord.1
  · rw [hq 1 (by norm_num), hq 2 (by norm_num)]; exact hord.2.1
  · rw [hq 2 (by norm_num), hq 3 (by norm_num)]; exact hord.2.2.1
  · rw [hq 3 (by norm_num), hq 4 (by norm_num)]; exact hord.2.2.2
  · rw [hn 0 (by norm_num), hn 1 (by norm_num)]; norm_num
  · rw [hn 1 (by norm_num), hn 2 (by norm_num)]; norm_num
  · rw [hn 2 (by norm_num), hn 3 (by norm_num)]; norm_num
  · rw [hn 3 (by norm_num), hn 4 (by norm_num)]; norm_num
  · rw [hn 0 (by norm_num)]
  · rw [hn 4 (by norm_num), hN]

theorem p2_reachable_inv (p2 : P2Quantile) (p : ℚ) (xs : List ℚ)
    (h5 : 5 ≤ xs.length) (hlen : xs.length < 4294967296) :
    P2Inv (p2_updates (p2_init p2 p) xs) ∧
      (p2_updates (p2_init p2 p) xs).n = xs.length := by
  obtain ⟨x1, x2, x3, x4, x5, rest, rfl⟩ := exists_five xs h5
  have hlist : x1 :: x2 :: x3 :: x4 :: x5 :: rest = [x1, x2, x3, x4, x5] ++ rest := rfl
  have hsplit : p2_updates (p2_init p2 p) (x1 :: x2 :: x3 :: x4 :: x5 :: rest) =
      p2_updates (p2_updates (p2_init p2 p) [x1, x2, x3, x4, x5]) rest := by
    rw [hlist, p2_updates_append]
  have h0 := p2_five_inv p2 p x1 x2 x3 x4 x5
  have hN : (p2_updates (p2_init p2 p) [x1, x2, x3, x4, x5]).n = 5 :=
    (p2_five_samples p2 p x1 x2 x3 x4 x5).2.2.2.2.2.2.2.1
  simp only [List.length_cons] at hlen
  have hrest : (p2_updates (p2_init p2 p) [x1, x2, x3, x4, x5]).n + rest.length <
      4294967296 := by
    rw [hN]; omega
  have hfin := p2_updates_inv rest (p2_updates (p2_init p2 p) [x1, x2, x3, x4, x5]) h0 hrest
  rw [hsplit]
  refine ⟨hfin.1, ?_⟩
  rw [hfin.2.1, hN]
  simp only [List.length_cons]
  omega

/-- C20 (marker heights stay ordered): for every p (in particular p in (0,1)),
every prior struct contents and every sample sequence of length at least 5 (and
below 2^32, the range of the sample counter) fed to p2_update after p2_init, the
marker heights satisfy q[0] ≤ q[1] ≤ q[2] ≤ q[3] ≤ q[4].  Every prefix of length
at least 5 is such a sequence, so this holds after every update from the 5th
on. -/
theorem C20_marker_heights_ordered (p2 : P2Quantile) (p : ℚ) (xs : List ℚ)
    (h5 : 5 ≤ xs.length) (hlen : xs.length < 2 ^ 32) :
    (p2_updates (p2_init p2 p) xs).q 0 ≤ (p2_updates (p2_init p2 p) xs).q 1 ∧
    (p2_updates (p2_init p2 p) xs).q 1 ≤ (p2_updates (p2_init p2 p) xs).q 2 ∧
    (p2_updates (p2_init p2 p) xs).q 2 ≤ (p2_updates (p2_init p2 p) xs).q 3 ∧
    (p2_updates (p2_init p2 p) xs).q 3 ≤ (p2_updates (p2_init p2 p) xs).q 4 := by
  have h := (p2_reachable_inv p2 p xs h5 (by norm_num at hlen ⊢; exact hlen)).1
  exact ⟨h.2.2.1, h.2.2.2.1, h.2.2.2.2.1, h.2.2.2.2.2.1⟩

theorem C20_marker_heights_ordered_witness :
    5 ≤ [(3 : ℚ), 1, 2, 5, 4, 6, 0, 7, 2, 2, 9, 1].length ∧
    [(3 : ℚ), 1, 2, 5, 4, 6, 0, 7, 2, 2, 9, 1].length < 2 ^ 32 ∧
    (p2_updates (p2_init p2_zero (99 / 100)) [3, 1, 2, 5, 4, 6, 0, 7, 2, 2, 9, 1]).q 0 ≤
      (p2_updates (p2_init p2_zero (99 / 100)) [3, 1, 2, 5, 4, 6, 0, 7, 2, 2, 9, 1]).q 1 :=
  ⟨by decide, by norm_num,
    (C20_marker_heights_ordered p2_zero (99 / 100) [3, 1, 2, 5, 4, 6, 0, 7, 2, 2, 9, 1]
      (by decide) (by norm_num)).1⟩

/-! ## Main loops: which predictions reach bias_update -/

theorem update_panel_history_self (d : Deployment) (i : Fin NUM_PANELS) (P V : ℚ) :
    ∀ d2 : Deployment, d2.panel_buffers i = d.panel_buffers i →
      d2.sample_counts i = d.sample_counts i →
      (update_panel_history d2 i P V).panel_buffers i =
        (update_panel_history d i P V).panel_buffers i := by
  intro d2 h1 h2
  simp only [update_panel_history, h1, h2]
  split <;> simp

theorem update_panel_history_protection (d : Deployment) (i : Fin NUM_PANELS) (P V : ℚ) :
    (update_panel_history d i P V).protection = d.protection := by
  simp only [update_panel_history]
  split <;> rfl

theorem update_panel_history_corrector (d : Deployment) (i : Fin NUM_PANELS) (P V : ℚ) :
    ((update_panel_history d i P V).panel_buffers i).bias_corrector =
      (d.panel_buffers i).bias_corrector := by
  simp only [update_panel_history]
  split
  · simp only [Function.update_same]
    split <;> rfl
  · simp

theorem build_power_features_local (d d2 : Deployment) (i : Fin NUM_PANELS) (f : Nat → ℚ)
    (h : d2.panel_buffers i = d.panel_buffers i) :
    build_power_features d2 i f = build_power_features d i f := by
  simp only [build_power_features, h]

theorem build_voltage_features_local (d d2 : Deployment) (i : Fin NUM_PANELS) (f : Nat → ℚ)
    (h : d2.panel_buffers i = d.panel_buffers i) :
    build_voltage_features d2 i f = build_voltage_features d i f := by
  simp only [build_voltage_features, h]

theorem build_features_ready (d : Deployment) (i : Fin NUM_PANELS) (f : Nat → ℚ)
    (h : (d.panel_buffers i).initialized = true) :
    (build_power_features d i f).1 = true ∧ (build_voltage_features d i f).1 = true := by
  simp [build_power_features, build_voltage_features, h]

theorem main_loop_body_ready (score score_voltage : (Nat → ℚ) → ℚ)
    (env : Fin NUM_PANELS → LoopInput) (d : Deployment) (i : Fin NUM_PANELS)
    (hready : ((update_panel_history d i ((env i).V_measured * (env i).I_measured)
      (env i).V_measured).panel_buffers i).initialized = true) :
    ((main_loop_body score score_voltage env d i).panel_buffers i).bias_corrector =
      bias_update (d.panel_buffers i).bias_corrector
        ((env i).V_measured * (env i).I_measured)
        (predict_power score i (build_power_features (update_panel_history d i
          ((env i).V_measured * (env i).I_measured) (env i).V_measured) i (fun _ => 0)).2)
        (env i).V_measured
        (predict_voltage score_voltage i (build_voltage_features (update_panel_history d i
          ((env i).V_measured * (env i).I_measured) (env i).V_measured) i (fun _ => 0)).2) ∧
    (main_loop_body score score_voltage env d i).protection =
      eps_protection_update d.protection i.val
        { P_measured := (env i).V_measured * (env i).I_measured
          V_measured := (env i).V_measured
          P_predicted := (bias_correct (d.panel_buffers i).bias_corrector
            (predict_power score i (build_power_features (update_panel_history d i
              ((env i).V_measured * (env i).I_measured) (env i).V_measured) i (fun _ => 0)).2)
            (predict_voltage score_voltage i (build_voltage_features (update_panel_history d i
              ((env i).V_measured * (env i).I_measured) (env i).V_measured) i
                (fun _ => 0)).2)).2.1
          V_predicted := (bias_correct (d.panel_buffers i).bias_corrector
            (predict_power score i (build_power_features (update_panel_history d i
              ((env i).V_measured * (env i).I_measured) (env i).V_measured) i (fun _ => 0)).2)
            (predict_voltage score_voltage i (build_voltage_features (update_panel_history d i
              ((env i).V_measured * (env i).I_measured) (env i).V_measured) i
                (fun _ => 0)).2)).2.2
          tick := (env i).tick
          mosfet_open := (env i).mosfet_open } := by
  have hb := build_features_ready _ i (fun _ => 0) hready
  have hc := update_panel_history_corrector d i ((env i).V_measured * (env i).I_measured)
    (env i).V_measured
  have hp := update_panel_history_protection d i ((env i).V_measured * (env i).I_measured)
    (env i).V_measured
  have hcorr : ∀ (bc : BiasCorrector) (a b : ℚ), (bias_correct bc a b).1 = bc := by
    intro bc a b
    unfold bias_correct
    split <;> rfl
  simp only [main_loop_body, hready, hb.1, hb.2, Bool.not_true, Bool.false_eq_true, if_false,
    Function.update_same, hc, hp, hcorr]
  exact ⟨trivial, trivial⟩

theorem update_panel_history_other (d : Deployment) (i j : Fin NUM_PANELS) (P V : ℚ)
    (hne : i ≠ j) :
    (update_panel_history d j P V).panel_buffers i = d.panel_buffers i ∧
    (update_panel_history d j P V).sample_counts i = d.sample_counts i := by
  simp only [update_panel_history]
  split <;> simp [Function.update_noteq hne]

theorem main_loop_body_other (score score_voltage : (Nat → ℚ) → ℚ)
    (env : Fin NUM_PANELS → LoopInput) (d : Deployment) (i j : Fin NUM_PANELS) (hne : i ≠ j) :
    (main_loop_body score score_voltage env d j).panel_buffers i = d.panel_buffers i ∧
    (main_loop_body score score_voltage env d j).sample_counts i = d.sample_counts i := by
  have h := update_panel_history_other d i j
    ((env j).V_measured * (env j).I_measured) (env j).V_measured hne
  simp only [main_loop_body]
  split
  · exact h
  · split
    · exact h
    · split
      · exact h
      · simp only [Function.update_noteq hne]
        exact h

theorem main_loop_fold_other (score score_voltage : (Nat → ℚ) → ℚ)
    (env : Fin NUM_PANELS → LoopInput) (i : Fin NUM_PANELS) :
    ∀ (l : List (Fin NUM_PANELS)) (d : Deployment), i ∉ l →
      (l.foldl (main_loop_body score score_voltage env) d).panel_buffers i =
        d.panel_buffers i ∧
      (l.foldl (main_loop_body score score_voltage env) d).sample_counts i =
        d.sample_counts i := by
  intro l
  induction l with
  | nil => intro d _; exact ⟨rfl, rfl⟩
  | cons j l ih =>
    intro d hni
    have hne : i ≠ j := fun h => hni (by rw [h]; exact List.mem_cons_self j l)
    have hnl : i ∉ l := fun h => hni (List.mem_cons_of_mem j h)
    have h1 := main_loop_body_other score score_voltage env d i j hne
    have h2 := ih (main_loop_body score score_voltage env d j) hnl
    simp only [List.foldl_cons]
    exact ⟨h2.1.trans h1.1, h2.2.trans h1.2⟩

theorem main_loop_iteration_panel (score score_voltage : (Nat → ℚ) → ℚ)
    (env : Fin NUM_PANELS → LoopInput) (d : Deployment) (i : Fin NUM_PANELS) :
    ∃ d2 : Deployment, d2.panel_buffers i = d.panel_buffers i ∧
      d2.sample_counts i = d.sample_counts i ∧
      (eps_main_loop_iteration score score_voltage env d).panel_buffers i =
        (main_loop_body score score_voltage env d2 i).panel_buffers i := by
  obtain ⟨s, t, hst⟩ := List.append_of_mem (List.mem_finRange i)
  have hnd := List.nodup_finRange NUM_PANELS
  rw [hst] at hnd
  have hs : i ∉ s := fun h =>
    (List.nodup_append.mp hnd).2.2 h (List.mem_cons_self i t)
  have ht : i ∉ t := (List.nodup_cons.mp (List.nodup_append.mp hnd).2.1).1
  have h1 := main_loop_fold_other score score_voltage env i s d hs
  refine ⟨s.foldl (main_loop_body score score_voltage env) d, h1.1, h1.2, ?_⟩
  unfold eps_main_loop_iteration
  rw [hst, List.foldl_append, List.foldl_cons]
  exact (main_loop_fold_other score score_voltage env i t _ ht).1

/-- C17 (raw predictions reach bias_update in the deployment loop): for every
panel whose feature buffer is ready after the push of this pass, and for every
corrector state (before or past warmup), the corrector after
eps_main_loop_iteration equals bias_update applied to the corrector before, the
measurements, and the raw outputs predict_power(features),
predict_voltage(features); and the loop body hands the protection FSM the
predictions returned by bias_correct. -/
theorem C17_deployment_updates_with_raw_predictions (score score_voltage : (Nat → ℚ) → ℚ)
    (env : Fin NUM_PANELS → LoopInput) (d : Deployment) (i : Fin NUM_PANELS)
    (hready : ((update_panel_history d i ((env i).V_measured * (env i).I_measured)
      (env i).V_measured).panel_buffers i).initialized = true) :
    ((eps_main_loop_iteration score score_voltage env d).panel_buffers i).bias_corrector =
      bias_update (d.panel_buffers i).bias_corrector
        ((env i).V_measured * (env i).I_measured)
        (predict_power score i (build_power_features (update_panel_history d i
          ((env i).V_measured * (env i).I_measured) (env i).V_measured) i (fun _ => 0)).2)
        (env i).V_measured
        (predict_voltage score_voltage i (build_voltage_features (update_panel_history d i
          ((env i).V_measured * (env i).I_measured) (env i).V_measured) i (fun _ => 0)).2) ∧
    (main_loop_body score score_voltage env d i).protection =
      eps_protection_update d.protection i.val
        { P_measured := (env i).V_measured * (env i).I_measured
          V_measured := (env i).V_measured
          P_predicted := (bias_correct (d.panel_buffers i).bias_corrector
            (predict_power score i (build_power_features (update_panel_history d i
              ((env i).V_measured * (env i).I_measured) (env i).V_measured) i (fun _ => 0)).2)
            (predict_voltage score_voltage i (build_voltage_features (update_panel_history d i
              ((env i).V_measured * (env i).I_measured) (env i).V_measured) i
                (fun _ => 0)).2)).2.1
          V_predicted := (bias_correct (d.panel_buffers i).bias_corrector
            (predict_power score i (build_power_features (update_panel_history d i
              ((env i).V_measured * (env i).I_measured) (env i).V_measured) i (fun _ => 0)).2)
            (predict_voltage score_voltage i (build_voltage_features (update_panel_history d i
              ((env i).V_measured * (env i).I_measured) (env i).V_measured) i
                (fun _ => 0)).2)).2.2
          tick := (env i).tick
          mosfet_open := (env i).mosfet_open } := by
  refine ⟨?_, (main_loop_body_ready score score_voltage env d i hready).2⟩
  obtain ⟨d2, hb, hc, hloop⟩ := main_loop_iteration_panel score score_voltage env d i
  have hh := update_panel_history_self d i ((env i).V_measured * (env i).I_measured)
    (env i).V_measured d2 hb hc
  have hready2 : ((update_panel_history d2 i ((env i).V_measured * (env i).I_measured)
      (env i).V_measured).panel_buffers i).initialized = true := by
    rw [hh]; exact hready
  rw [hloop, (main_loop_body_ready score score_voltage env d2 i hready2).1, hb,
    build_power_features_local _ _ i _ hh, build_voltage_features_local _ _ i _ hh]

theorem C17_deployment_updates_with_raw_predictions_witness :
    ((update_panel_history (deployment_after 11) 3
      ((steady_input 55000 3).V_measured * (steady_input 55000 3).I_measured)
      (steady_input 55000 3).V_measured).panel_buffers 3).initialized = true ∧
    ((eps_main_loop_iteration nominal_power_model nominal_voltage_model (steady_input 55000)
      (deployment_after 11)).panel_buffers 3).bias_corrector =
      bias_update ((deployment_after 11).panel_buffers 3).bias_corrector
        ((steady_input 55000 3).V_measured * (steady_input 55000 3).I_measured)
        (predict_power nominal_power_model 3 (build_power_features
          (update_panel_history (deployment_after 11) 3
            ((steady_input 55000 3).V_measured * (steady_input 55000 3).I_measured)
            (steady_input 55000 3).V_measured) 3 (fun _ => 0)).2)
        (steady_input 55000 3).V_measured
        (predict_voltage nominal_voltage_model 3 (build_voltage_features
          (update_panel_history (deployment_after 11) 3
            ((steady_input 55000 3).V_measured * (steady_input 55000 3).I_measured)
            (steady_input 55000 3).V_measured) 3 (fun _ => 0)).2) :=
  ⟨by decide!,
    (C17_deployment_updates_with_raw_predictions nominal_power_model nominal_voltage_model
      (steady_input 55000) (deployment_after 11) 3 (by decide!)).1⟩

theorem eps_fdir_step_corrector (pp pv : (Nat → ℚ) → ℚ) (st : FdirState) (P V : ℚ)
    (hready : st.bias_corrector.n_samples ≥ st.bias_corrector.warmup) :
    (eps_fdir_step pp pv st P V).bias_corrector =
      bias_update st.bias_corrector P
        (pp (eps_extract_power_features (eps_update_buffers st.buffers P V) (fun _ => 0)) +
          st.bias_corrector.bias_power)
        V
        (pv (eps_extract_voltage_features (eps_update_buffers st.buffers P V) (fun _ => 0)) +
          st.bias_corrector.bias_voltage) := by
  simp [eps_fdir_step, bias_is_ready, bias_correct, hready]

/-- C18 (raw predictions for bias_update in eps_fdir_step): the code hands
bias_update the corrected predictions.  After eps_fdir_init and 50 steps with
readings 9.4 W, 17.5 V and predictors returning 8.4 W, 17.5 V the corrector is
ready with bias_power = 1; in the next step bias_update receives 8.4 + 1 as the
power prediction, so the new bias_power is 0.99, whereas bias_update with the raw
prediction 8.4 gives 1. -/
theorem C18_fdir_step_updates_with_corrected_prediction :
    bias_is_ready fdir_after_warmup.bias_corrector = true ∧
    fdir_after_warmup.bias_corrector.bias_power = 1 ∧
    (eps_fdir_step nominal_power_model nominal_voltage_model fdir_after_warmup
      (94 / 10) (35 / 2)).bias_corrector =
      bias_update fdir_after_warmup.bias_corrector (94 / 10) (84 / 10 + 1) (35 / 2) (35 / 2) ∧
    (eps_fdir_step nominal_power_model nominal_voltage_model fdir_after_warmup
      (94 / 10) (35 / 2)).bias_corrector.bias_power = 99 / 100 ∧
    (bias_update fdir_after_warmup.bias_corrector (94 / 10)
      (nominal_power_model (eps_extract_power_features
        (eps_update_buffers fdir_after_warmup.buffers (94 / 10) (35 / 2)) (fun _ => 0)))
      (35 / 2)
      (nominal_voltage_model (eps_extract_voltage_features
        (eps_update_buffers fdir_after_warmup.buffers (94 / 10) (35 / 2)) (fun _ => 0)))
      ).bias_power = 1 ∧
    (eps_fdir_step nominal_power_model nominal_voltage_model fdir_after_warmup
      (94 / 10) (35 / 2)).bias_corrector ≠
      bias_update fdir_after_warmup.bias_corrector (94 / 10)
        (nominal_power_model (eps_extract_power_features
          (eps_update_buffers fdir_after_warmup.buffers (94 / 10) (35 / 2)) (fun _ => 0)))
        (35 / 2)
        (nominal_voltage_model (eps_extract_voltage_features
          (eps_update_buffers fdir_after_warmup.buffers (94 / 10) (35 / 2)) (fun _ => 0))) := by
  decide!

/-! ## P² estimator: marker positions and extreme markers -/

theorem p2_adjust_frame (p2 : P2Quantile) (i : Nat) :
    (p2_adjust p2 i).init_count = p2.init_count ∧
    ∀ j, j ≠ i → (p2_adjust p2 i).q j = p2.q j := by
  unfold p2_adjust
  dsimp only
  split_ifs <;> refine ⟨rfl, fun j hj => ?_⟩ <;> simp [Function.update_noteq hj]

theorem p2_update_extremes (p2 : P2Quantile) (x : ℚ) (hc : p2.init_count = 5)
    (h04 : p2.q 0 ≤ p2.q 4) :
    (p2_update p2 x).init_count = 5 ∧
    (p2_update p2 x).q 0 = min (p2.q 0) x ∧
    (p2_update p2 x).q 4 = max (p2.q 4) x := by
  have hupd : p2_update p2 x =
      p2_adjust (p2_adjust (p2_adjust (p2_locate p2 x) 1) 2) 3 := by
    simp [p2_update, hc]
  rw [hupd]
  have h3 := p2_adjust_frame (p2_adjust (p2_adjust (p2_locate p2 x) 1) 2) 3
  have h2 := p2_adjust_frame (p2_adjust (p2_locate p2 x) 1) 2
  have h1 := p2_adjust_frame (p2_locate p2 x) 1
  rw [h3.1, h2.1, h1.1, h3.2 0 (by norm_num), h2.2 0 (by norm_num), h1.2 0 (by norm_num),
    h3.2 4 (by norm_num), h2.2 4 (by norm_num), h1.2 4 (by norm_num)]
  refine ⟨hc, ?_, ?_⟩
  · unfold p2_locate
    by_cases hlt : x < p2.q 0
    · simp [hlt, min_eq_right hlt.le]
    · have hle : p2.q 0 ≤ x := not_lt.mp hlt
      by_cases hge : x ≥ p2.q 4
      · simp [hlt, hge, min_eq_left hle]
      · simp [hlt, hge, min_eq_left hle]
  · unfold p2_locate
    by_cases hlt : x < p2.q 0
    · simp [hlt, max_eq_left (hlt.le.trans h04)]
    · by_cases hge : x ≥ p2.q 4
      · simp [hlt, hge, max_eq_right hge]
      · simp [hlt, hge, max_eq_left (not_le.mp hge).le]

theorem p2_updates_extremes :
    ∀ (rest seen : List ℚ) (p2 : P2Quantile), p2.init_count = 5 →
      (p2.q 0 ∈ seen ∧ ∀ x ∈ seen, p2.q 0 ≤ x) →
      (p2.q 4 ∈ seen ∧ ∀ x ∈ seen, x ≤ p2.q 4) →
      (p2_updates p2 rest).init_count = 5 ∧
      ((p2_updates p2 rest).q 0 ∈ seen ++ rest ∧
        ∀ x ∈ seen ++ rest, (p2_updates p2 rest).q 0 ≤ x) ∧
      ((p2_updates p2 rest).q 4 ∈ seen ++ rest ∧
        ∀ x ∈ seen ++ rest, x ≤ (p2_updates p2 rest).q 4) := by
  intro rest
  induction rest with
  | nil =>
    intro seen p2 hc h0 h4
    simpa [p2_updates] using ⟨hc, h0, h4⟩
  | cons y rest ih =>
    intro seen p2 hc h0 h4
    have h04 : p2.q 0 ≤ p2.q 4 := h4.2 _ h0.1
    obtain ⟨hc1, hq0, hq4⟩ := p2_update_extremes p2 y hc h04
    have hcons : p2_updates p2 (y :: rest) = p2_updates (p2_update p2 y) rest := rfl
    have hlist : seen ++ y :: rest = (seen ++ [y]) ++ rest := by simp
    rw [hcons, hlist]
    apply ih (seen ++ [y]) (p2_update p2 y) hc1
    · rw [hq0]
      constructor
      · rcases min_choice (p2.q 0) y with h | h
        · rw [h]; exact List.mem_append_left _ h0.1
        · rw [h]; simp
      · intro x hx
        rcases List.mem_append.mp hx with hx | hx
        · exact (min_le_left _ _).trans (h0.2 x hx)
        · simp only [List.mem_singleton] at hx
          rw [hx]; exact min_le_right _ _
    · rw [hq4]
      constructor
      · rcases max_choice (p2.q 4) y with h | h
        · rw [h]; exact List.mem_append_left _ h4.1
        · rw [h]; simp
      · intro x hx
        rcases List.mem_append.mp hx with hx | hx
        · exact (h4.2 x hx).trans (le_max_left _ _)
        · simp only [List.mem_singleton] at hx
          rw [hx]; exact le_max_right _ _

theorem p2_five_extremes (p2 : P2Quantile) (p x1 x2 x3 x4 x5 : ℚ) :
    ((p2_updates (p2_init p2 p) [x1, x2, x3, x4, x5]).q 0 ∈ [x1, x2, x3, x4, x5] ∧
      ∀ x ∈ [x1, x2, x3, x4, x5], (p2_updates (p2_init p2 p) [x1, x2, x3, x4, x5]).q 0 ≤ x) ∧
    ((p2_updates (p2_init p2 p) [x1, x2, x3, x4, x5]).q 4 ∈ [x1, x2, x3, x4, x5] ∧
      ∀ x ∈ [x1, x2, x3, x4, x5], x ≤ (p2_updates (p2_init p2 p) [x1, x2, x3, x4, x5]).q 4) := by
  obtain ⟨hq, _⟩ := p2_five_samples p2 p x1 x2 x3 x4 x5
  obtain ⟨hsorted, hperm⟩ := p2_sort_buffer_five x1 x2 x3 x4 x5
  have hlen : (p2_sort_buffer [x1, x2, x3, x4, x5] 5).length = 5 := by
    rw [hperm.length_eq]; rfl
  rw [hq 0 (by norm_num), hq 4 (by norm_num)]
  match hl : p2_sort_buffer [x1, x2, x3, x4, x5] 5, hlen with
  | [a, b, c, d, e], _ =>
    rw [hl] at hsorted hperm
    simp only [List.Sorted, List.pairwise_cons, List.mem_cons, forall_eq_or_imp] at hsorted
    simp only [List.getD_cons_zero, List.getD_cons_succ]
    obtain ⟨⟨hab, hac, had, hae, _⟩, ⟨hbc, hbd, hbe, _⟩, ⟨hcd, hce, _⟩, ⟨hde, _⟩, _⟩ := hsorted
    refine ⟨⟨hperm.mem_iff.mp (by simp), ?_⟩, ⟨hperm.mem_iff.mp (by simp), ?_⟩⟩
    · intro x hx
      have := hperm.mem_iff.mpr hx
      simp only [List.mem_cons, List.mem_singleton, List.not_mem_nil, or_false] at this
      rcases this with h | h | h | h | h <;> rw [h] <;> first | exact le_refl _ | assumption
    · intro x hx
      have := hperm.mem_iff.mpr hx
      simp only [List.mem_cons, List.mem_singleton, List.not_mem_nil, or_false] at this
      rcases this with h | h | h | h | h <;> rw [h] <;> first | exact le_refl _ | assumption

/-- C21 (marker positions): for every prior struct contents, every p and every
sample sequence of length m with 5 ≤ m < 2^32 fed to p2_update after p2_init,
the actual marker positions are strictly increasing, n_actual[0] = 1, and
n_actual[4] = n = m, the number of samples seen.  Every prefix of length at
least 5 is such a sequence, so this holds after every update from the 5th on. -/
theorem C21_marker_positions_increasing (p2 : P2Quantile) (p : ℚ) (xs : List ℚ)
    (h5 : 5 ≤ xs.length) (hlen : xs.length < 2 ^ 32) :
    (p2_updates (p2_init p2 p) xs).n_actual 0 < (p2_updates (p2_init p2 p) xs).n_actual 1 ∧
    (p2_updates (p2_init p2 p) xs).n_actual 1 < (p2_updates (p2_init p2 p) xs).n_actual 2 ∧
    (p2_updates (p2_init p2 p) xs).n_actual 2 < (p2_updates (p2_init p2 p) xs).n_actual 3 ∧
    (p2_updates (p2_init p2 p) xs).n_actual 3 < (p2_updates (p2_init p2 p) xs).n_actual 4 ∧
    (p2_updates (p2_init p2 p) xs).n_actual 0 = 1 ∧
    (p2_updates (p2_init p2 p) xs).n_actual 4 = (p2_updates (p2_init p2 p) xs).n ∧
    (p2_updates (p2_init p2 p) xs).n = xs.length := by
  have h := p2_reachable_inv p2 p xs h5 (by norm_num at hlen ⊢; exact hlen)
  obtain ⟨⟨_, _, _, _, _, _, a, b, c, d, e, f⟩, g⟩ := h
  exact ⟨a, b, c, d, e, f, g⟩

theorem C21_marker_positions_increasing_witness :
    5 ≤ [(3 : ℚ), 1, 2, 5, 4, 6, 0, 7, 2, 2, 9, 1].length ∧
    [(3 : ℚ), 1, 2, 5, 4, 6, 0, 7, 2, 2, 9, 1].length < 2 ^ 32 ∧
    (p2_updates (p2_init p2_zero (99 / 100)) [3, 1, 2, 5, 4, 6, 0, 7, 2, 2, 9, 1]).n_actual 4 =
      (p2_updates (p2_init p2_zero (99 / 100)) [3, 1, 2, 5, 4, 6, 0, 7, 2, 2, 9, 1]).n ∧
    (p2_updates (p2_init p2_zero (99 / 100)) [3, 1, 2, 5, 4, 6, 0, 7, 2, 2, 9, 1]).n = 12 :=
  ⟨by decide, by norm_num,
    (C21_marker_positions_increasing p2_zero (99 / 100) [3, 1, 2, 5, 4, 6, 0, 7, 2, 2, 9, 1]
      (by decide) (by norm_num)).2.2.2.2.2.1,
    (C21_marker_positions_increasing p2_zero (99 / 100) [3, 1, 2, 5, 4, 6, 0, 7, 2, 2, 9, 1]
      (by decide) (by norm_num)).2.2.2.2.2.2⟩

/-- C22 (extreme markers): for every prior struct contents, every p and every
sample sequence of length at least 5 fed to p2_update after p2_init, q[0] is the
minimum of the samples seen (it is one of them and no sample is below it) and
q[4] is the maximum (it is one of them and no sample is above it).  Every prefix
of length at least 5 is such a sequence, so this holds after every update from
the 5th on. -/
theorem C22_extreme_markers_are_min_and_max (p2 : P2Quantile) (p : ℚ) (xs : List ℚ)
    (h5 : 5 ≤ xs.length) :
    ((p2_updates (p2_init p2 p) xs).q 0 ∈ xs ∧
      ∀ x ∈ xs, (p2_updates (p2_init p2 p) xs).q 0 ≤ x) ∧
    ((p2_updates (p2_init p2 p) xs).q 4 ∈ xs ∧
      ∀ x ∈ xs, x ≤ (p2_updates (p2_init p2 p) xs).q 4) := by
  obtain ⟨x1, x2, x3, x4, x5, rest, rfl⟩ := exists_five xs h5
  have hlist : x1 :: x2 :: x3 :: x4 :: x5 :: rest = [x1, x2, x3, x4, x5] ++ rest := rfl
  rw [hlist, p2_updates_append]
  have hC : (p2_updates (p2_init p2 p) [x1, x2, x3, x4, x5]).init_count = 5 :=
    (p2_five_samples p2 p x1 x2 x3 x4 x5).2.2.2.2.2.2.2.2.2.1
  obtain ⟨h0, h4⟩ := p2_five_extremes p2 p x1 x2 x3 x4 x5
  exact (p2_updates_extremes rest [x1, x2, x3, x4, x5]
    (p2_updates (p2_init p2 p) [x1, x2, x3, x4, x5]) hC h0 h4).2

theorem C22_extreme_markers_are_min_and_max_witness :
    5 ≤ [(3 : ℚ), 1, 2, 5, 4, 6, 0, 7, 2, 2, 9, 1].length ∧
    (p2_updates (p2_init p2_zero (99 / 100)) [3, 1, 2, 5, 4, 6, 0, 7, 2, 2, 9, 1]).q 0 = 0 ∧
    (p2_updates (p2_init p2_zero (99 / 100)) [3, 1, 2, 5, 4, 6, 0, 7, 2, 2, 9, 1]).q 4 = 9 ∧
    (∀ x ∈ [(3 : ℚ), 1, 2, 5, 4, 6, 0, 7, 2, 2, 9, 1],
      (p2_updates (p2_init p2_zero (99 / 100)) [3, 1, 2, 5, 4, 6, 0, 7, 2, 2, 9, 1]).q 0 ≤ x) :=
  ⟨by decide, by decide!, by decide!,
    (C22_extreme_markers_are_min_and_max p2_zero (99 / 100)
      [3, 1, 2, 5, 4, 6, 0, 7, 2, 2, 9, 1] (by decide)).1.2⟩

/-! ## Ring buffer of eps_features.c -/

theorem get_lag_eq (buffer : Nat → ℚ) (c l : Nat) (hc : c < 13) (hl : l ≤ 13) :
    get_lag buffer c l = buffer ((c + 13 - l) % 13) := by
  unfold get_lag
  dsimp only
  rw [Int.tmod_eq_emod (by simp only [RING_BUFFER_SIZE]; omega)
    (by simp only [RING_BUFFER_SIZE]; omega)]
  congr 1
  simp only [RING_BUFFER_SIZE]
  omega

theorem eps_pushes_snoc (b : EPS_FeatureBuffers) (l : List (ℚ × ℚ)) (x : ℚ × ℚ) :
    eps_pushes b (l ++ [x]) = eps_update_buffers (eps_pushes b l) x.1 x.2 := by
  simp [eps_pushes, List.foldl_append]

theorem eps_pushes_lags (b0 : EPS_FeatureBuffers) (xs : List (ℚ × ℚ)) :
    (eps_pushes (eps_init_buffers b0) xs).buffer_index < 13 ∧
    ∀ j, j < xs.length → j < 13 →
      get_lag (eps_pushes (eps_init_buffers b0) xs).power_buffer
          (eps_pushes (eps_init_buffers b0) xs).buffer_index j =
        (xs.getD (xs.length - 1 - j) (0, 0)).1 ∧
      get_lag (eps_pushes (eps_init_buffers b0) xs).voltage_buffer
          (eps_pushes (eps_init_buffers b0) xs).buffer_index j =
        (xs.getD (xs.length - 1 - j) (0, 0)).2 := by
  induction xs using List.reverseRecOn with
  | nil =>
    refine ⟨by simp [eps_pushes, eps_init_buffers], ?_⟩
    intro j hj
    simp at hj
  | append_singleton l x ih =>
    obtain ⟨hidx, hl⟩ := ih
    rw [eps_pushes_snoc]
    obtain ⟨c, hc⟩ : ∃ c, c = (eps_pushes (eps_init_buffers b0) l).buffer_index := ⟨_, rfl⟩
    rw [← hc] at hidx
    have hu : u8 ((c + 1) % RING_BUFFER_SIZE) = (c + 1) % 13 := by
      simp only [u8, RING_BUFFER_SIZE]
      omega
    have hnew : (eps_update_buffers (eps_pushes (eps_init_buffers b0) l) x.1 x.2).buffer_index =
        (c + 1) % 13 := by
      simp only [eps_update_buffers, ← hc, hu]
    have hlt : (c + 1) % 13 < 13 := Nat.mod_lt _ (by norm_num)
    refine ⟨by rw [hnew]; exact hlt, ?_⟩
    intro j hj hj13
    rw [hnew, get_lag_eq _ _ _ hlt (by omega), get_lag_eq _ _ _ hlt (by omega)]
    have hpb : (eps_update_buffers (eps_pushes (eps_init_buffers b0) l) x.1 x.2).power_buffer =
        Function.update (eps_pushes (eps_init_buffers b0) l).power_buffer ((c + 1) % 13) x.1 := by
      simp only [eps_update_buffers, ← hc, hu]
    have hvb : (eps_update_buffers (eps_pushes (eps_init_buffers b0) l) x.1 x.2).voltage_buffer =
        Function.update (eps_pushes (eps_init_buffers b0) l).voltage_buffer ((c + 1) % 13)
          x.2 := by
      simp only [eps_update_buffers, ← hc, hu]
    rw [hpb, hvb]
    simp only [List.length_append, List.length_singleton] at hj ⊢
    rcases Nat.eq_zero_or_pos j with h0 | hpos
    · subst h0
      have hi : ((c + 1) % 13 + 13 - 0) % 13 = (c + 1) % 13 := by omega
      have hg : l.length + 1 - 1 - 0 = l.length := by omega
      rw [hi, hg, Function.update_same, Function.update_same,
        List.getD_append_right _ _ _ _ (le_refl _)]
      simp
    · have hne : ((c + 1) % 13 + 13 - j) % 13 ≠ (c + 1) % 13 := by omega
      have hi : ((c + 1) % 13 + 13 - j) % 13 = (c + 13 - (j - 1)) % 13 := by omega
      have hg : l.length + 1 - 1 - j = l.length - 1 - (j - 1) := by omega
      have hjl : j - 1 < l.length := by omega
      rw [Function.update_noteq hne, Function.update_noteq hne, hi, hg,
        List.getD_append _ _ _ _ (by omega)]
      have := hl (j - 1) hjl (by omega)
      rw [← hc, get_lag_eq _ _ _ hidx (by omega), get_lag_eq _ _ _ hidx (by omega)] at this
      exact this

theorem eps_extract_power_features_slots (buffers : EPS_FeatureBuffers) (f : Nat → ℚ) :
    eps_extract_power_features buffers f 0 =
      get_lag buffers.power_buffer buffers.buffer_index 1 ∧
    eps_extract_power_features buffers f 1 =
      get_lag buffers.power_buffer buffers.buffer_index 2 ∧
    eps_extract_power_features buffers f 2 =
      get_lag buffers.power_buffer buffers.buffer_index 3 ∧
    eps_extract_power_features buffers f 3 =
      get_lag buffers.power_buffer buffers.buffer_index 6 ∧
    eps_extract_power_features buffers f 4 =
      get_lag buffers.power_buffer buffers.buffer_index 12 ∧
    eps_extract_power_features buffers f 5 =
      buffers.power_buffer buffers.buffer_index -
        get_lag buffers.power_buffer buffers.buffer_index 1 ∧
    eps_extract_power_features buffers f 6 =
      get_lag buffers.power_buffer buffers.buffer_index 2 -
        get_lag buffers.power_buffer buffers.buffer_index 3 ∧
    eps_extract_power_features buffers f 7 =
      get_lag buffers.power_buffer buffers.buffer_index 3 -
        get_lag buffers.power_buffer buffers.buffer_index 4 ∧
    eps_extract_power_features buffers f 8 =
      get_lag buffers.power_buffer buffers.buffer_index 6 -
        get_lag buffers.power_buffer buffers.buffer_index 7 := by
  simp [eps_extract_power_features, Function.update]

theorem eps_extract_voltage_features_slots (buffers : EPS_FeatureBuffers) (f : Nat → ℚ) :
    eps_extract_voltage_features buffers f 0 =
      get_lag buffers.voltage_buffer buffers.buffer_index 1 ∧
    eps_extract_voltage_features buffers f 1 =
      get_lag buffers.voltage_buffer buffers.buffer_index 2 ∧
    eps_extract_voltage_features buffers f 2 =
      get_lag buffers.voltage_buffer buffers.buffer_index 3 ∧
    eps_extract_voltage_features buffers f 3 =
      get_lag buffers.voltage_buffer buffers.buffer_index 6 ∧
    eps_extract_voltage_features buffers f 4 =
      get_lag buffers.voltage_buffer buffers.buffer_index 12 := by
  simp [eps_extract_voltage_features, Function.update]

/-- C23 (ring buffer of eps_features.c): after eps_init_buffers and k calls of
eps_update_buffers, for every j below min(k, 13), get_lag at the current
buffer_index and lag j returns the power (for power_buffer) and the voltage (for
voltage_buffer) of the sample pushed j calls before the last one, sample number
k - 1 - j counted from 0; lag 0 is the last push.  buffer_index is at most 12. -/
theorem C23_lag_buffer_after_pushes (b0 : EPS_FeatureBuffers) (xs : List (ℚ × ℚ)) (j : Nat)
    (hj : j < xs.length) (hj13 : j < 13) :
    (eps_pushes (eps_init_buffers b0) xs).buffer_index ≤ 12 ∧
    get_lag (eps_pushes (eps_init_buffers b0) xs).power_buffer
        (eps_pushes (eps_init_buffers b0) xs).buffer_index j =
      (xs.getD (xs.length - 1 - j) (0, 0)).1 ∧
    get_lag (eps_pushes (eps_init_buffers b0) xs).voltage_buffer
        (eps_pushes (eps_init_buffers b0) xs).buffer_index j =
      (xs.getD (xs.length - 1 - j) (0, 0)).2 := by
  obtain ⟨hidx, hl⟩ := eps_pushes_lags b0 xs
  exact ⟨by omega, hl j hj hj13⟩

theorem C23_lag_buffer_after_pushes_witness :
    12 < ramp_samples.length ∧
    (ramp_samples.getD (ramp_samples.length - 1 - 12) (0, 0)).1 = 2 ∧
    (ramp_samples.getD (ramp_samples.length - 1 - 0) (0, 0)).1 = 92 ∧
    get_lag (eps_pushes (eps_init_buffers eps_zero_buffers) ramp_samples).power_buffer
        (eps_pushes (eps_init_buffers eps_zero_buffers) ramp_samples).buffer_index 12 =
      (ramp_samples.getD (ramp_samples.length - 1 - 12) (0, 0)).1 ∧
    get_lag (eps_pushes (eps_init_buffers eps_zero_buffers) ramp_samples).power_buffer
        (eps_pushes (eps_init_buffers eps_zero_buffers) ramp_samples).buffer_index 0 =
      (ramp_samples.getD (ramp_samples.length - 1 - 0) (0, 0)).1 :=
  ⟨by decide!, by decide!, by decide!,
    (C23_lag_buffer_after_pushes eps_zero_buffers ramp_samples 12 (by decide!)
      (by decide)).2.1,
    (C23_lag_buffer_after_pushes eps_zero_buffers ramp_samples 0 (by decide!)
      (by decide)).2.1⟩

/-- C25 (lag features of eps_features.c): eps_extract_power_features writes to
features_out[0..4] the values get_lag reads at lags 1, 2, 3, 6, 12 of
power_buffer, and eps_extract_voltage_features those of voltage_buffer, for
every buffer state and every prior content of features_out; after
eps_init_buffers and k pushes, slot s with lag l (s, l = 0,1 / 1,2 / 2,3 / 3,6 /
4,12) holds the power, or the voltage, of the sample pushed l calls before the
last push whenever l < k.  Both functions only read the buffers: they are
functions of the buffers that return the output array alone. -/
theorem C25_lag_features_in_order (buffers b0 : EPS_FeatureBuffers) (f : Nat → ℚ)
    (xs : List (ℚ × ℚ)) :
    (∀ sl ∈ [(0, 1), (1, 2), (2, 3), (3, 6), (4, 12)],
      eps_extract_power_features buffers f sl.1 =
        get_lag buffers.power_buffer buffers.buffer_index sl.2 ∧
      eps_extract_voltage_features buffers f sl.1 =
        get_lag buffers.voltage_buffer buffers.buffer_index sl.2) ∧
    (∀ sl ∈ [(0, 1), (1, 2), (2, 3), (3, 6), (4, 12)], sl.2 < xs.length →
      eps_extract_power_features (eps_pushes (eps_init_buffers b0) xs) f sl.1 =
        (xs.getD (xs.length - 1 - sl.2) (0, 0)).1 ∧
      eps_extract_voltage_features (eps_pushes (eps_init_buffers b0) xs) f sl.1 =
        (xs.getD (xs.length - 1 - sl.2) (0, 0)).2) := by
  have gen : ∀ (b : EPS_FeatureBuffers),
      ∀ sl ∈ [(0, 1), (1, 2), (2, 3), (3, 6), (4, 12)],
        eps_extract_power_features b f sl.1 = get_lag b.power_buffer b.buffer_index sl.2 ∧
        eps_extract_voltage_features b f sl.1 =
          get_lag b.voltage_buffer b.buffer_index sl.2 := by
    intro b sl hsl
    obtain ⟨p0, p1, p2, p3, p4, _⟩ := eps_extract_power_features_slots b f
    obtain ⟨v0, v1, v2, v3, v4⟩ := eps_extract_voltage_features_slots b f
    simp only [List.mem_cons, List.mem_singleton, List.not_mem_nil, or_false] at hsl
    rcases hsl with h | h | h | h | h <;> subst h
    · exact ⟨p0, v0⟩
    · exact ⟨p1, v1⟩
    · exact ⟨p2, v2⟩
    · exact ⟨p3, v3⟩
    · exact ⟨p4, v4⟩
  refine ⟨gen buffers, ?_⟩
  intro sl hsl hlen
  have h13 : sl.2 < 13 := by
    simp only [List.mem_cons, List.mem_singleton, List.not_mem_nil, or_false] at hsl
    rcases hsl with h | h | h | h | h <;> subst h <;> norm_num
  obtain ⟨hp, hv⟩ := gen (eps_pushes (eps_init_buffers b0) xs) sl hsl
  obtain ⟨_, hl⟩ := eps_pushes_lags b0 xs
  rw [hp, hv]
  exact hl sl.2 hlen h13

theorem C25_lag_features_in_order_witness :
    ((4, 12) : Nat × Nat) ∈ [(0, 1), (1, 2), (2, 3), (3, 6), (4, 12)] ∧
    12 < ramp_samples.length ∧
    eps_extract_power_features (eps_pushes (eps_init_buffers eps_zero_buffers) ramp_samples)
        (fun _ => 0) 4 = (ramp_samples.getD (ramp_samples.length - 1 - 12) (0, 0)).1 ∧
    eps_extract_voltage_features (eps_pushes (eps_init_buffers eps_zero_buffers) ramp_samples)
        (fun _ => 0) 4 = (ramp_samples.getD (ramp_samples.length - 1 - 12) (0, 0)).2 :=
  ⟨by decide, by decide!,
    (C25_lag_features_in_order eps_zero_buffers eps_zero_buffers (fun _ => 0)
      ramp_samples).2 (4, 12) (by decide) (by decide!)⟩

/-- C26, as stated, fails for features_out[5]: after eps_init_buffers and the
fourteen pushes of ramp_samples (powers ..., 67, 79, 92), P_lag1 = 79 and
P_lag2 = 67, so P_lag1 − P_lag2 = 12, but features_out[5] is 13 = 92 − 79. -/
theorem C26_first_difference_is_not_lag1_minus_lag2 :
    get_lag (eps_pushes (eps_init_buffers eps_zero_buffers) ramp_samples).power_buffer
      (eps_pushes (eps_init_buffers eps_zero_buffers) ramp_samples).buffer_index 1 = 79 ∧
    get_lag (eps_pushes (eps_init_buffers eps_zero_buffers) ramp_samples).power_buffer
      (eps_pushes (eps_init_buffers eps_zero_buffers) ramp_samples).buffer_index 2 = 67 ∧
    eps_extract_power_features (eps_pushes (eps_init_buffers eps_zero_buffers) ramp_samples)
      (fun _ => 0) 5 = 13 ∧
    eps_extract_power_features (eps_pushes (eps_init_buffers eps_zero_buffers) ramp_samples)
      (fun _ => 0) 5 ≠
      get_lag (eps_pushes (eps_init_buffers eps_zero_buffers) ramp_samples).power_buffer
        (eps_pushes (eps_init_buffers eps_zero_buffers) ramp_samples).buffer_index 1 -
      get_lag (eps_pushes (eps_init_buffers eps_zero_buffers) ramp_samples).power_buffer
        (eps_pushes (eps_init_buffers eps_zero_buffers) ramp_samples).buffer_index 2 := by
  decide!

/-- C26, amended: after eps_init_buffers and any pushes, eps_extract_power_features
writes features_out[5] = P_lag0 − P_lag1 (the newest sample minus the one before
it), features_out[6] = P_lag2 − P_lag3, features_out[7] = P_lag3 − P_lag4 and
features_out[8] = P_lag6 − P_lag7, where P_lagk is what get_lag reads at lag k;
with at least 8 pushes these are the differences of the powers pushed 0 and 1,
2 and 3, 3 and 4, 6 and 7 calls before the last push. -/
theorem C26_difference_features (b0 : EPS_FeatureBuffers) (f : Nat → ℚ) (xs : List (ℚ × ℚ)) :
    (eps_extract_power_features (eps_pushes (eps_init_buffers b0) xs) f 5 =
        get_lag (eps_pushes (eps_init_buffers b0) xs).power_buffer
          (eps_pushes (eps_init_buffers b0) xs).buffer_index 0 -
        get_lag (eps_pushes (eps_init_buffers b0) xs).power_buffer
          (eps_pushes (eps_init_buffers b0) xs).buffer_index 1 ∧
      eps_extract_power_features (eps_pushes (eps_init_buffers b0) xs) f 6 =
        get_lag (eps_pushes (eps_init_buffers b0) xs).power_buffer
          (eps_pushes (eps_init_buffers b0) xs).buffer_index 2 -
        get_lag (eps_pushes (eps_init_buffers b0) xs).power_buffer
          (eps_pushes (eps_init_buffers b0) xs).buffer_index 3 ∧
      eps_extract_power_features (eps_pushes (eps_init_buffers b0) xs) f 7 =
        get_lag (eps_pushes (eps_init_buffers b0) xs).power_buffer
          (eps_pushes (eps_init_buffers b0) xs).buffer_index 3 -
        get_lag (eps_pushes (eps_init_buffers b0) xs).power_buffer
          (eps_pushes (eps_init_buffers b0) xs).buffer_index 4 ∧
      eps_extract_power_features (eps_pushes (eps_init_buffers b0) xs) f 8 =
        get_lag (eps_pushes (eps_init_buffers b0) xs).power_buffer
          (eps_pushes (eps_init_buffers b0) xs).buffer_index 6 -
        get_lag (eps_pushes (eps_init_buffers b0) xs).power_buffer
          (eps_pushes (eps_init_buffers b0) xs).buffer_index 7) ∧
    (8 ≤ xs.length →
      eps_extract_power_features (eps_pushes (eps_init_buffers b0) xs) f 5 =
        (xs.getD (xs.length - 1) (0, 0)).1 - (xs.getD (xs.length - 2) (0, 0)).1 ∧
      eps_extract_power_features (eps_pushes (eps_init_buffers b0) xs) f 6 =
        (xs.getD (xs.length - 3) (0, 0)).1 - (xs.getD (xs.length - 4) (0, 0)).1 ∧
      eps_extract_power_features (eps_pushes (eps_init_buffers b0) xs) f 7 =
        (xs.getD (xs.length - 4) (0, 0)).1 - (xs.getD (xs.length - 5) (0, 0)).1 ∧
      eps_extract_power_features (eps_pushes (eps_init_buffers b0) xs) f 8 =
        (xs.getD (xs.length - 7) (0, 0)).1 - (xs.getD (xs.length - 8) (0, 0)).1) := by
  obtain ⟨_, _, _, _, _, p5, p6, p7, p8⟩ :=
    eps_extract_power_features_slots (eps_pushes (eps_init_buffers b0) xs) f
  obtain ⟨hidx, hl⟩ := eps_pushes_lags b0 xs
  have h0 : get_lag (eps_pushes (eps_init_buffers b0) xs).power_buffer
      (eps_pushes (eps_init_buffers b0) xs).buffer_index 0 =
      (eps_pushes (eps_init_buffers b0) xs).power_buffer
        (eps_pushes (eps_init_buffers b0) xs).buffer_index := by
    rw [get_lag_eq _ _ _ hidx (by omega)]
    congr 1
    omega
  rw [← h0] at p5
  refine ⟨⟨p5, p6, p7, p8⟩, ?_⟩
  intro h8
  rw [p5, p6, p7, p8, (hl 0 (by omega) (by omega)).1, (hl 1 (by omega) (by omega)).1,
    (hl 2 (by omega) (by omega)).1, (hl 3 (by omega) (by omega)).1,
    (hl 4 (by omega) (by omega)).1, (hl 6 (by omega) (by omega)).1,
    (hl 7 (by omega) (by omega)).1]
  exact ⟨rfl, rfl, rfl, rfl⟩

theorem C26_difference_features_witness :
    8 ≤ ramp_samples.length ∧
    eps_extract_power_features (eps_pushes (eps_init_buffers eps_zero_buffers) ramp_samples)
        (fun _ => 0) 5 =
      (ramp_samples.getD (ramp_samples.length - 1) (0, 0)).1 -
        (ramp_samples.getD (ramp_samples.length - 2) (0, 0)).1 :=
  ⟨by decide!,
    ((C26_difference_features eps_zero_buffers (fun _ => 0) ramp_samples).2 (by decide!)).1⟩

/-! ## History buffer of eps_main_deployment.c -/

theorem get_lag_value_eq (h : Nat → ℚ) (c l : Nat) (hc : c < 13) (hl : l ≤ 13) :
    get_lag_value h c l 13 = h ((c + 13 - l) % 13) := by
  unfold get_lag_value
  dsimp only
  split_ifs <;> congr 1 <;> omega

theorem update_panel_history_buffer (d : Deployment) (i : Fin NUM_PANELS) (P V : ℚ) :
    ((update_panel_history d i P V).panel_buffers i).power_history =
      Function.update (d.panel_buffers i).power_history (d.panel_buffers i).history_index P ∧
    ((update_panel_history d i P V).panel_buffers i).voltage_history =
      Function.update (d.panel_buffers i).voltage_history (d.panel_buffers i).history_index V ∧
    ((update_panel_history d i P V).panel_buffers i).history_index =
      ((d.panel_buffers i).history_index + 1) % 13 ∧
    ((update_panel_history d i P V).panel_buffers i).initialized =
      ((d.panel_buffers i).initialized || decide (12 ≤ u8 (d.sample_counts i + 1))) ∧
    (update_panel_history d i P V).sample_counts i =
      (if (d.panel_buffers i).initialized then d.sample_counts i
        else u8 (d.sample_counts i + 1)) := by
  have hu : u8 (((d.panel_buffers i).history_index + 1) % (POWER_LAG_SIZE + 1)) =
      ((d.panel_buffers i).history_index + 1) % 13 := by
    simp only [u8, POWER_LAG_SIZE]
    omega
  cases hinit : (d.panel_buffers i).initialized
  · by_cases hc : 12 ≤ u8 (d.sample_counts i + 1)
    · simp [update_panel_history, hinit, hc, hu, POWER_LAG_SIZE]
    · simp [update_panel_history, hinit, hc, hu, POWER_LAG_SIZE]
  · simp [update_panel_history, hinit, hu]

theorem push_history_snoc (d : Deployment) (i : Fin NUM_PANELS) (l : List (ℚ × ℚ))
    (x : ℚ × ℚ) :
    push_history d i (l ++ [x]) = update_panel_history (push_history d i l) i x.1 x.2 := by
  simp [push_history, List.foldl_append]

theorem push_history_lags (d : Deployment) (i : Fin NUM_PANELS) (xs : List (ℚ × ℚ)) :
    ((push_history (eps_main_init d) i xs).panel_buffers i).history_index = xs.length % 13 ∧
    (∀ j, xs.length ≤ j →
      ((push_history (eps_main_init d) i xs).panel_buffers i).power_history j = 0 ∧
      ((push_history (eps_main_init d) i xs).panel_buffers i).voltage_history j = 0) ∧
    (∀ j, 1 ≤ j → j ≤ xs.length → j ≤ 13 →
      get_lag_value ((push_history (eps_main_init d) i xs).panel_buffers i).power_history
          ((push_history (eps_main_init d) i xs).panel_buffers i).history_index j 13 =
        (xs.getD (xs.length - j) (0, 0)).1 ∧
      get_lag_value ((push_history (eps_main_init d) i xs).panel_buffers i).voltage_history
          ((push_history (eps_main_init d) i xs).panel_buffers i).history_index j 13 =
        (xs.getD (xs.length - j) (0, 0)).2) := by
  induction xs using List.reverseRecOn with
  | nil =>
    refine ⟨by simp [push_history, eps_main_init], ?_, ?_⟩
    · intro j _
      simp [push_history, eps_main_init]
    · intro j h1 hj
      simp at hj
      omega
  | append_singleton l x ih =>
    obtain ⟨hidx, hzero, hl⟩ := ih
    obtain ⟨hp, hv, hi, _, _⟩ :=
      update_panel_history_buffer (push_history (eps_main_init d) i l) i x.1 x.2
    rw [push_history_snoc, hp, hv, hi, hidx]
    have hlt : (l.length % 13 + 1) % 13 < 13 := Nat.mod_lt _ (by norm_num)
    have hlt0 : l.length % 13 < 13 := Nat.mod_lt _ (by norm_num)
    simp only [List.length_append, List.length_singleton]
    refine ⟨by omega, ?_, ?_⟩
    · intro j hj
      have hne : j ≠ l.length % 13 := by omega
      rw [Function.update_noteq hne, Function.update_noteq hne]
      exact hzero j (by omega)
    · intro j h1 hj hj13
      rw [get_lag_value_eq _ _ _ hlt hj13, get_lag_value_eq _ _ _ hlt hj13]
      rcases Nat.eq_or_lt_of_le h1 with h | h
      · subst h
        have hs : ((l.length % 13 + 1) % 13 + 13 - 1) % 13 = l.length % 13 := by omega
        have hg : l.length + 1 - 1 = l.length := by omega
        rw [hs, hg, Function.update_same, Function.update_same,
          List.getD_append_right _ _ _ _ (le_refl _)]
        simp
      · have hne : ((l.length % 13 + 1) % 13 + 13 - j) % 13 ≠ l.length % 13 := by omega
        have hs : ((l.length % 13 + 1) % 13 + 13 - j) % 13 =
            (l.length % 13 + 13 - (j - 1)) % 13 := by omega
        have hg : l.length + 1 - j = l.length - (j - 1) := by omega
        rw [Function.update_noteq hne, Function.update_noteq hne, hs, hg,
          List.getD_append _ _ _ _ (by omega)]
        have := hl (j - 1) (by omega) (by omega) (by omega)
        rw [hidx, get_lag_value_eq _ _ _ hlt0 (by omega),
          get_lag_value_eq _ _ _ hlt0 (by omega)] at this
        exact this

theorem push_history_ready (d : Deployment) (i : Fin NUM_PANELS) (xs : List (ℚ × ℚ))
    (h0 : d.sample_counts i = 0) :
    ((push_history (eps_main_init d) i xs).panel_buffers i).initialized =
      decide (12 ≤ xs.length) ∧
    (push_history (eps_main_init d) i xs).sample_counts i = min xs.length 12 := by
  induction xs using List.reverseRecOn with
  | nil => simp [push_history, eps_main_init, h0]
  | append_singleton l x ih =>
    obtain ⟨hinit, hcount⟩ := ih
    obtain ⟨_, _, _, hi, hc⟩ :=
      update_panel_history_buffer (push_history (eps_main_init d) i l) i x.1 x.2
    rw [push_history_snoc, hi, hc, hinit, hcount]
    simp only [List.length_append, List.length_singleton, u8]
    by_cases h12 : 12 ≤ l.length
    · have h13 : 12 ≤ l.length + 1 := by omega
      simp [h12, h13]
    · have hm : min l.length 12 = l.length := by omega
      have hmod : (l.length + 1) % 256 = l.length + 1 := by omega
      simp only [h12, decide_False, Bool.false_or, hm, hmod, Bool.false_eq_true, if_false]
      refine ⟨trivial, ?_⟩
      omega

theorem build_power_features_slots (d : Deployment) (i : Fin NUM_PANELS) (f : Nat → ℚ)
    (h : (d.panel_buffers i).initialized = true) :
    (build_power_features d i f).1 = true ∧
    (build_power_features d i f).2 0 =
      get_lag_value (d.panel_buffers i).power_history (d.panel_buffers i).history_index 1 13 ∧
    (build_power_features d i f).2 4 =
      get_lag_value (d.panel_buffers i).power_history (d.panel_buffers i).history_index 12 13 ∧
    (build_power_features d i f).2 9 =
      get_lag_value (d.panel_buffers i).power_history (d.panel_buffers i).history_index 12 13 -
      get_lag_value (d.panel_buffers i).power_history (d.panel_buffers i).history_index
        13 13 := by
  simp [build_power_features, h, Function.update, POWER_LAG_SIZE]

theorem build_features_not_ready (d : Deployment) (i : Fin NUM_PANELS) (f : Nat → ℚ) :
    ((build_power_features d i f).1 = false → (build_power_features d i f).2 = f) ∧
    ((build_voltage_features d i f).1 = false → (build_voltage_features d i f).2 = f) := by
  cases h : (d.panel_buffers i).initialized <;>
    simp [build_power_features, build_voltage_features, h]

theorem build_features_flag (d : Deployment) (i : Fin NUM_PANELS) (f : Nat → ℚ) :
    (build_power_features d i f).1 = (d.panel_buffers i).initialized ∧
    (build_voltage_features d i f).1 = (d.panel_buffers i).initialized := by
  cases h : (d.panel_buffers i).initialized <;>
    simp [build_power_features, build_voltage_features, h]

theorem push_history_stays_ready (i : Fin NUM_PANELS) (more : List (ℚ × ℚ)) :
    ∀ d : Deployment, (d.panel_buffers i).initialized = true →
      ((push_history d i more).panel_buffers i).initialized = true := by
  induction more with
  | nil => intro d h; exact h
  | cons x more ih =>
    intro d h
    have hcons : push_history d i (x :: more) =
        push_history (update_panel_history d i x.1 x.2) i more := rfl
    rw [hcons]
    apply ih
    rw [(update_panel_history_buffer d i x.1 x.2).2.2.2.1, h]
    rfl

/-- C24 fails in the code: update_panel_history writes the sample at history_index
and then advances history_index, so after eps_main_init and at least one push
get_lag_value at lag 1 (not lag 0) returns the sample just pushed, and at lag
k + 1 the sample pushed k ticks before it (1 ≤ k ≤ 12, when that many samples
are stored).  Lag 0 reads the slot the next push will overwrite: it is 0 while
at most 12 samples have been pushed.  Hence features[0] of build_power_features
(P_lag1) is the power of the current sample. -/
theorem C24_lag_one_is_the_current_sample (d : Deployment) (i : Fin NUM_PANELS)
    (xs : List (ℚ × ℚ)) (f : Nat → ℚ) (h1 : 1 ≤ xs.length) :
    get_lag_value ((push_history (eps_main_init d) i xs).panel_buffers i).power_history
        ((push_history (eps_main_init d) i xs).panel_buffers i).history_index 1 13 =
      (xs.getD (xs.length - 1) (0, 0)).1 ∧
    (∀ k, 1 ≤ k → k ≤ 12 → k + 1 ≤ xs.length →
      get_lag_value ((push_history (eps_main_init d) i xs).panel_buffers i).power_history
          ((push_history (eps_main_init d) i xs).panel_buffers i).history_index (k + 1) 13 =
        (xs.getD (xs.length - 1 - k) (0, 0)).1) ∧
    (xs.length ≤ 12 →
      get_lag_value ((push_history (eps_main_init d) i xs).panel_buffers i).power_history
        ((push_history (eps_main_init d) i xs).panel_buffers i).history_index 0 13 = 0) ∧
    (((push_history (eps_main_init d) i xs).panel_buffers i).initialized = true →
      (build_power_features (push_history (eps_main_init d) i xs) i f).2 0 =
        (xs.getD (xs.length - 1) (0, 0)).1) := by
  obtain ⟨hidx, hzero, hl⟩ := push_history_lags d i xs
  have hlag1 := (hl 1 (le_refl _) h1 (by norm_num)).1
  refine ⟨hlag1, ?_, ?_, ?_⟩
  · intro k hk1 hk12 hkl
    have := (hl (k + 1) (by omega) hkl (by omega)).1
    rw [this]
    congr 2
    omega
  · intro h12
    have hlt : xs.length % 13 < 13 := Nat.mod_lt _ (by norm_num)
    rw [hidx, get_lag_value_eq _ _ _ hlt (by norm_num)]
    have hs : (xs.length % 13 + 13 - 0) % 13 = xs.length := by omega
    rw [hs]
    exact (hzero xs.length (le_refl _)).1
  · intro hinit
    rw [(build_power_features_slots _ i f hinit).2.1]
    exact hlag1

theorem C24_lag_one_is_the_current_sample_witness :
    1 ≤ (ramp_samples.take 12).length ∧
    ((ramp_samples.take 12).getD ((ramp_samples.take 12).length - 1) (0, 0)).1 = 67 ∧
    get_lag_value
        ((push_history (eps_main_init deployment_power_on) 0
          (ramp_samples.take 12)).panel_buffers 0).power_history
        ((push_history (eps_main_init deployment_power_on) 0
          (ramp_samples.take 12)).panel_buffers 0).history_index 1 13 =
      ((ramp_samples.take 12).getD ((ramp_samples.take 12).length - 1) (0, 0)).1 ∧
    get_lag_value
        ((push_history (eps_main_init deployment_power_on) 0
          (ramp_samples.take 12)).panel_buffers 0).power_history
        ((push_history (eps_main_init deployment_power_on) 0
          (ramp_samples.take 12)).panel_buffers 0).history_index 0 13 = 0 ∧
    (build_power_features (push_history (eps_main_init deployment_power_on) 0
        (ramp_samples.take 12)) 0 (fun _ => 0)).2 0 =
      ((ramp_samples.take 12).getD ((ramp_samples.take 12).length - 1) (0, 0)).1 :=
  ⟨by decide!, by decide!,
    (C24_lag_one_is_the_current_sample deployment_power_on 0 (ramp_samples.take 12)
      (fun _ => 0) (by decide!)).1,
    (C24_lag_one_is_the_current_sample deployment_power_on 0 (ramp_samples.take 12)
      (fun _ => 0) (by decide!)).2.2.1 (by decide!),
    (C24_lag_one_is_the_current_sample deployment_power_on 0 (ramp_samples.take 12)
      (fun _ => 0) (by decide!)).2.2.2 (by decide!)⟩

/-- C27, as stated, fails at sample count 13: after eps_main_init at start-up and
the first thirteen pushes of ramp_samples (powers 1, 2, 4, ...) for panel 0,
build_power_features returns true, the P_lag13 term read by get_lag_value is
the first sample pushed, 1, and features[9] = 2 − 1 = 1 differs from
features[4] = 2. -/
theorem C27_lag13_term_at_thirteen_samples :
    (ramp_samples.take 13).length = 13 ∧
    (build_power_features (push_history (eps_main_init deployment_power_on) 0
      (ramp_samples.take 13)) 0 (fun _ => 0)).1 = true ∧
    get_lag_value
      ((push_history (eps_main_init deployment_power_on) 0
        (ramp_samples.take 13)).panel_buffers 0).power_history
      ((push_history (eps_main_init deployment_power_on) 0
        (ramp_samples.take 13)).panel_buffers 0).history_index 13 13 = 1 ∧
    (build_power_features (push_history (eps_main_init deployment_power_on) 0
      (ramp_samples.take 13)) 0 (fun _ => 0)).2 9 = 1 ∧
    (build_power_features (push_history (eps_main_init deployment_power_on) 0
      (ramp_samples.take 13)) 0 (fun _ => 0)).2 4 = 2 := by
  decide!

/-- C27, amended: in build_power_features, when exactly 12 samples have been pushed
for the panel since eps_main_init (the first ready count; the static
sample_counts of the panel is 0 when eps_main_init runs, as at start-up), the
call returns true, the P_lag13 term of dP_lag12 is 0, and features[9] =
features[4]. -/
theorem C27_lag13_term_zero_at_twelve_samples (d : Deployment) (i : Fin NUM_PANELS)
    (xs : List (ℚ × ℚ)) (f : Nat → ℚ) (h0 : d.sample_counts i = 0)
    (h12 : xs.length = 12) :
    (build_power_features (push_history (eps_main_init d) i xs) i f).1 = true ∧
    get_lag_value ((push_history (eps_main_init d) i xs).panel_buffers i).power_history
      ((push_history (eps_main_init d) i xs).panel_buffers i).history_index 13 13 = 0 ∧
    (build_power_features (push_history (eps_main_init d) i xs) i f).2 9 =
      (build_power_features (push_history (eps_main_init d) i xs) i f).2 4 := by
  obtain ⟨hidx, hzero, _⟩ := push_history_lags d i xs
  have hinit : ((push_history (eps_main_init d) i xs).panel_buffers i).initialized = true := by
    rw [(push_history_ready d i xs h0).1, h12]
    rfl
  have hterm : get_lag_value
      ((push_history (eps_main_init d) i xs).panel_buffers i).power_history
      ((push_history (eps_main_init d) i xs).panel_buffers i).history_index 13 13 = 0 := by
    have hlt : xs.length % 13 < 13 := Nat.mod_lt _ (by norm_num)
    rw [hidx, get_lag_value_eq _ _ _ hlt (by norm_num)]
    have hs : (xs.length % 13 + 13 - 13) % 13 = xs.length := by omega
    rw [hs]
    exact (hzero xs.length (le_refl _)).1
  obtain ⟨hflag, _, h4, h9⟩ := build_power_features_slots _ i f hinit
  refine ⟨hflag, hterm, ?_⟩
  rw [h9, h4, hterm, sub_zero]

theorem C27_lag13_term_zero_at_twelve_samples_witness :
    deployment_power_on.sample_counts 0 = 0 ∧ (ramp_samples.take 12).length = 12 ∧
    (build_power_features (push_history (eps_main_init deployment_power_on) 0
      (ramp_samples.take 12)) 0 (fun _ => 0)).2 9 =
    (build_power_features (push_history (eps_main_init deployment_power_on) 0
      (ramp_samples.take 12)) 0 (fun _ => 0)).2 4 :=
  ⟨rfl, by decide!,
    (C27_lag13_term_zero_at_twelve_samples deployment_power_on 0 (ramp_samples.take 12)
      (fun _ => 0) rfl (by decide!)).2.2⟩

/-- C28, amended (readiness of the feature builders): after an eps_main_init that
runs while the static sample count of the panel in update_panel_history is 0
(as for the call made at start-up) and k calls of update_panel_history for the
panel, build_power_features and build_voltage_features return true if and only
if k ≥ 12; whenever either returns false its output array is left as it was;
and once the panel is ready it stays ready after any later pushes. -/
theorem C28_feature_builders_ready_from_twelve (d : Deployment) (i : Fin NUM_PANELS)
    (xs more : List (ℚ × ℚ)) (f : Nat → ℚ) (h0 : d.sample_counts i = 0) :
    ((build_power_features (push_history (eps_main_init d) i xs) i f).1 = true ↔
      12 ≤ xs.length) ∧
    ((build_voltage_features (push_history (eps_main_init d) i xs) i f).1 = true ↔
      12 ≤ xs.length) ∧
    ((build_power_features (push_history (eps_main_init d) i xs) i f).1 = false →
      (build_power_features (push_history (eps_main_init d) i xs) i f).2 = f) ∧
    ((build_voltage_features (push_history (eps_main_init d) i xs) i f).1 = false →
      (build_voltage_features (push_history (eps_main_init d) i xs) i f).2 = f) ∧
    ((build_power_features (push_history (eps_main_init d) i xs) i f).1 = true →
      (build_power_features (push_history (push_history (eps_main_init d) i xs) i more)
        i f).1 = true ∧
      (build_voltage_features (push_history (push_history (eps_main_init d) i xs) i more)
        i f).1 = true) := by
  obtain ⟨hp, hv⟩ := build_features_flag (push_history (eps_main_init d) i xs) i f
  obtain ⟨hnp, hnv⟩ := build_features_not_ready (push_history (eps_main_init d) i xs) i f
  have hr := (push_history_ready d i xs h0).1
  refine ⟨?_, ?_, hnp, hnv, ?_⟩
  · rw [hp, hr]; simp
  · rw [hv, hr]; simp
  · intro h
    rw [hp] at h
    have := push_history_stays_ready i more _ h
    exact build_features_ready _ i f this

theorem C28_feature_builders_ready_from_twelve_witness :
    deployment_power_on.sample_counts 0 = 0 ∧
    (build_power_features (push_history (eps_main_init deployment_power_on) 0
      (ramp_samples.take 11)) 0 (fun _ => 0)).1 = false ∧
    (build_power_features (push_history (eps_main_init deployment_power_on) 0
      (ramp_samples.take 12)) 0 (fun _ => 0)).1 = true ∧
    ((build_power_features (push_history (eps_main_init deployment_power_on) 0
      (ramp_samples.take 12)) 0 (fun _ => 0)).1 = true ↔ 12 ≤ (ramp_samples.take 12).length) ∧
    (build_voltage_features (push_history (push_history (eps_main_init deployment_power_on) 0
      (ramp_samples.take 12)) 0 ramp_samples) 0 (fun _ => 0)).1 = true :=
  ⟨rfl, by decide!, by decide!,
    (C28_feature_builders_ready_from_twelve deployment_power_on 0 (ramp_samples.take 12)
      ramp_samples (fun _ => 0) rfl).1,
    ((C28_feature_builders_ready_from_twelve deployment_power_on 0 (ramp_samples.take 12)
      ramp_samples (fun _ => 0) rfl).2.2.2.2 (by decide!)).2⟩

/-! ## Fault injection -/

theorem short_circuit_is_anomalous (panel : PanelProtection_t) :
    anomaly_detected panel (567 / 100) (2625 / 1000) (84 / 10) (175 / 10) = true := by
  have hv : voltage_drop (2625 / 1000) (175 / 10) = true := by decide!
  have hr : large_residual (567 / 100) (84 / 10) = true := by decide!
  simp only [anomaly_detected, condition_count, hv, hr]
  cases power_spike panel (84 / 10) <;>
    cases high_dynamics panel (567 / 100) (2625 / 1000) <;> decide

/-- C29, as stated, fails when start_step + duration exceeds the uint32 range: for
the short circuit with start_step = 4294967295 and duration = 2, step 4294967295
lies in [start_step, start_step + duration), yet apply_fault returns the
nominal sample unchanged, although the switch would change it. -/
theorem C29_window_sum_wraps :
    late_short_circuit_scenario.duration ≠ 0 ∧
    late_short_circuit_scenario.start_step ≤ 4294967295 ∧
    4294967295 < late_short_circuit_scenario.start_step +
      late_short_circuit_scenario.duration ∧
    apply_fault (some late_short_circuit_scenario) 4294967295 nominal_signals =
      nominal_signals ∧
    fault_switch late_short_circuit_scenario 4294967295 nominal_signals ≠ nominal_signals := by
  decide!

/-- C29, amended: with the end of the window taken as a uint32 sum, apply_fault is
active (it runs its switch) exactly for the steps with start_step ≤ step and
either duration = 0 or step < (start_step + duration) mod 2^32; for a null
scenario, for type FAULT_NONE, for every step below start_step and, when
duration ≠ 0, for every step from (start_step + duration) mod 2^32 on, P, V, I
and the generator state are returned unchanged. -/
theorem C29_fault_window (sc : FaultScenario) (step : Nat) (x : FaultSignals) :
    apply_fault none step x = x ∧
    (sc.type = FAULT_NONE → apply_fault (some sc) step x = x) ∧
    (step < sc.start_step → apply_fault (some sc) step x = x) ∧
    (sc.duration ≠ 0 → (sc.start_step + sc.duration) % 2 ^ 32 ≤ step →
      apply_fault (some sc) step x = x) ∧
    (sc.start_step ≤ step →
      (sc.duration = 0 ∨ step < (sc.start_step + sc.duration) % 2 ^ 32) →
      apply_fault (some sc) step x = fault_switch sc step x) := by
  refine ⟨rfl, ?_, ?_, ?_, ?_⟩
  · intro ht
    simp only [apply_fault, fault_switch, ht]
    split_ifs <;> rfl
  · intro h
    simp [apply_fault, h]
  · intro hd he
    have he2 : step ≥ u32 (sc.start_step + sc.duration) := by
      simp only [u32]
      norm_num at he ⊢
      exact he
    simp only [apply_fault]
    split_ifs
    · rfl
    · rfl
    · exfalso
      rename_i _ hn
      exact hn ⟨hd, he2⟩
  · intro hs hw
    have h1 : ¬ step < sc.start_step := Nat.not_lt.mpr hs
    have h2 : ¬ (sc.duration ≠ 0 ∧ step ≥ u32 (sc.start_step + sc.duration)) := by
      rintro ⟨hd, he⟩
      rcases hw with h | h
      · exact hd h
      · simp only [u32] at he
        norm_num at h he
        omega
    simp only [apply_fault, if_neg h1, if_neg h2]

theorem C29_fault_window_witness :
    short_circuit_scenario.start_step ≤ 12 ∧
    12 < (short_circuit_scenario.start_step + short_circuit_scenario.duration) % 2 ^ 32 ∧
    apply_fault (some short_circuit_scenario) 12 nominal_signals =
      fault_switch short_circuit_scenario 12 nominal_signals ∧
    short_circuit_scenario.duration ≠ 0 ∧
    (short_circuit_scenario.start_step + short_circuit_scenario.duration) % 2 ^ 32 ≤ 15 ∧
    apply_fault (some short_circuit_scenario) 15 nominal_signals = nominal_signals ∧
    apply_fault (some short_circuit_scenario) 9 nominal_signals = nominal_signals :=
  ⟨by decide, by decide,
    (C29_fault_window short_circuit_scenario 12 nominal_signals).2.2.2.2 (by decide)
      (Or.inr (by decide)),
    by decide, by decide,
    (C29_fault_window short_circuit_scenario 15 nominal_signals).2.2.2.1 (by decide)
      (by decide),
    (C29_fault_window short_circuit_scenario 9 nominal_signals).2.2.1 (by decide)⟩

/-- C30 (short circuit, first tick): for every scenario of type FAULT_SHORT_CIRCUIT
with severity 1 and every step in its active window, apply_fault turns the
nominal sample (P = 8.4, V = 17.5, I = 0.48) into V = 2.625, I = 2.16, P = 5.67;
with the nominal predictions (8.4 W, 17.5 V) voltage_drop and large_residual are
both true for it, and eps_protection_update on that tick moves a DISABLED panel
to ENABLED with enable_count incremented by one (as a uint32), whatever the
panel holds otherwise (in particular with P_nominal = 8.4). -/
theorem C30_short_circuit_enables_on_first_tick (s : System) (pid : Nat)
    (h : pid < NUM_PANELS) (sc : FaultScenario) (step rng tick : Nat) (mosfet_open : Bool)
    (htype : sc.type = FAULT_SHORT_CIRCUIT) (hsev : sc.severity = 1)
    (hstart : sc.start_step ≤ step)
    (hwin : sc.duration = 0 ∨ step < (sc.start_step + sc.duration) % 2 ^ 32)
    (hs : (s.panels ⟨pid, h⟩).state = COMP_DISABLED) :
    apply_fault (some sc) step { rng_state := rng, P := 84 / 10, V := 175 / 10, I := 48 / 100 } =
      { rng_state := rng, P := 567 / 100, V := 2625 / 1000, I := 216 / 100 } ∧
    voltage_drop (2625 / 1000) (175 / 10) = true ∧
    large_residual (567 / 100) (84 / 10) = true ∧
    ((eps_protection_update s pid
      { P_measured :=
          (apply_fault (some sc) step
            { rng_state := rng, P := 84 / 10, V := 175 / 10, I := 48 / 100 }).P
        V_measured :=
          (apply_fault (some sc) step
            { rng_state := rng, P := 84 / 10, V := 175 / 10, I := 48 / 100 }).V
        P_predicted := 84 / 10, V_predicted := 175 / 10, tick := tick,
        mosfet_open := mosfet_open }).panels ⟨pid, h⟩).state = COMP_ENABLED ∧
    ((eps_protection_update s pid
      { P_measured :=
          (apply_fault (some sc) step
            { rng_state := rng, P := 84 / 10, V := 175 / 10, I := 48 / 100 }).P
        V_measured :=
          (apply_fault (some sc) step
            { rng_state := rng, P := 84 / 10, V := 175 / 10, I := 48 / 100 }).V
        P_predicted := 84 / 10, V_predicted := 175 / 10, tick := tick,
        mosfet_open := mosfet_open }).panels ⟨pid, h⟩).enable_count =
      ((s.panels ⟨pid, h⟩).enable_count + 1) % 2 ^ 32 := by
  have h1 : ¬ step < sc.start_step := Nat.not_lt.mpr hstart
  have h2 : ¬ (sc.duration ≠ 0 ∧ step ≥ u32 (sc.start_step + sc.duration)) := by
    rintro ⟨hd, he⟩
    rcases hwin with hw | hw
    · exact hd hw
    · simp only [u32] at he
      norm_num at hw he
      omega
  have hfault : apply_fault (some sc) step
      { rng_state := rng, P := 84 / 10, V := 175 / 10, I := 48 / 100 } =
      { rng_state := rng, P := 567 / 100, V := 2625 / 1000, I := 216 / 100 } := by
    simp only [apply_fault, if_neg h1, if_neg h2, fault_switch, htype, hsev]
    norm_num
  have ha := short_circuit_is_anomalous (s.panels ⟨pid, h⟩)
  refine ⟨hfault, by decide!, by decide!, ?_, ?_⟩ <;>
    rw [hfault, update_panels_self] <;>
    simp [update_panel, hs, case_disabled, ha, u32]

theorem C30_short_circuit_enables_on_first_tick_witness :
    short_circuit_scenario.type = FAULT_SHORT_CIRCUIT ∧
    short_circuit_scenario.severity = 1 ∧ short_circuit_scenario.start_step ≤ 10 ∧
    ((eps_protection_init power_on).panels ⟨0, by decide⟩).state = COMP_DISABLED ∧
    apply_fault (some short_circuit_scenario) 10
        { rng_state := 305419896, P := 84 / 10, V := 175 / 10, I := 48 / 100 } =
      { rng_state := 305419896, P := 567 / 100, V := 2625 / 1000, I := 216 / 100 } ∧
    ((eps_protection_update (eps_protection_init power_on) 0
      { P_measured :=
          (apply_fault (some short_circuit_scenario) 10
            { rng_state := 305419896, P := 84 / 10, V := 175 / 10, I := 48 / 100 }).P
        V_measured :=
          (apply_fault (some short_circuit_scenario) 10
            { rng_state := 305419896, P := 84 / 10, V := 175 / 10, I := 48 / 100 }).V
        P_predicted := 84 / 10, V_predicted := 175 / 10, tick := 0,
        mosfet_open := false }).panels ⟨0, by decide⟩).state = COMP_ENABLED :=
  ⟨rfl, rfl, by decide, by decide!,
    (C30_short_circuit_enables_on_first_tick (eps_protection_init power_on) 0 (by decide)
      short_circuit_scenario 10 305419896 0 false rfl rfl (by decide)
      (Or.inr (by decide)) (by decide!)).1,
    (C30_short_circuit_enables_on_first_tick (eps_protection_init power_on) 0 (by decide)
      short_circuit_scenario 10 305419896 0 false rfl rfl (by decide)
      (Or.inr (by decide)) (by decide!)).2.2.2.1⟩

/-! ## Properties kept along every run -/

theorem apply_panel_invariant (Q : PanelProtection_t → Prop)
    (hupd : ∀ pid p cmd re t, Q p → Q (update_panel pid p cmd re t).panel)
    (hnom : ∀ (p : PanelProtection_t) (Pn Vn : ℚ),
      Q p → Q { p with P_nominal := Pn, V_nominal := Vn })
    (s : System) (e : Event) (i : Fin NUM_PANELS) (h : Q (s.panels i)) :
    Q ((e.apply s).panels i) := by
  cases e with
  | update pid t =>
    simp only [Event.apply]
    by_cases hp : i.val = pid
    · subst hp
      rw [update_panels_self s i.val i.isLt t]
      exact hupd _ _ _ _ _ h
    · rw [update_panels_other s pid t i hp]
      exact h
  | ground_command pid cmd =>
    simp only [Event.apply, process_ground_command]
    split <;> exact h
  | init_panel pid P_nom V_nom =>
    simp only [Event.apply, eps_protection_init_panel]
    split
    · exact h
    · by_cases hp : i.val = pid
      · subst hp
        simp only [Fin.eta, Function.update_same]
        exact hnom _ _ _ h
      · have hne : i ≠ ⟨pid, by omega⟩ := fun hh => hp (by rw [hh])
        simp only [Function.update_noteq hne]
        exact h

theorem run_panel_invariant (Q : PanelProtection_t → Prop)
    (hupd : ∀ pid p cmd re t, Q p → Q (update_panel pid p cmd re t).panel)
    (hnom : ∀ (p : PanelProtection_t) (Pn Vn : ℚ),
      Q p → Q { p with P_nominal := Pn, V_nominal := Vn })
    (i : Fin NUM_PANELS) :
    ∀ (es : List Event) (s : System), Q (s.panels i) → Q ((run s es).panels i) := by
  intro es
  induction es with
  | nil => intro s h; exact h
  | cons e es ih =>
    intro s h
    have hcons : run s (e :: es) = run (e.apply s) es := rfl
    rw [hcons]
    exact ih _ (apply_panel_invariant Q hupd hnom s e i h)

theorem update_panel_keeps_hardware_tripped (pid : Nat) (p : PanelProtection_t)
    (cmd : GroundCommand_t) (re : Bool) (t : Tick) (h : p.hardware_tripped = true) :
    (update_panel pid p cmd re t).panel.hardware_tripped = true := by
  unfold update_panel
  cases hs : p.state
  · simp only [case_disabled]
    split <;> simp [h]
  · simp only [case_enabled, case_enabled_chain, case_enabled_timeout]
    split <;> split <;> (try split) <;> (try split) <;> simp [h]
  · simp only [case_tripped]
    split <;> split <;> simp [h]
  · simp only [case_recovery]
    split <;> (try split) <;> simp [h]

theorem update_panel_stable_count (pid : Nat) (p : PanelProtection_t)
    (cmd : GroundCommand_t) (re : Bool) (t : Tick)
    (h : (p.state = COMP_ENABLED → p.stable_count < STABLE_REQUIRED) ∧
      (p.state = COMP_RECOVERY → p.stable_count < RECOVERY_STABLE_REQ) ∧
      p.stable_count < 24) :
    ((update_panel pid p cmd re t).panel.state = COMP_ENABLED →
      (update_panel pid p cmd re t).panel.stable_count < STABLE_REQUIRED) ∧
    ((update_panel pid p cmd re t).panel.state = COMP_RECOVERY →
      (update_panel pid p cmd re t).panel.stable_count < RECOVERY_STABLE_REQ) ∧
    (update_panel pid p cmd re t).panel.stable_count < 24 := by
  obtain ⟨h1, h2, h3⟩ := h
  simp only [STABLE_REQUIRED, RECOVERY_STABLE_REQ] at h1 h2 ⊢
  unfold update_panel
  cases hs : p.state
  · simp only [case_disabled]
    split <;> simp [hs, h3]
  · have h6 := h1 hs
    have hu : u8 (p.stable_count + 1) = p.stable_count + 1 := by
      simp only [u8]; omega
    simp only [case_enabled, case_enabled_chain, case_enabled_timeout, STABLE_REQUIRED, hu]
    split <;> split <;> (try split) <;> (try split) <;> simp [hs] <;> omega
  · simp only [case_tripped]
    split <;> split <;> simp [hs, h3]
  · have h24 := h2 hs
    have hu : u8 (p.stable_count + 1) = p.stable_count + 1 := by
      simp only [u8]; omega
    simp only [case_recovery, RECOVERY_STABLE_REQ, hu]
    split <;> (try split) <;> (simp [hs]; try omega)

theorem case_enabled_chain_keeps_tripped (pid : Nat) (p : PanelProtection_t) (a : Bool)
    (P V : ℚ) (tick : Nat) (m : Bool) (h : p.hardware_tripped = true) :
    (case_enabled_chain pid p a P V tick m).1.hardware_tripped = true := by
  unfold case_enabled_chain
  dsimp only
  split_ifs <;> simp [h]

theorem case_enabled_timeout_of_tripped (pid : Nat) (p : PanelProtection_t) (tick : Nat)
    (h : p.hardware_tripped = true) : case_enabled_timeout pid p tick = (p, []) := by
  simp [case_enabled_timeout, h]

theorem update_panel_enabled_after_trip (pid : Nat) (p : PanelProtection_t)
    (cmd : GroundCommand_t) (re : Bool) (t : Tick)
    (hs : p.state = COMP_ENABLED) (ht : p.hardware_tripped = true) :
    (update_panel pid p cmd re t).panel =
      (case_enabled_chain pid { p with P_prev := t.P_measured, V_prev := t.V_measured }
        (anomaly_detected p t.P_measured t.V_measured t.P_predicted t.V_predicted)
        t.P_measured t.V_measured t.tick t.mosfet_open).1 ∧
    (update_panel pid p cmd re t).calls =
      HwCall.check_mosfet_status pid ::
        (case_enabled_chain pid { p with P_prev := t.P_measured, V_prev := t.V_measured }
          (anomaly_detected p t.P_measured t.V_measured t.P_predicted t.V_predicted)
          t.P_measured t.V_measured t.tick t.mosfet_open).2 := by
  have hk := case_enabled_chain_keeps_tripped pid
    { p with P_prev := t.P_measured, V_prev := t.V_measured }
    (anomaly_detected p t.P_measured t.V_measured t.P_predicted t.V_predicted)
    t.P_measured t.V_measured t.tick t.mosfet_open ht
  simp only [update_panel, hs, case_enabled]
  simp only [hs] at hk
  rw [case_enabled_timeout_of_tripped _ _ _ hk]
  simp

/-- C33 (hardware_tripped is never cleared): when a panel in ENABLED sees the
MOSFET open it enters TRIPPED with hardware_tripped = true, and after any
further calls (updates of any panel, ground commands, panel configuration)
hardware_tripped is still true, also once the panel is back in DISABLED or
ENABLED.  From then on the timeout block of ENABLED does nothing: an update of
the panel in ENABLED leaves exactly what the MOSFET chain leaves and makes only
the chain calls, whatever the time since Layer 2 was enabled.  The starting
state is arbitrary, so this covers every run from eps_protection_init. -/
theorem C33_hardware_tripped_never_cleared (s : System) (pid : Nat) (h : pid < NUM_PANELS)
    (t : Tick) (es : List Event) (t2 : Tick)
    (hs : (s.panels ⟨pid, h⟩).state = COMP_ENABLED) (hm : t.mosfet_open = true) :
    ((eps_protection_update s pid t).panels ⟨pid, h⟩).state = COMP_TRIPPED ∧
    ((run (eps_protection_update s pid t) es).panels ⟨pid, h⟩).hardware_tripped = true ∧
    (((run (eps_protection_update s pid t) es).panels ⟨pid, h⟩).state = COMP_ENABLED →
      (eps_protection_update (run (eps_protection_update s pid t) es) pid t2).panels ⟨pid, h⟩ =
        (case_enabled_chain pid
          { (run (eps_protection_update s pid t) es).panels ⟨pid, h⟩ with
            P_prev := t2.P_measured, V_prev := t2.V_measured }
          (anomalous (run (eps_protection_update s pid t) es) ⟨pid, h⟩ t2)
          t2.P_measured t2.V_measured t2.tick t2.mosfet_open).1 ∧
      (eps_protection_update (run (eps_protection_update s pid t) es) pid t2).calls =
        (run (eps_protection_update s pid t) es).calls ++
          HwCall.check_mosfet_status pid ::
            (case_enabled_chain pid
              { (run (eps_protection_update s pid t) es).panels ⟨pid, h⟩ with
                P_prev := t2.P_measured, V_prev := t2.V_measured }
              (anomalous (run (eps_protection_update s pid t) es) ⟨pid, h⟩ t2)
              t2.P_measured t2.V_measured t2.tick t2.mosfet_open).2) := by
  have htrip : ((eps_protection_update s pid t).panels ⟨pid, h⟩).state = COMP_TRIPPED ∧
      ((eps_protection_update s pid t).panels ⟨pid, h⟩).hardware_tripped = true := by
    rw [update_panels_self]
    simp [update_panel, hs, case_enabled, case_enabled_chain, case_enabled_timeout, hm]
  have hlater := run_panel_invariant (fun p => p.hardware_tripped = true)
    (fun pid p cmd re t hp => update_panel_keeps_hardware_tripped pid p cmd re t hp)
    (fun _ _ _ hp => hp) ⟨pid, h⟩ es (eps_protection_update s pid t) htrip.2
  refine ⟨htrip.1, hlater, ?_⟩
  intro hen
  rw [update_panels_self, update_calls _ pid h t2]
  have := update_panel_enabled_after_trip pid
    ((run (eps_protection_update s pid t) es).panels ⟨pid, h⟩)
    ((run (eps_protection_update s pid t) es).ground_commands ⟨pid, h⟩)
    (decide ((run (eps_protection_update s pid t) es).ground_commands ⟨pid, h⟩ = CMD_REENABLE))
    t2 hen hlater
  exact ⟨this.1, by rw [this.2]; rfl⟩

theorem C33_hardware_tripped_never_cleared_witness :
    ((eps_protection_update (eps_protection_init power_on) 0 (fault_tick 0)).panels
      ⟨0, by decide⟩).state = COMP_ENABLED ∧
    (open_tick 5000).mosfet_open = true ∧
    ((run (eps_protection_update
        (eps_protection_update (eps_protection_init power_on) 0 (fault_tick 0)) 0
        (open_tick 5000)) recover_and_enable).panels ⟨0, by decide⟩).state = COMP_ENABLED ∧
    ((run (eps_protection_update
        (eps_protection_update (eps_protection_init power_on) 0 (fault_tick 0)) 0
        (open_tick 5000)) recover_and_enable).panels ⟨0, by decide⟩).hardware_tripped = true ∧
    ((eps_protection_update (run (eps_protection_update
        (eps_protection_update (eps_protection_init power_on) 0 (fault_tick 0)) 0
        (open_tick 5000)) recover_and_enable) 0 (fault_tick 600000)).panels
      ⟨0, by decide⟩).state = COMP_ENABLED ∧
    (eps_protection_update (run (eps_protection_update
        (eps_protection_update (eps_protection_init power_on) 0 (fault_tick 0)) 0
        (open_tick 5000)) recover_and_enable) 0 (fault_tick 600000)).panels ⟨0, by decide⟩ =
      (case_enabled_chain 0
        { (run (eps_protection_update
            (eps_protection_update (eps_protection_init power_on) 0 (fault_tick 0)) 0
            (open_tick 5000)) recover_and_enable).panels ⟨0, by decide⟩ with
          P_prev := (fault_tick 600000).P_measured, V_prev := (fault_tick 600000).V_measured }
        (anomalous (run (eps_protection_update
            (eps_protection_update (eps_protection_init power_on) 0 (fault_tick 0)) 0
            (open_tick 5000)) recover_and_enable) ⟨0, by decide⟩ (fault_tick 600000))
        (fault_tick 600000).P_measured (fault_tick 600000).V_measured
        (fault_tick 600000).tick (fault_tick 600000).mosfet_open).1 :=
  ⟨by decide!, rfl, by decide!,
    (C33_hardware_tripped_never_cleared
      (eps_protection_update (eps_protection_init power_on) 0 (fault_tick 0)) 0 (by decide)
      (open_tick 5000) recover_and_enable (fault_tick 600000) (by decide!) rfl).2.1,
    by decide!,
    ((C33_hardware_tripped_never_cleared
      (eps_protection_update (eps_protection_init power_on) 0 (fault_tick 0)) 0 (by decide)
      (open_tick 5000) recover_and_enable (fault_tick 600000) (by decide!) rfl).2.2
        (by decide!)).1⟩

/-- C36 (stable_count stays in range): in every state reached from
eps_protection_init by any calls (updates of any panel with any inputs, ground
commands, panel configuration) every panel in ENABLED has stable_count <
STABLE_REQUIRED = 6 and every panel in RECOVERY has stable_count <
RECOVERY_STABLE_REQ = 24; in every state stable_count is below 24, so
incrementing the 8-bit counter never wraps. -/
theorem C36_stable_count_bounded (s0 : System) (es : List Event) (i : Fin NUM_PANELS) :
    (((run (eps_protection_init s0) es).panels i).state = COMP_ENABLED →
      ((run (eps_protection_init s0) es).panels i).stable_count < STABLE_REQUIRED) ∧
    (((run (eps_protection_init s0) es).panels i).state = COMP_RECOVERY →
      ((run (eps_protection_init s0) es).panels i).stable_count < RECOVERY_STABLE_REQ) ∧
    ((run (eps_protection_init s0) es).panels i).stable_count < 24 ∧
    u8 (((run (eps_protection_init s0) es).panels i).stable_count + 1) =
      ((run (eps_protection_init s0) es).panels i).stable_count + 1 := by
  have hinv := run_panel_invariant
    (fun p => (p.state = COMP_ENABLED → p.stable_count < STABLE_REQUIRED) ∧
      (p.state = COMP_RECOVERY → p.stable_count < RECOVERY_STABLE_REQ) ∧
      p.stable_count < 24)
    (fun pid p cmd re t hp => update_panel_stable_count pid p cmd re t hp)
    (fun _ _ _ hp => hp) i es (eps_protection_init s0)
    (by simp [eps_protection_init, init_panel_value, STABLE_REQUIRED, RECOVERY_STABLE_REQ])
  refine ⟨hinv.1, hinv.2.1, hinv.2.2, ?_⟩
  have := hinv.2.2
  simp only [u8]
  omega

theorem C36_stable_count_bounded_witness :
    ((run (eps_protection_init power_on) (late_sixth_clean_tick.take 6)).panels
      ⟨0, by decide⟩).state = COMP_ENABLED ∧
    ((run (eps_protection_init power_on) (late_sixth_clean_tick.take 6)).panels
      ⟨0, by decide⟩).stable_count = 5 ∧
    ((run (eps_protection_init power_on) (late_sixth_clean_tick.take 6)).panels
      ⟨0, by decide⟩).stable_count < STABLE_REQUIRED :=
  ⟨by decide!, by decide!,
    (C36_stable_count_bounded power_on (late_sixth_clean_tick.take 6) ⟨0, by decide⟩).1
      (by decide!)⟩

/-- Exact-arithmetic reading of the first update: right after eps_protection_init,
where P_prev = V_prev = 0, in the model without rounding high_dynamics holds
exactly when |P_measured| > 2.5 and |V_measured| > 1.5; for the sample (8.4 W,
17.5 V) it holds, and any one of power_spike, voltage_drop, large_residual then
makes the tick anomalous and moves the panel from DISABLED to ENABLED on that
call, with enable_count 1. -/
theorem exact_first_update_high_dynamics (s0 : System) (pid : Nat) (h : pid < NUM_PANELS)
    (t : Tick) :
    (high_dynamics ((eps_protection_init s0).panels ⟨pid, h⟩) t.P_measured t.V_measured = true ↔
      |t.P_measured| > 5 / 2 ∧ |t.V_measured| > 3 / 2) ∧
    ((eps_protection_init s0).panels ⟨pid, h⟩).state = COMP_DISABLED ∧
    (t.P_measured = 84 / 10 → t.V_measured = 175 / 10 →
      (power_spike ((eps_protection_init s0).panels ⟨pid, h⟩) t.P_predicted = true ∨
        voltage_drop t.V_measured t.V_predicted = true ∨
        large_residual t.P_measured t.P_predicted = true) →
      high_dynamics ((eps_protection_init s0).panels ⟨pid, h⟩) t.P_measured t.V_measured =
        true ∧
      ((eps_protection_update (eps_protection_init s0) pid t).panels ⟨pid, h⟩).state =
        COMP_ENABLED ∧
      ((eps_protection_update (eps_protection_init s0) pid t).panels ⟨pid, h⟩).enable_count =
        1) := by
  have hiff : high_dynamics ((eps_protection_init s0).panels ⟨pid, h⟩) t.P_measured
      t.V_measured = true ↔ |t.P_measured| > 5 / 2 ∧ |t.V_measured| > 3 / 2 := by
    rw [high_dynamics_iff]
    simp only [eps_protection_init, init_panel_value, sub_zero]
    constructor
    · rintro ⟨a, b⟩
      constructor
      · norm_num at a ⊢; linarith
      · norm_num at b ⊢; linarith
    · rintro ⟨a, b⟩
      constructor
      · norm_num at a ⊢; linarith
      · norm_num at b ⊢; linarith
  refine ⟨hiff, rfl, ?_⟩
  intro hP hV hone
  have hhd : high_dynamics ((eps_protection_init s0).panels ⟨pid, h⟩) t.P_measured
      t.V_measured = true := by
    rw [hiff, hP, hV]
    constructor <;> norm_num [abs_of_pos]
  have ha : anomaly_detected ((eps_protection_init s0).panels ⟨pid, h⟩) t.P_measured
      t.V_measured t.P_predicted t.V_predicted = true := by
    simp only [anomaly_detected, condition_count, hhd]
    rcases hone with h1 | h1 | h1 <;> rw [h1]
    · cases voltage_drop t.V_measured t.V_predicted <;>
        cases large_residual t.P_measured t.P_predicted <;> decide
    · cases power_spike ((eps_protection_init s0).panels ⟨pid, h⟩) t.P_predicted <;>
        cases large_residual t.P_measured t.P_predicted <;> decide
    · cases power_spike ((eps_protection_init s0).panels ⟨pid, h⟩) t.P_predicted <;>
        cases voltage_drop t.V_measured t.V_predicted <;> decide
  refine ⟨hhd, ?_, ?_⟩
  · rw [update_panels_self]
    have hs : ((eps_protection_init s0).panels ⟨pid, h⟩).state = COMP_DISABLED := rfl
    simp [update_panel, hs, case_disabled, ha]
  · rw [update_panels_self]
    have hs : ((eps_protection_init s0).panels ⟨pid, h⟩).state = COMP_DISABLED := rfl
    have he : ((eps_protection_init s0).panels ⟨pid, h⟩).enable_count = 0 := rfl
    simp [update_panel, hs, case_disabled, ha, he, u32]

/-! ## P² estimator: the adjustment step in detail -/

theorem p2_adjust_eq (p2 : P2Quantile) (i : Nat) :
    p2_adjust p2 i =
      if (p2.n_markers i - (p2.n_actual i : ℚ) ≥ 1 ∧
            u32_sub (p2.n_actual (i + 1)) (p2.n_actual i) > 1) ∨
          (p2.n_markers i - (p2.n_actual i : ℚ) ≤ -1 ∧
            u32_sub (p2.n_actual (i - 1)) (p2.n_actual i) < 4294967295) then
        { p2 with
          q := Function.update p2.q i
            (if p2.q (i - 1) <
                  p2_parabolic p2 i (if p2.n_markers i - (p2.n_actual i : ℚ) ≥ 0 then 1 else -1) ∧
                p2_parabolic p2 i (if p2.n_markers i - (p2.n_actual i : ℚ) ≥ 0 then 1 else -1) <
                  p2.q (i + 1) then
              p2_parabolic p2 i (if p2.n_markers i - (p2.n_actual i : ℚ) ≥ 0 then 1 else -1)
            else p2_linear p2 i (if p2.n_markers i - (p2.n_actual i : ℚ) ≥ 0 then 1 else -1))
          n_actual := Function.update p2.n_actual i
            (u32_of_int ((p2.n_actual i : Int) +
              (if p2.n_markers i - (p2.n_actual i : ℚ) ≥ 0 then 1 else -1))) }
      else p2 := rfl

theorem p2_update_steady (p2 : P2Quantile) (x : ℚ) (hc : p2.init_count = 5) :
    p2_update p2 x = p2_adjust (p2_at_marker p2 x 3) 3 ∧
    p2_at_marker p2 x 3 = p2_adjust (p2_at_marker p2 x 2) 2 ∧
    p2_at_marker p2 x 2 = p2_adjust (p2_at_marker p2 x 1) 1 ∧
    p2_at_marker p2 x 1 = p2_locate p2 x := by
  refine ⟨?_, rfl, rfl, rfl⟩
  simp [p2_update, hc, p2_at_marker, List.range']

theorem p2_at_marker_inv (p2 : P2Quantile) (x : ℚ) (h : P2Inv p2)
    (hn : p2.n + 1 < 4294967296) (i : Nat) (hi : i = 1 ∨ i = 2 ∨ i = 3) :
    P2Inv (p2_at_marker p2 x i) ∧ (p2_at_marker p2 x i).n = p2.n + 1 := by
  obtain ⟨l1, l2, l3, l4, l5, l6, l7, l8, l9, l10, l11, l12, l13, _⟩ := p2_locate_inv p2 x h hn
  have h0 : P2Inv (p2_locate p2 x) :=
    ⟨l1, l2, l3, l4, l5, l6, l7, l8, l9, l10, l11, by rw [l12, l13]⟩
  have a1 := p2_adjust_inv (p2_locate p2 x) 1 (Or.inl rfl) h0 (by rw [l13]; exact hn)
  have a2 := p2_adjust_inv _ 2 (Or.inr (Or.inl rfl)) a1.1 (by rw [a1.2.1, l13]; exact hn)
  rcases hi with hi | hi | hi <;> subst hi
  · exact ⟨h0, l13⟩
  · exact ⟨a1.1, by rw [← l13, ← a1.2.1]; rfl⟩
  · exact ⟨a2.1, by rw [← l13, ← a1.2.1, ← a2.2.1]; rfl⟩

theorem P2Inv_denominators (st : P2Quantile) (h : P2Inv st) (hn : st.n < 4294967296)
    (i : Nat) (hi : i = 1 ∨ i = 2 ∨ i = 3) :
    u32_sub (st.n_actual (i + 1)) (st.n_actual (i - 1)) ≠ 0 ∧
    u32_sub (st.n_actual (i + 1)) (st.n_actual i) ≠ 0 ∧
    u32_sub (st.n_actual i) (st.n_actual (i - 1)) ≠ 0 ∧
    u32_sub (st.n_actual (i - 1)) (st.n_actual i) ≠ 0 := by
  obtain ⟨_, _, _, _, _, _, n01, n12, n23, n34, _, n4⟩ := h
  rw [← n4] at hn
  simp only [u32_sub]
  rcases hi with hi | hi | hi <;> subst hi <;> simp only [Nat.reduceAdd, Nat.reduceSub] <;>
    refine ⟨?_, ?_, ?_, ?_⟩ <;> omega

theorem p2_linear_up (p2 : P2Quantile) (i : Nat)
    (h1 : p2.n_actual i < p2.n_actual (i + 1)) (h2 : p2.n_actual (i + 1) < 4294967296) :
    p2_linear p2 i 1 = linear_signed p2 i 1 := by
  have hi : ((i : Int) + 1).toNat = i + 1 := by omega
  have hd : (u32_sub (p2.n_actual (i + 1)) (p2.n_actual i) : ℚ) =
      (((p2.n_actual (i + 1) : Int) - (p2.n_actual i : Int) : Int) : ℚ) := by
    have : ((u32_sub (p2.n_actual (i + 1)) (p2.n_actual i) : Nat) : Int) =
        (p2.n_actual (i + 1) : Int) - (p2.n_actual i : Int) := by
      simp only [u32_sub]
      omega
    rw [← this]
    norm_cast
  simp only [p2_linear, linear_signed, hi, hd]

theorem p2_linear_down (p2 : P2Quantile) (i : Nat) (hi : 1 ≤ i)
    (h1 : p2.n_actual (i - 1) < p2.n_actual i) (h2 : p2.n_actual i < 4294967296) :
    p2_linear p2 i (-1) =
      p2.q i + (p2.q i - p2.q (i - 1)) /
        (4294967296 - ((p2.n_actual i : ℚ) - (p2.n_actual (i - 1) : ℚ))) ∧
    linear_signed p2 i (-1) =
      p2.q i - (p2.q i - p2.q (i - 1)) / ((p2.n_actual i : ℚ) - (p2.n_actual (i - 1) : ℚ)) := by
  have hidx : ((i : Int) + -1).toNat = i - 1 := by omega
  have hd : (u32_sub (p2.n_actual (i - 1)) (p2.n_actual i) : ℚ) =
      4294967296 - ((p2.n_actual i : ℚ) - (p2.n_actual (i - 1) : ℚ)) := by
    have : ((u32_sub (p2.n_actual (i - 1)) (p2.n_actual i) : Nat) : Int) =
        4294967296 - ((p2.n_actual i : Int) - (p2.n_actual (i - 1) : Int)) := by
      simp only [u32_sub]
      omega
    have hq : ((u32_sub (p2.n_actual (i - 1)) (p2.n_actual i) : Nat) : ℚ) =
        (((u32_sub (p2.n_actual (i - 1)) (p2.n_actual i) : Nat) : Int) : ℚ) := by norm_cast
    rw [hq, this]
    push_cast
    ring
  constructor
  · simp only [p2_linear, hidx, hd]
    push_cast
    ring
  · simp only [linear_signed, hidx]
    push_cast
    have hne : (p2.n_actual (i - 1) : ℚ) - (p2.n_actual i : ℚ) ≠ 0 := by
      have : (p2.n_actual (i - 1) : ℚ) < (p2.n_actual i : ℚ) := by exact_mod_cast h1
      linarith
    have hne2 : (p2.n_actual i : ℚ) - (p2.n_actual (i - 1) : ℚ) ≠ 0 := by
      have : (p2.n_actual (i - 1) : ℚ) < (p2.n_actual i : ℚ) := by exact_mod_cast h1
      linarith
    field_simp
    ring

/-- C31 fails in the code for the direction s = −1.  With p = 0.1 and the samples
0, 0, 0, 2, 6, 0, the sixth update reaches marker 3 with heights q[2] = 0,
q[3] = 2, positions n[2] = 3, n[3] = 5 and ideal position 4, so d = −1 and the
marker is adjusted downwards; the parabolic prediction is 0, not above q[2], so
the linear fallback is taken.  With the signed difference n[2] − n[3] = −2 the
new height would be 1; the code divides by the uint32 difference 2^32 − 2 and
stores 2 + 2/(2^32 − 2) = 4294967295/2147483647.  n_actual[3] becomes 4 as
claimed. -/
theorem C31_downward_linear_step_uses_wrapped_difference :
    (p2_at_marker p2_small_quantile 0 3).q 2 = 0 ∧
    (p2_at_marker p2_small_quantile 0 3).q 3 = 2 ∧
    (p2_at_marker p2_small_quantile 0 3).n_actual 2 = 3 ∧
    (p2_at_marker p2_small_quantile 0 3).n_actual 3 = 5 ∧
    (p2_at_marker p2_small_quantile 0 3).n_markers 3 -
      ((p2_at_marker p2_small_quantile 0 3).n_actual 3 : ℚ) = -1 ∧
    u32_sub ((p2_at_marker p2_small_quantile 0 3).n_actual 2)
      ((p2_at_marker p2_small_quantile 0 3).n_actual 3) = 4294967294 ∧
    p2_parabolic (p2_at_marker p2_small_quantile 0 3) 3 (-1) = 0 ∧
    linear_signed (p2_at_marker p2_small_quantile 0 3) 3 (-1) = 1 ∧
    p2_update p2_small_quantile 0 = p2_adjust (p2_at_marker p2_small_quantile 0 3) 3 ∧
    (p2_update p2_small_quantile 0).q 3 = 4294967295 / 2147483647 ∧
    (p2_update p2_small_quantile 0).q 3 ≠
      linear_signed (p2_at_marker p2_small_quantile 0 3) 3 (-1) ∧
    (p2_update p2_small_quantile 0).n_actual 3 = 4 := by
  refine ⟨by decide!, by decide!, by decide!, by decide!, by decide!, by decide!, by decide!,
    by decide!, (p2_update_steady p2_small_quantile 0 (by decide!)).1, by decide!, by decide!,
    by decide!⟩

/-- C32 (no zero denominator): for every state reached from p2_init by at least 5
and fewer than 2^32 − 1 calls of p2_update, and every next sample, when the
adjustment loop reaches marker i (i = 1, 2, 3) the uint32 differences
n[i+1] − n[i−1], n[i+1] − n[i], n[i] − n[i−1] and, for the downward linear step,
n[i−1] − n[i] are all non-zero, so no division of the parabolic or linear step
has a zero denominator.  (During the first five calls no adjustment is made.) -/
theorem C32_no_zero_denominator (p2 : P2Quantile) (p : ℚ) (xs : List ℚ) (x : ℚ) (i : Nat)
    (h5 : 5 ≤ xs.length) (hlen : xs.length + 1 < 2 ^ 32) (hi : i = 1 ∨ i = 2 ∨ i = 3) :
    p2_update (p2_updates (p2_init p2 p) xs) x =
      p2_adjust (p2_adjust (p2_adjust (p2_at_marker (p2_updates (p2_init p2 p) xs) x 1) 1) 2)
        3 ∧
    u32_sub ((p2_at_marker (p2_updates (p2_init p2 p) xs) x i).n_actual (i + 1))
      ((p2_at_marker (p2_updates (p2_init p2 p) xs) x i).n_actual (i - 1)) ≠ 0 ∧
    u32_sub ((p2_at_marker (p2_updates (p2_init p2 p) xs) x i).n_actual (i + 1))
      ((p2_at_marker (p2_updates (p2_init p2 p) xs) x i).n_actual i) ≠ 0 ∧
    u32_sub ((p2_at_marker (p2_updates (p2_init p2 p) xs) x i).n_actual i)
      ((p2_at_marker (p2_updates (p2_init p2 p) xs) x i).n_actual (i - 1)) ≠ 0 ∧
    u32_sub ((p2_at_marker (p2_updates (p2_init p2 p) xs) x i).n_actual (i - 1))
      ((p2_at_marker (p2_updates (p2_init p2 p) xs) x i).n_actual i) ≠ 0 := by
  norm_num at hlen
  obtain ⟨hinv, hn⟩ := p2_reachable_inv p2 p xs h5 (by omega)
  have hst := p2_at_marker_inv (p2_updates (p2_init p2 p) xs) x hinv (by rw [hn]; exact hlen)
    i hi
  obtain ⟨s3, s2, s1, _⟩ := p2_update_steady (p2_updates (p2_init p2 p) xs) x hinv.2.1
  refine ⟨by rw [s3, s2, s1], ?_⟩
  exact P2Inv_denominators _ hst.1 (by rw [hst.2, hn]; exact hlen) i hi

theorem C32_no_zero_denominator_witness :
    5 ≤ [(0 : ℚ), 0, 0, 2, 6].length ∧ [(0 : ℚ), 0, 0, 2, 6].length + 1 < 2 ^ 32 ∧
    u32_sub ((p2_at_marker (p2_updates (p2_init p2_zero (1 / 10)) [0, 0, 0, 2, 6]) 0
        3).n_actual (3 - 1))
      ((p2_at_marker (p2_updates (p2_init p2_zero (1 / 10)) [0, 0, 0, 2, 6]) 0 3).n_actual 3)
      ≠ 0 :=
  ⟨by decide, by norm_num,
    (C32_no_zero_denominator p2_zero (1 / 10) [0, 0, 0, 2, 6] 0 3 (by decide) (by norm_num)
      (Or.inr (Or.inr rfl))).2.2.2.2⟩

theorem p2_adjust_const (p2 : P2Quantile) (i : Nat) (c : ℚ) (hi : 1 ≤ i)
    (hm : p2.q (i - 1) = c) (h0 : p2.q i = c) (hp : p2.q (i + 1) = c) :
    (p2_adjust p2 i).q = p2.q ∧ (p2_adjust p2 i).init_count = p2.init_count ∧
    (p2_adjust p2 i).initialized = p2.initialized := by
  have hpar : ∀ ds : Int, p2_parabolic p2 i ds = c := by
    intro ds
    simp [p2_parabolic, hm, h0, hp]
  have hup : p2_linear p2 i 1 = c := by
    have : ((i : Int) + 1).toNat = i + 1 := by omega
    simp [p2_linear, this, h0, hp]
  have hdown : p2_linear p2 i (-1) = c := by
    have : ((i : Int) + -1).toNat = i - 1 := by omega
    simp [p2_linear, this, h0, hm]
  have hupd : Function.update p2.q i c = p2.q := by
    rw [← h0]
    exact Function.update_eq_self i p2.q
  rw [p2_adjust_eq]
  by_cases hd : p2.n_markers i - (p2.n_actual i : ℚ) ≥ 0
  · simp only [hd, if_true, hpar, hup, ite_self, hupd]
    split_ifs <;> exact ⟨rfl, rfl, rfl⟩
  · simp only [hd, if_false, hpar, hdown, ite_self, hupd]
    split_ifs <;> exact ⟨rfl, rfl, rfl⟩

theorem p2_update_const (p2 : P2Quantile) (c : ℚ) (hc : p2.init_count = 5)
    (hq : ∀ i, i < 5 → p2.q i = c) :
    (∀ i, i < 5 → (p2_update p2 c).q i = c) ∧ (p2_update p2 c).init_count = 5 ∧
    (p2_update p2 c).initialized = p2.initialized := by
  obtain ⟨s3, s2, s1, s0⟩ := p2_update_steady p2 c hc
  have hl : (∀ i, i < 5 → (p2_locate p2 c).q i = c) ∧ (p2_locate p2 c).init_count = 5 ∧
      (p2_locate p2 c).initialized = p2.initialized := by
    have h00 : ¬ c < p2.q 0 := by rw [hq 0 (by norm_num)]; exact lt_irrefl c
    have h44 : c ≥ p2.q 4 := by rw [hq 4 (by norm_num)]
    refine ⟨?_, hc, rfl⟩
    intro i hi
    simp only [p2_locate, h00, h44, if_false, if_true]
    by_cases h4 : i = 4
    · subst h4; simp
    · rw [Function.update_noteq h4]; exact hq i hi
  have a1 := p2_adjust_const (p2_locate p2 c) 1 c (le_refl _) (hl.1 0 (by norm_num))
    (hl.1 1 (by norm_num)) (hl.1 2 (by norm_num))
  have q1 : ∀ i, i < 5 → (p2_adjust (p2_locate p2 c) 1).q i = c := by
    intro i hi; rw [a1.1]; exact hl.1 i hi
  have a2 := p2_adjust_const (p2_adjust (p2_locate p2 c) 1) 2 c (by norm_num)
    (q1 1 (by norm_num)) (q1 2 (by norm_num)) (q1 3 (by norm_num))
  have q2 : ∀ i, i < 5 → (p2_adjust (p2_adjust (p2_locate p2 c) 1) 2).q i = c := by
    intro i hi; rw [a2.1]; exact q1 i hi
  have a3 := p2_adjust_const (p2_adjust (p2_adjust (p2_locate p2 c) 1) 2) 3 c (by norm_num)
    (q2 2 (by norm_num)) (q2 3 (by norm_num)) (q2 4 (by norm_num))
  rw [s3, s2, s1, s0]
  refine ⟨?_, by rw [a3.2.1, a2.2.1, a1.2.1, hl.2.1], by rw [a3.2.2, a2.2.2, a1.2.2, hl.2.2]⟩
  intro i hi
  rw [a3.1]
  exact q2 i hi

theorem p2_updates_const (c : ℚ) :
    ∀ (k : Nat) (p2 : P2Quantile), p2.init_count = 5 → (∀ i, i < 5 → p2.q i = c) →
      (∀ i, i < 5 → (p2_updates p2 (List.replicate k c)).q i = c) ∧
      (p2_updates p2 (List.replicate k c)).initialized = p2.initialized := by
  intro k
  induction k with
  | zero => intro p2 _ hq; exact ⟨hq, rfl⟩
  | succ k ih =>
    intro p2 hc hq
    have hcons : p2_updates p2 (List.replicate (k + 1) c) =
        p2_updates (p2_update p2 c) (List.replicate k c) := rfl
    obtain ⟨u1, u2, u3⟩ := p2_update_const p2 c hc hq
    have := ih (p2_update p2 c) u2 u1
    rw [hcons]
    exact ⟨this.1, by rw [this.2, u3]⟩

theorem p2_five_const (p2 : P2Quantile) (p c : ℚ) :
    ∀ i, i < 5 → (p2_updates (p2_init p2 p) [c, c, c, c, c]).q i = c := by
  intro i hi
  obtain ⟨hq, _⟩ := p2_five_samples p2 p c c c c c
  obtain ⟨_, hperm⟩ := p2_sort_buffer_five c c c c c
  have hlen : i < (p2_sort_buffer [c, c, c, c, c] 5).length := by
    rw [hperm.length_eq]; exact hi
  rw [hq i hi, List.getD_eq_getElem _ _ hlen]
  have hmem := hperm.mem_iff.mp (List.getElem_mem hlen)
  simpa using hmem

/-- C37 (constant input): if every sample fed to p2_update after p2_init equals c
and there are at least 5 of them, all five marker heights equal c and
p2_get_quantile returns c, for every p (in particular every p in (0,1)) and
every prior content of the struct.  Every prefix of length at least 5 is such a
sequence, so this holds after every update from the 5th on. -/
theorem C37_constant_input (p2 : P2Quantile) (p c : ℚ) (xs : List ℚ)
    (hall : ∀ x ∈ xs, x = c) (h5 : 5 ≤ xs.length) :
    (∀ i, i < 5 → (p2_updates (p2_init p2 p) xs).q i = c) ∧
    p2_get_quantile (p2_updates (p2_init p2 p) xs) = c := by
  have hrep : xs = List.replicate 5 c ++ List.replicate (xs.length - 5) c := by
    rw [← List.replicate_add]
    have : 5 + (xs.length - 5) = xs.length := by omega
    rw [this]
    exact List.eq_replicate_iff.mpr ⟨rfl, hall⟩
  have hfive : List.replicate 5 c = [c, c, c, c, c] := rfl
  obtain ⟨_, _, _, _, _, _, _, _, hI, hC, _⟩ := p2_five_samples p2 p c c c c c
  have hrest := p2_updates_const c (xs.length - 5)
    (p2_updates (p2_init p2 p) [c, c, c, c, c]) hC (p2_five_const p2 p c)
  rw [hrep, p2_updates_append, hfive]
  refine ⟨hrest.1, ?_⟩
  simp only [p2_get_quantile, hrest.2, hI, if_true]
  exact hrest.1 2 (by norm_num)

theorem C37_constant_input_witness :
    (∀ x ∈ List.replicate 9 (7 / 2 : ℚ), x = 7 / 2) ∧
    5 ≤ (List.replicate 9 (7 / 2 : ℚ)).length ∧
    p2_get_quantile (p2_updates (p2_init p2_zero (99 / 100)) (List.replicate 9 (7 / 2))) =
      7 / 2 :=
  ⟨fun _ hx => (List.mem_replicate.mp hx).2, by decide,
    (C37_constant_input p2_zero (99 / 100) (7 / 2) (List.replicate 9 (7 / 2))
      (fun _ hx => (List.mem_replicate.mp hx).2) (by decide)).2⟩

/-- C35 (the lag-13 guard never fires): after eps_init_buffers and any number of
eps_update_buffers calls buffer_index is below 13, so the guard idx ≥ 13 of
eps_extract_power_features is false and features_out[9] equals
features_out[4], whatever the samples and the prior content of features_out. -/
theorem C35_lag13_guard_never_fires (b0 : EPS_FeatureBuffers) (xs : List (ℚ × ℚ))
    (f : Nat → ℚ) :
    (eps_pushes (eps_init_buffers b0) xs).buffer_index < 13 ∧
    ¬ (eps_pushes (eps_init_buffers b0) xs).buffer_index ≥ 13 ∧
    eps_extract_power_features (eps_pushes (eps_init_buffers b0) xs) f 9 =
      eps_extract_power_features (eps_pushes (eps_init_buffers b0) xs) f 4 := by
  have hidx := (eps_pushes_lags b0 xs).1
  have hn : ¬ (eps_pushes (eps_init_buffers b0) xs).buffer_index ≥ 13 := by omega
  refine ⟨hidx, hn, ?_⟩
  simp [eps_extract_power_features, Function.update, hn]

/-! ## Anomaly conditions in binary32 -/

theorem f32_constants :
    f32_round POWER_SPIKE_MULT = 5033165 / 4194304 ∧
    f32_round DV_DT_THRESH = 5033165 / 16777216 ∧
    f32_round DP_DT_THRESH = 1 / 2 ∧
    f32_round VOLTAGE_DROP_THRESH = 1 / 2 ∧
    f32_round (f32_round RESIDUAL_MULT * f32_round SIGMA_POWER) = 3 / 2 := by
  decide!

theorem f32_round_examples :
    f32_round 0 = 0 ∧ f32_round 1 = 1 ∧ f32_round (35 / 2) = 35 / 2 ∧
    f32_round (1 / 10) = 13421773 / 134217728 ∧
    f32_round (-(12 / 10)) = -(5033165 / 4194304) ∧
    f32_round 16777217 = 16777216 ∧ f32_round 16777219 = 16777220 ∧
    f32_round (1 / 2 ^ 150) = 0 ∧ f32_round (3 / 2 ^ 150) = 1 / 2 ^ 148 ∧
    f32_round (2 ^ 128 - 2 ^ 104) = 2 ^ 128 - 2 ^ 104 ∧
    f32_round (2 ^ 128 - 2 ^ 103) = 2 ^ 128 := by
  decide!

theorem f32_update_panels_self (s : System) (pid : Nat) (h : pid < NUM_PANELS) (t : Tick) :
    (F32.eps_protection_update s pid t).panels ⟨pid, h⟩ =
      (F32.update_panel pid (s.panels ⟨pid, h⟩) (s.ground_commands ⟨pid, h⟩)
        (decide (s.ground_commands ⟨pid, h⟩ = CMD_REENABLE)) t).panel := by
  have h2 : ¬ pid ≥ NUM_PANELS := Nat.not_le.mpr h
  simp [F32.eps_protection_update, check_ground_command, h2]

theorem f32_update_panel_prev (pid : Nat) (p : PanelProtection_t) (cmd : GroundCommand_t)
    (re : Bool) (t : Tick) :
    (F32.update_panel pid p cmd re t).panel.P_prev = t.P_measured ∧
      (F32.update_panel pid p cmd re t).panel.V_prev = t.V_measured := by
  unfold F32.update_panel
  cases hs : p.state
  · simp only [case_disabled]
    split <;> simp
  · simp only [case_enabled, case_enabled_chain, case_enabled_timeout]
    split <;> split <;> (try split) <;> (try split) <;> simp
  · simp only [case_tripped]
    split <;> split <;> simp
  · simp only [case_recovery]
    split <;> (try split) <;> simp

theorem f32_update_panel_eq (pid : Nat) (p : PanelProtection_t) (cmd : GroundCommand_t)
    (re : Bool) (t : Tick)
    (hflag : F32.anomaly_detected p t.P_measured t.V_measured t.P_predicted t.V_predicted =
      anomaly_detected p t.P_measured t.V_measured t.P_predicted t.V_predicted) :
    F32.update_panel pid p cmd re t = update_panel pid p cmd re t := by
  simp only [F32.update_panel, update_panel, hflag]

theorem f32_power_spike_iff (p : PanelProtection_t) (Pp : ℚ) :
    F32.power_spike p Pp = true ↔ Pp > f32_round (p.P_nominal * f32_round (12 / 10)) := by
  simp only [F32.power_spike, POWER_SPIKE_MULT, decide_eq_true_eq]

theorem f32_voltage_drop_iff (V Vp : ℚ) :
    F32.voltage_drop V Vp = true ↔ V < f32_round (Vp - 1 / 2) := by
  simp only [F32.voltage_drop, f32_constants.2.2.2.1, decide_eq_true_eq]

theorem f32_high_dynamics_iff (p : PanelProtection_t) (P V : ℚ) :
    F32.high_dynamics p P V = true ↔
      |f32_round (f32_round (P - p.P_prev) / 5)| > 1 / 2 ∧
      |f32_round (f32_round (V - p.V_prev) / 5)| > f32_round (3 / 10) := by
  simp only [F32.high_dynamics, F32.dP_dt, F32.dV_dt, fabsf, f32_constants.2.2.1,
    Bool.and_eq_true, decide_eq_true_eq]
  rfl

theorem f32_large_residual_iff (P Pp : ℚ) :
    F32.large_residual P Pp = true ↔ |f32_round (P - Pp)| > 3 / 2 := by
  simp only [F32.large_residual, F32.residual_power, fabsf, f32_constants.2.2.2.2,
    decide_eq_true_eq]

/-- C4, as stated, fails at the power_spike threshold.  Panel 0 has P_nominal = 8,
is DISABLED and has seen 8 W and 17.5 V; the next tick measures 12 W and 17.5 V
with predictions 9.6f (the binary32 number 5033165/524288) and 17.5 V, all
binary32 numbers.  Two of the four stated conditions hold: P_predicted >
1.2·P_nominal = 9.6 and |P_measured − P_predicted| > 1.5.  The code compares
P_predicted with the binary32 product 8 · 1.2f = 9.6f, so power_spike is false,
only large_residual holds, the tick is not anomalous and the panel stays
DISABLED. -/
theorem C4_power_spike_threshold_rounds :
    (eight_watt_panel.panels ⟨0, by decide⟩).state = COMP_DISABLED ∧
    (eight_watt_panel.panels ⟨0, by decide⟩).P_nominal = 8 ∧
    (eight_watt_panel.panels ⟨0, by decide⟩).P_prev = 8 ∧
    (eight_watt_panel.panels ⟨0, by decide⟩).V_prev = 35 / 2 ∧
    spike_threshold_tick.P_predicted = 5033165 / 524288 ∧
    f32_round spike_threshold_tick.P_predicted = spike_threshold_tick.P_predicted ∧
    spike_threshold_tick.P_predicted >
      12 / 10 * (eight_watt_panel.panels ⟨0, by decide⟩).P_nominal ∧
    |spike_threshold_tick.P_measured - spike_threshold_tick.P_predicted| > 3 * (1 / 2) ∧
    f32_round ((eight_watt_panel.panels ⟨0, by decide⟩).P_nominal * f32_round (12 / 10)) =
      5033165 / 524288 ∧
    F32.power_spike (eight_watt_panel.panels ⟨0, by decide⟩)
      spike_threshold_tick.P_predicted = false ∧
    F32.condition_count (eight_watt_panel.panels ⟨0, by decide⟩)
      spike_threshold_tick.P_measured spike_threshold_tick.V_measured
      spike_threshold_tick.P_predicted spike_threshold_tick.V_predicted = 1 ∧
    F32.anomalous eight_watt_panel ⟨0, by decide⟩ spike_threshold_tick = false ∧
    ((F32.eps_protection_update eight_watt_panel 0 spike_threshold_tick).panels
      ⟨0, by decide⟩).state = COMP_DISABLED := by
  refine ⟨by decide!, by decide!, by decide!, by decide!, by decide!, by decide!, by decide!,
    by decide!, by decide!, by decide!, by decide!, by decide!, by decide!⟩

/-- C4, amended: for every valid panel and every tick, the tick is treated as
anomalous exactly when at least two of these four conditions hold, each
evaluated in binary32 as the code does (fl rounds to binary32, 1.2f and 0.3f
are the binary32 constants): P_predicted > fl(P_nominal·1.2f); V_measured <
fl(V_predicted − 0.5); |fl(fl(P_measured − P_prev)/5)| > 0.5 and
|fl(fl(V_measured − V_prev)/5)| > 0.3f; |fl(P_measured − P_predicted)| > 1.5.
In every state, after the call P_prev and V_prev are the measurements of the
call. -/
theorem C4_anomaly_is_two_of_four_binary32 (s : System) (pid : Nat) (h : pid < NUM_PANELS)
    (t : Tick) :
    (F32.anomalous s ⟨pid, h⟩ t = true ↔
      two_of_four
        (t.P_predicted > f32_round ((s.panels ⟨pid, h⟩).P_nominal * f32_round (12 / 10)))
        (t.V_measured < f32_round (t.V_predicted - 1 / 2))
        (|f32_round (f32_round (t.P_measured - (s.panels ⟨pid, h⟩).P_prev) / 5)| > 1 / 2 ∧
          |f32_round (f32_round (t.V_measured - (s.panels ⟨pid, h⟩).V_prev) / 5)| >
            f32_round (3 / 10))
        (|f32_round (t.P_measured - t.P_predicted)| > 3 / 2)) ∧
    ((F32.eps_protection_update s pid t).panels ⟨pid, h⟩).P_prev = t.P_measured ∧
    ((F32.eps_protection_update s pid t).panels ⟨pid, h⟩).V_prev = t.V_measured := by
  refine ⟨?_, ?_⟩
  · unfold F32.anomalous F32.anomaly_detected F32.condition_count
    rw [decide_eq_true_iff, count_ge_two_iff, f32_power_spike_iff, f32_voltage_drop_iff,
      f32_high_dynamics_iff, f32_large_residual_iff]
  · rw [f32_update_panels_self]
    exact f32_update_panel_prev _ _ _ _ _

theorem C4_anomaly_is_two_of_four_binary32_witness :
    (0 < NUM_PANELS) ∧
    F32.anomalous eight_watt_panel ⟨0, by decide⟩ spike_threshold_tick = false ∧
    ¬ two_of_four
        (spike_threshold_tick.P_predicted >
          f32_round ((eight_watt_panel.panels ⟨0, by decide⟩).P_nominal * f32_round (12 / 10)))
        (spike_threshold_tick.V_measured < f32_round (spike_threshold_tick.V_predicted - 1 / 2))
        (|f32_round (f32_round (spike_threshold_tick.P_measured -
            (eight_watt_panel.panels ⟨0, by decide⟩).P_prev) / 5)| > 1 / 2 ∧
          |f32_round (f32_round (spike_threshold_tick.V_measured -
            (eight_watt_panel.panels ⟨0, by decide⟩).V_prev) / 5)| > f32_round (3 / 10))
        (|f32_round (spike_threshold_tick.P_measured - spike_threshold_tick.P_predicted)| >
          3 / 2) ∧
    ((F32.eps_protection_update eight_watt_panel 0 spike_threshold_tick).panels
      ⟨0, by decide⟩).P_prev = spike_threshold_tick.P_measured :=
  ⟨by decide, by decide!,
    fun h2 => absurd
      ((C4_anomaly_is_two_of_four_binary32 eight_watt_panel 0 (by decide)
        spike_threshold_tick).1.mpr h2) (by decide!),
    (C4_anomaly_is_two_of_four_binary32 eight_watt_panel 0 (by decide)
      spike_threshold_tick).2.1⟩

/-- C38, as stated, fails at the dV/dt threshold.  On the first update after
eps_protection_init (P_prev = V_prev = 0) with P_measured = 8 and V_measured =
1.5 + 2^-23, a binary32 number, |P_measured| > 2.5 and |V_measured| > 1.5 hold,
but the code computes dV_dt = fl(V_measured/5) = 0.3f, which is not above
0.3f: high_dynamics is false.  With P_predicted = 6 large_residual holds and
nothing else, so the panel stays DISABLED. -/
theorem C38_high_dynamics_threshold_rounds :
    ((F32.eps_protection_init power_on).panels ⟨0, by decide⟩).P_prev = 0 ∧
    ((F32.eps_protection_init power_on).panels ⟨0, by decide⟩).V_prev = 0 ∧
    f32_round dynamics_threshold_tick.P_measured = dynamics_threshold_tick.P_measured ∧
    f32_round dynamics_threshold_tick.V_measured = dynamics_threshold_tick.V_measured ∧
    |dynamics_threshold_tick.P_measured| > 5 / 2 ∧
    |dynamics_threshold_tick.V_measured| > 3 / 2 ∧
    F32.dV_dt ((F32.eps_protection_init power_on).panels ⟨0, by decide⟩)
      dynamics_threshold_tick.V_measured = f32_round (3 / 10) ∧
    F32.high_dynamics ((F32.eps_protection_init power_on).panels ⟨0, by decide⟩)
      dynamics_threshold_tick.P_measured dynamics_threshold_tick.V_measured = false ∧
    F32.large_residual dynamics_threshold_tick.P_measured
      dynamics_threshold_tick.P_predicted = true ∧
    F32.anomalous (F32.eps_protection_init power_on) ⟨0, by decide⟩
      dynamics_threshold_tick = false ∧
    ((F32.eps_protection_update (F32.eps_protection_init power_on) 0
      dynamics_threshold_tick).panels ⟨0, by decide⟩).state = COMP_DISABLED := by
  refine ⟨by decide!, by decide!, by decide!, by decide!, by decide!, by decide!, by decide!,
    by decide!, by decide!, by decide!, by decide!⟩

/-- C38, amended: on the first eps_protection_update of a panel after
eps_protection_init (P_prev = V_prev = 0), with binary32 measurements,
high_dynamics holds exactly when |fl(P_measured/5)| > 0.5 and
|fl(V_measured/5)| > 0.3f, the quotients rounded to binary32 and 0.3f the
binary32 constant; for the nominal sample (8.4f W, 17.5 V) it holds, and one
further condition (power_spike, voltage_drop or large_residual as the code
evaluates them) then moves the panel from DISABLED to ENABLED on that call, with
enable_count 1. -/
theorem C38_first_update_high_dynamics_binary32 (s0 : System) (pid : Nat)
    (h : pid < NUM_PANELS) (t : Tick)
    (hP : f32_round t.P_measured = t.P_measured)
    (hV : f32_round t.V_measured = t.V_measured) :
    (F32.high_dynamics ((F32.eps_protection_init s0).panels ⟨pid, h⟩) t.P_measured
        t.V_measured = true ↔
      |f32_round (t.P_measured / 5)| > 1 / 2 ∧
      |f32_round (t.V_measured / 5)| > f32_round (3 / 10)) ∧
    ((F32.eps_protection_init s0).panels ⟨pid, h⟩).state = COMP_DISABLED ∧
    (t.P_measured = f32_round (84 / 10) → t.V_measured = 35 / 2 →
      (F32.power_spike ((F32.eps_protection_init s0).panels ⟨pid, h⟩) t.P_predicted = true ∨
        F32.voltage_drop t.V_measured t.V_predicted = true ∨
        F32.large_residual t.P_measured t.P_predicted = true) →
      F32.high_dynamics ((F32.eps_protection_init s0).panels ⟨pid, h⟩) t.P_measured
        t.V_measured = true ∧
      ((F32.eps_protection_update (F32.eps_protection_init s0) pid t).panels
        ⟨pid, h⟩).state = COMP_ENABLED ∧
      ((F32.eps_protection_update (F32.eps_protection_init s0) pid t).panels
        ⟨pid, h⟩).enable_count = 1) := by
  have hiff : F32.high_dynamics ((F32.eps_protection_init s0).panels ⟨pid, h⟩) t.P_measured
      t.V_measured = true ↔
      |f32_round (t.P_measured / 5)| > 1 / 2 ∧
      |f32_round (t.V_measured / 5)| > f32_round (3 / 10) := by
    rw [f32_high_dynamics_iff]
    simp only [F32.eps_protection_init, init_panel_value, sub_zero, hP, hV]
  refine ⟨hiff, rfl, ?_⟩
  intro hPn hVn hone
  have hnom : |f32_round (f32_round (84 / 10) / 5)| > 1 / 2 ∧
      |f32_round ((35 / 2 : ℚ) / 5)| > f32_round (3 / 10) := by decide!
  have hhd : F32.high_dynamics ((F32.eps_protection_init s0).panels ⟨pid, h⟩) t.P_measured
      t.V_measured = true := by
    rw [hiff, hPn, hVn]
    exact hnom
  have ha : F32.anomaly_detected ((F32.eps_protection_init s0).panels ⟨pid, h⟩) t.P_measured
      t.V_measured t.P_predicted t.V_predicted = true := by
    simp only [F32.anomaly_detected, F32.condition_count, hhd]
    rcases hone with h1 | h1 | h1 <;> rw [h1]
    · cases F32.voltage_drop t.V_measured t.V_predicted <;>
        cases F32.large_residual t.P_measured t.P_predicted <;> decide
    · cases F32.power_spike ((F32.eps_protection_init s0).panels ⟨pid, h⟩) t.P_predicted <;>
        cases F32.large_residual t.P_measured t.P_predicted <;> decide
    · cases F32.power_spike ((F32.eps_protection_init s0).panels ⟨pid, h⟩) t.P_predicted <;>
        cases F32.voltage_drop t.V_measured t.V_predicted <;> decide
  have hs : ((F32.eps_protection_init s0).panels ⟨pid, h⟩).state = COMP_DISABLED := rfl
  have he : ((F32.eps_protection_init s0).panels ⟨pid, h⟩).enable_count = 0 := rfl
  refine ⟨hhd, ?_, ?_⟩
  · rw [f32_update_panels_self]
    simp [F32.update_panel, hs, case_disabled, ha]
  · rw [f32_update_panels_self]
    simp [F32.update_panel, hs, case_disabled, ha, he, u32]

theorem C38_first_update_high_dynamics_binary32_witness :
    f32_round (residual_tick_f32 0).P_measured = (residual_tick_f32 0).P_measured ∧
    f32_round (residual_tick_f32 0).V_measured = (residual_tick_f32 0).V_measured ∧
    (residual_tick_f32 0).P_measured = f32_round (84 / 10) ∧
    (residual_tick_f32 0).V_measured = 35 / 2 ∧
    F32.power_spike ((F32.eps_protection_init power_on).panels ⟨0, by decide⟩)
      (residual_tick_f32 0).P_predicted = false ∧
    F32.voltage_drop (residual_tick_f32 0).V_measured (residual_tick_f32 0).V_predicted =
      false ∧
    F32.large_residual (residual_tick_f32 0).P_measured (residual_tick_f32 0).P_predicted =
      true ∧
    ((F32.eps_protection_update (F32.eps_protection_init power_on) 0
      (residual_tick_f32 0)).panels ⟨0, by decide⟩).state = COMP_ENABLED :=
  ⟨by decide!, by decide!, rfl, rfl, by decide!, by decide!, by decide!,
    ((C38_first_update_high_dynamics_binary32 power_on 0 (by decide) (residual_tick_f32 0)
      (by decide!) (by decide!)).2.2 rfl rfl (Or.inr (Or.inr (by decide!)))).2.1⟩

/-- C28, as stated, fails after a second eps_main_init: the static sample count of
update_panel_history is not reset.  After start-up, eps_main_init and twelve
pushes for panel 0, a second eps_main_init clears the ready flag but leaves the
count at 12; then k = 1 call of update_panel_history brings the count to 13 and
both builders return true although k < 12. -/
theorem C28_ready_after_one_push_on_second_init :
    second_init =
      eps_main_init (push_history (eps_main_init deployment_power_on) 0
        (ramp_samples.take 12)) ∧
    (second_init.panel_buffers 0).initialized = false ∧
    second_init.sample_counts 0 = 12 ∧
    (ramp_samples.take 1).length = 1 ∧
    (build_power_features (push_history (eps_main_init (push_history
      (eps_main_init deployment_power_on) 0 (ramp_samples.take 12))) 0
        (ramp_samples.take 1)) 0 (fun _ => 0)).1 = true ∧
    (build_voltage_features (push_history (eps_main_init (push_history
      (eps_main_init deployment_power_on) 0 (ramp_samples.take 12))) 0
        (ramp_samples.take 1)) 0 (fun _ => 0)).1 = true := by
  refine ⟨rfl, by decide!, by decide!, by decide!, by decide!, by decide!⟩

/-- Rounding moves each of the four thresholds: for each condition there are
binary32 operands at which the exact reading holds and the binary32
computation does not.  Power spike: P_nominal = 8, P_predicted = 9.6f.  Voltage
drop: V_measured = −0.5, V_predicted = 2^-27.  High dynamics: P_prev = 0.5 −
2^-25, V_prev = 0, P_measured = 3, V_measured = 17.5.  Large residual:
P_measured = 2, P_predicted = 0.5 − 2^-25. -/
theorem f32_rounding_on_each_condition :
    (power_spike { init_panel_value with P_nominal := 8 } (f32_round (96 / 10)) = true ∧
      F32.power_spike { init_panel_value with P_nominal := 8 } (f32_round (96 / 10)) = false) ∧
    (f32_round (1 / 2 ^ 27) = 1 / 2 ^ 27 ∧
      voltage_drop (-(1 / 2)) (1 / 2 ^ 27) = true ∧
      F32.voltage_drop (-(1 / 2)) (1 / 2 ^ 27) = false) ∧
    (f32_round (1 / 2 - 1 / 2 ^ 25) = 1 / 2 - 1 / 2 ^ 25 ∧
      high_dynamics { init_panel_value with P_prev := 1 / 2 - 1 / 2 ^ 25 } 3 (35 / 2) = true ∧
      F32.high_dynamics { init_panel_value with P_prev := 1 / 2 - 1 / 2 ^ 25 } 3 (35 / 2) =
        false) ∧
    (large_residual 2 (1 / 2 - 1 / 2 ^ 25) = true ∧
      F32.large_residual 2 (1 / 2 - 1 / 2 ^ 25) = false) := by
  decide!

end EPS
